import Mathlib

/-!
Smart clothes-hanger controller (PROJECTSENSORV2).

A shallow embedding of the control firmware found under `PROJECTSENSORV2/src`
(`Config.h`, `Sensor.h`, `ControlLogic.h`, `Firebase.h`, `SystemError.h`,
`main.cpp`) together with theorems about it.

Modelling conventions.

* The firmware's file-scope globals and function-local `static` variables are
  the fields of one `State` record that every operation takes and returns.
* Everything the firmware reads from outside (the millisecond clock, the
  ultrasonic echo, the PIR pin, the rain pin, the DHT sensor, the config
  button, the cloud library's readiness / read / write results) is an oracle
  of the `World`: the k-th call of the primitive returns the k-th value, and
  the `State` holds one cursor per oracle.
* `unsigned long` is 32 bits on the target; clock values are reduced modulo
  `2^32` and differences are taken modulo `2^32`.
* A `float` or `double` quantity is the rational number it denotes. The
  result of every arithmetic operation and of every conversion of a decimal
  literal is rounded as IEEE 754 does, to the nearest binary32 (`roundFloat`)
  or binary64 (`roundDouble`) number with ties to even; comparisons are exact.
  A variable of type `float` holds a binary32 number, so an operation reads
  its operands through `roundFloat`. Infinities and NaN are not modelled.
* The two `while (true)` transit loops take a fuel argument; `none` means the
  call has not returned.
* `Serial` printing and the display are not modelled, except for the two
  prints that tell how a transit ended, which are kept in the event log.
* Clock reads whose value never reaches the control state (the `deviceUptime`
  and timestamp fields of telemetry payloads, the NTP resync timer of
  `handlePeriodicTasks`) consume no oracle value; the payloads themselves are
  not modelled. `delay` is the passing of time between two clock reads.
* The event log is a device of the model: it records, in order, the calls of
  the motor functions, the relay writes, how each transit loop ended, the
  alerts, the configuration saves and the remote clears.
-/

namespace SmartHanger

/-- The enumeration `HangerState` of `Config.h`. -/
inductive HangerState
  | EXTENDED
  | RETRACTED
  | HANGER_ERROR
  deriving DecidableEq, Repr

/-- The fields of `struct SystemConfig` (`Config.h`) that the control cycle
reads or writes. The Wi-Fi and cloud credentials and `version` are left out:
no modelled function touches them. -/
structure SystemConfig where
  deviceName : String
  deviceLocation : String
  motorTimeout : Nat
  sensorReadInterval : Nat
  distanceRetracted : ℚ
  distanceExtended : ℚ
  distanceTolerance : ℚ
  autoMode : Bool
  tempMinThreshold : ℚ
  tempMaxThreshold : ℚ
  humidityMinThreshold : ℚ
  humidityMaxThreshold : ℚ
  useCustomThresholds : Bool
  enablePirControl : Bool
  retractOnUserPresent : Bool
  pirRetractDelay : Nat
  requestedState : String
  deriving DecidableEq, Repr

/-- The JSON type tag that the cloud library reports in
`FirebaseJsonData::typeNum` (library type, not part of the repository). -/
inductive JsonType
  | JSON_NULL
  | JSON_BOOL
  | JSON_INT
  | JSON_DOUBLE
  | JSON_STRING
  | JSON_OBJECT
  | JSON_ARRAY
  deriving DecidableEq, Repr

/-- The library record `FirebaseJsonData` as the firmware reads it: the type
tag and the value under each of the views the firmware uses. -/
structure FirebaseJsonData where
  typeNum : JsonType
  boolValue : Bool
  intValue : Int
  floatValue : ℚ
  stringValue : String
  deriving DecidableEq, Repr

/-- The remote `/config` record: for every key that
`listenForFirebaseConfigChanges` asks for, what `json.get` delivers
(`none` when `json.get` returns false). -/
structure FirebaseJson where
  autoMode : Option FirebaseJsonData
  motorTimeout : Option FirebaseJsonData
  sensorReadInterval : Option FirebaseJsonData
  distanceExtended : Option FirebaseJsonData
  distanceRetracted : Option FirebaseJsonData
  distanceTolerance : Option FirebaseJsonData
  deviceName : Option FirebaseJsonData
  deviceLocation : Option FirebaseJsonData
  useCustomThresholds : Option FirebaseJsonData
  tempMinThreshold : Option FirebaseJsonData
  tempMaxThreshold : Option FirebaseJsonData
  humidityMinThreshold : Option FirebaseJsonData
  humidityMaxThreshold : Option FirebaseJsonData
  enablePirControl : Option FirebaseJsonData
  retractOnUserPresent : Option FirebaseJsonData
  pirRetractDelay : Option FirebaseJsonData
  requestedState : Option FirebaseJsonData
  deriving DecidableEq, Repr

/-- Observable actions, in the order the firmware performs them. -/
inductive Event
  /-- `extendHanger()` was entered. -/
  | extendCall
  /-- `retractHanger()` was entered. -/
  | retractCall
  /-- `digitalWrite(RELAY_PIN, level)`. -/
  | relayWrite (high : Bool)
  /-- The transit loop left through its "Target reached!" branch. -/
  | targetReached
  /-- The transit loop left through its "ERROR: Motor timeout" branch. -/
  | motorTimeoutError
  /-- `sendAlertToFirebase(level, _)`; `sent` tells whether the cloud was
  ready so that the alert was pushed. -/
  | alert (level : String) (sent : Bool)
  /-- `saveConfig()`. -/
  | saveConfig
  /-- `Firebase.RTDB.setString(.., "none")` on the remote `requestedState`,
  with its result. -/
  | remoteClear (ok : Bool)
  /-- `showErrorScreen(_)`. -/
  | errorScreen
  deriving DecidableEq, Repr

/-- The outside world as oracles: the value returned by the k-th call of each
primitive. -/
structure World where
  /-- `millis()`. -/
  clock : Nat → Nat
  /-- `pulseIn(ULTRASONIC_ECHO_PIN, HIGH, 30000)`, in microseconds. -/
  echo : Nat → Int
  /-- `digitalRead(PIR_PIN) == HIGH`. -/
  pir : Nat → Bool
  /-- `analogRead(RAIN_PIN)`. -/
  rain : Nat → Nat
  /-- `dht.readTemperature()`, `none` for NaN. -/
  dhtTemperature : Nat → Option ℚ
  /-- `dht.readHumidity()`, `none` for NaN. -/
  dhtHumidity : Nat → Option ℚ
  /-- `digitalRead(CONFIG_PIN) == LOW`. -/
  configButton : Nat → Bool
  /-- `Firebase.ready()`. -/
  fbReady : Nat → Bool
  /-- Result of `Firebase.RTDB.getJSON`. -/
  fbGet : Nat → Bool
  /-- Result of `Firebase.RTDB.setString`. -/
  fbSet : Nat → Bool

/-- The whole mutable state: globals of `Config.h`, the `static` locals of
`handlePirControl` and `handleSystemError`, `motionDetectedTime` of
`Sensor.h`, the relay pin level, the remote `/config` record, the oracle
cursors and the event log. The globals `deviceID`, `deviceName` and
`deviceLocation` only feed telemetry payloads and are left out. -/
structure State where
  sysConfig : SystemConfig
  currentState : HangerState
  motorRunning : Bool
  rainDetected : Bool
  userPresent : Bool
  manualMode : Bool
  manualCommandInProgress : Bool
  targetState : HangerState
  needToClearFirebaseState : Bool
  temperature : ℚ
  humidity : ℚ
  hangerDistance : ℚ
  motorStartTime : Nat
  motionDetectedTime : Nat
  lastUserPresence : Bool
  lastPirAction : Nat
  pirDelayStartTime : Nat
  pirDelayActive : Bool
  errorStartTime : Nat
  relay : Bool
  remote : FirebaseJson
  clockIdx : Nat
  echoIdx : Nat
  pirIdx : Nat
  rainIdx : Nat
  dhtIdx : Nat
  buttonIdx : Nat
  fbReadyIdx : Nat
  fbGetIdx : Nat
  fbSetIdx : Nat
  log : List Event
  deriving DecidableEq, Repr

/-- Width of `unsigned long` on the target. -/
def ULONG_MOD : Nat := 4294967296

/-- Difference of two `unsigned long` values, as the target computes it. -/
def usub (a b : Nat) : Nat := (a + ULONG_MOD - b % ULONG_MOD) % ULONG_MOD

/-- Appends one event to the log. -/
def State.emit (s : State) (e : Event) : State :=
  { s with log := s.log ++ [e] }

/-- `millis()`: the next clock value, and the state with the cursor moved. -/
def millis (w : World) (s : State) : Nat × State :=
  (w.clock s.clockIdx % ULONG_MOD, { s with clockIdx := s.clockIdx + 1 })

/-- `digitalWrite(RELAY_PIN, level)`. -/
def digitalWriteRelay (high : Bool) (s : State) : State :=
  { s with relay := high, log := s.log ++ [Event.relayWrite high] }

/-- The number of halvings that bring `n` below 2, which is the position of
the leading binary digit of `n`; `fuel` bounds the number of halvings. -/
def bitLength : Nat → Nat → Nat
  | 0, _ => 0
  | fuel + 1, n => if n < 2 then 0 else bitLength fuel (n / 2) + 1

/-- The binary exponent of the positive rational `n / d`: the integer `e`
with `2^e <= n / d < 2^(e+1)`. It is the difference of the leading digit
positions of `n` and `d`, or one less. -/
def binaryExponent (n d : Nat) : Int :=
  let e : Int := (bitLength n n : Int) - (bitLength d d : Int)
  let reached : Bool :=
    if 0 ≤ e then decide (d * 2 ^ e.toNat ≤ n) else decide (d ≤ n * 2 ^ (-e).toNat)
  if reached then e else e - 1

/-- The quotient `a / b` of two naturals (`b` positive) rounded to the nearest
integer, ties to the even one. -/
def divNearestEven (a b : Nat) : Nat :=
  let m := a / b
  let r := a % b
  if 2 * r < b then m
  else if b < 2 * r then m + 1
  else if m % 2 = 0 then m else m + 1

/-- Rounding to the nearest binary floating-point number with `p` significand
bits and least normal exponent `emin`, ties to even (the default rounding of
IEEE 754); below `2^emin` the spacing is that of the subnormal numbers. The
magnitude `n / d` with binary exponent `e` is scaled by `2^(p - 1 - e)`, rounded
to an integer significand and scaled back; the sign is kept. -/
def roundBinary (p : Nat) (emin : Int) (q : ℚ) : ℚ :=
  if q.num = 0 then 0
  else
    let n : Nat := q.num.natAbs
    let d : Nat := q.den
    let e : Int := if binaryExponent n d < emin then emin else binaryExponent n d
    let scale : Int := (p : Int) - 1 - e
    let magnitude : ℚ :=
      if 0 ≤ scale then mkRat (divNearestEven (n * 2 ^ scale.toNat) d) (2 ^ scale.toNat)
      else ((divNearestEven n (d * 2 ^ (-scale).toNat) * 2 ^ (-scale).toNat : Nat) : ℚ)
    if q.num < 0 then -magnitude else magnitude

/-- The value stored when a real result is assigned to, or computed in, the C
type `float` of the target (binary32). -/
def roundFloat (q : ℚ) : ℚ := roundBinary 24 (-126) q

/-- The value of a real result computed in the C type `double` (binary64),
also of a decimal literal such as `0.034` or `0.1`. -/
def roundDouble (q : ℚ) : ℚ := roundBinary 53 (-1022) q

/-- The difference of two `float` operands, as in `a - b` with both of type
`float`: the operands are the binary32 numbers the variables hold and the
result is rounded to binary32. -/
def floatSub (a b : ℚ) : ℚ := roundFloat (roundFloat a - roundFloat b)

/-- The sum of two `float` operands, rounded to binary32. -/
def floatAdd (a b : ℚ) : ℚ := roundFloat (roundFloat a + roundFloat b)

/-- The distance computed from an echo of `e` microseconds,
`float distance = (duration * 0.034) / 2` (`Sensor.h` 57): the product with the
`double` literal and the quotient are computed in `double`, and the result is
stored in a `float`. -/
def echoDistance (e : Int) : ℚ :=
  roundFloat (roundDouble (roundDouble ((e : ℚ) * roundDouble (34 / 1000)) / 2))

/-- `readUltrasonicDistance` (`Sensor.h`): distance in cm from the echo
duration, or the previous `hangerDistance` when the reading is invalid. -/
def readUltrasonicDistance (w : World) (s : State) : ℚ × State :=
  let duration : Int := w.echo s.echoIdx
  let distance : ℚ := echoDistance duration
  let s1 : State := { s with echoIdx := s.echoIdx + 1 }
  if 0 < distance ∧ distance < 400 then (distance, s1) else (s.hangerDistance, s1)

/-- The target test of the transit loops:
`d >= center - tolerance && d <= center + tolerance`, the difference and the
sum being computed in `float`. -/
def inBand (center tolerance d : ℚ) : Bool :=
  decide (floatSub center tolerance ≤ d) && decide (d ≤ floatAdd center tolerance)

/-- The `while (true)` loop of `extendHanger` (`ControlLogic.h` 32-51). -/
def extendLoop (w : World) (startTime : Nat) : Nat → State → Option State
  | 0, _ => none
  | fuel + 1, s =>
    let r := readUltrasonicDistance w s
    let s1 : State := { r.2 with hangerDistance := r.1 }
    if inBand s1.sysConfig.distanceExtended s1.sysConfig.distanceTolerance s1.hangerDistance then
      some (s1.emit Event.targetReached)
    else
      let m := millis w s1
      if usub m.1 startTime > m.2.sysConfig.motorTimeout then
        some (m.2.emit Event.motorTimeoutError)
      else
        extendLoop w startTime fuel m.2

/-- `extendHanger` (`ControlLogic.h` 20-58). -/
def extendHanger (w : World) (fuel : Nat) (s : State) : Option State :=
  let s0 := s.emit Event.extendCall
  if s0.currentState = HangerState.EXTENDED then some s0
  else
    let s1 := digitalWriteRelay true s0
    let m := millis w s1
    match extendLoop w m.1 fuel m.2 with
    | none => none
    | some s2 => some { digitalWriteRelay false s2 with currentState := HangerState.EXTENDED }

/-- The `while (true)` loop of `retractHanger` (`ControlLogic.h` 73-92). -/
def retractLoop (w : World) (startTime : Nat) : Nat → State → Option State
  | 0, _ => none
  | fuel + 1, s =>
    let r := readUltrasonicDistance w s
    let s1 : State := { r.2 with hangerDistance := r.1 }
    if inBand s1.sysConfig.distanceRetracted s1.sysConfig.distanceTolerance s1.hangerDistance then
      some (s1.emit Event.targetReached)
    else
      let m := millis w s1
      if usub m.1 startTime > m.2.sysConfig.motorTimeout then
        some (m.2.emit Event.motorTimeoutError)
      else
        retractLoop w startTime fuel m.2

/-- `retractHanger` (`ControlLogic.h` 61-99). -/
def retractHanger (w : World) (fuel : Nat) (s : State) : Option State :=
  let s0 := s.emit Event.retractCall
  if s0.currentState = HangerState.RETRACTED then some s0
  else
    let s1 := digitalWriteRelay true s0
    let m := millis w s1
    match retractLoop w m.1 fuel m.2 with
    | none => none
    | some s2 => some { digitalWriteRelay false s2 with currentState := HangerState.RETRACTED }

/-- `isGoodDryingConditions` (`Sensor.h` 132-156). -/
def isGoodDryingConditions (s : State) : Bool :=
  let tempMin := s.sysConfig.tempMinThreshold
  let tempMax := s.sysConfig.tempMaxThreshold
  let humidityMin := s.sysConfig.humidityMinThreshold
  let humidityMax := s.sysConfig.humidityMaxThreshold
  let tempOK := decide (s.temperature > tempMin) && decide (s.temperature < tempMax)
  let humidityOK := decide (s.humidity > humidityMin) && decide (s.humidity < humidityMax)
  let noRain := !s.rainDetected
  tempOK && humidityOK && noRain

/-- `isFirebaseConnected` (`Firebase.h` 80-85). -/
def isFirebaseConnected (w : World) (s : State) : Bool × State :=
  (w.fbReady s.fbReadyIdx, { s with fbReadyIdx := s.fbReadyIdx + 1 })

/-- `sendAlertToFirebase` (`Firebase.h` 386-418): the alert is pushed only
when the cloud is ready; nothing else changes. -/
def sendAlertToFirebase (w : World) (level : String) (s : State) : State :=
  let c := isFirebaseConnected w s
  c.2.emit (Event.alert level c.1)

/-- `saveConfig` (`Config.h` 248-283): writes the configuration to the
settings store. -/
def saveConfig (s : State) : State :=
  s.emit Event.saveConfig

/-- `executePirAction` (`ControlLogic.h` 148-174). -/
def executePirAction (w : World) (fuel : Nat) (s : State) : Option State :=
  if s.sysConfig.retractOnUserPresent then
    if s.userPresent && decide (s.currentState = HangerState.EXTENDED) then
      (retractHanger w fuel s).map (sendAlertToFirebase w "INFO")
    else if !s.userPresent && decide (s.currentState = HangerState.RETRACTED)
        && isGoodDryingConditions s then
      (extendHanger w fuel s).map (sendAlertToFirebase w "INFO")
    else some s
  else
    if s.userPresent && decide (s.currentState = HangerState.RETRACTED)
        && isGoodDryingConditions s then
      (extendHanger w fuel s).map (sendAlertToFirebase w "INFO")
    else if !s.userPresent && decide (s.currentState = HangerState.EXTENDED) then
      (retractHanger w fuel s).map (sendAlertToFirebase w "INFO")
    else some s

/-- The last `if` of `handlePirControl` (`ControlLogic.h` 138-144): the
delayed action. The clock is read only when `pirDelayActive` holds. -/
def pirDelayedAction (w : World) (fuel : Nat) (pirDelay : Nat) (s : State) : Option State :=
  if s.pirDelayActive then
    let m := millis w s
    if usub m.1 m.2.pirDelayStartTime ≥ pirDelay then
      (executePirAction w fuel m.2).map fun s1 =>
        let m1 := millis w { s1 with pirDelayActive := false }
        { m1.2 with lastPirAction := m1.1 }
    else some m.2
  else some s

/-- `handlePirControl` (`ControlLogic.h` 102-145). -/
def handlePirControl (w : World) (fuel : Nat) (s : State) : Option State :=
  if !s.sysConfig.enablePirControl then some s
  else
    let pirDelay : Nat := max 5000 s.sysConfig.pirRetractDelay
    if s.userPresent ≠ s.lastUserPresence then
      if decide (pirDelay > 0) && s.userPresent then
        let m := millis w { s with pirDelayActive := true }
        some { m.2 with pirDelayStartTime := m.1, lastUserPresence := m.2.userPresent }
      else
        (executePirAction w fuel s).bind fun s1 =>
          let m := millis w { s1 with lastUserPresence := s1.userPresent }
          pirDelayedAction w fuel pirDelay { m.2 with lastPirAction := m.1 }
    else pirDelayedAction w fuel pirDelay s

/-- `handleEmergencyRetraction` (`ControlLogic.h` 177-181). -/
def handleEmergencyRetraction (w : World) (fuel : Nat) (s : State) : Option State :=
  (retractHanger w fuel s).map (sendAlertToFirebase w "EMERGENCY")

/-- The weather rules of `executeControlLogic` (`ControlLogic.h` 216-238):
priorities 3 and 4 and the final "no action". -/
def weatherRules (w : World) (fuel : Nat) (s : State) : Option State :=
  if decide (s.currentState = HangerState.RETRACTED) && isGoodDryingConditions s then
    if s.sysConfig.enablePirControl && s.userPresent then some s
    else (extendHanger w fuel s).map (sendAlertToFirebase w "INFO")
  else if decide (s.currentState = HangerState.EXTENDED) && !isGoodDryingConditions s then
    (retractHanger w fuel s).map (sendAlertToFirebase w "WARNING")
  else some s

/-- `executeControlLogic` (`ControlLogic.h` 184-238). -/
def executeControlLogic (w : World) (fuel : Nat) (s : State) : Option State :=
  if s.rainDetected && decide (s.currentState = HangerState.EXTENDED) then
    handleEmergencyRetraction w fuel s
  else if s.manualMode then some s
  else if s.sysConfig.enablePirControl then
    (handlePirControl w fuel s).bind (weatherRules w fuel)
  else weatherRules w fuel s

/-- `handleControlLogic` (`main.cpp` 219-225). -/
def handleControlLogic (w : World) (fuel : Nat) (s : State) : Option State :=
  if s.manualCommandInProgress then some s
  else executeControlLogic w fuel s

/-- `checkManualCommandCompletion` (`Config.h` 450-475). -/
def checkManualCommandCompletion (s : State) : State :=
  if s.manualCommandInProgress then
    if s.currentState = s.targetState then
      let s1 : State := { s with manualCommandInProgress := false }
      let s2 : State := { s1 with sysConfig := { s1.sysConfig with requestedState := "none" } }
      let s3 := saveConfig s2
      { s3 with needToClearFirebaseState := true }
    else s
  else s

/-- The type test `typeNum == JSON_INT || typeNum == JSON_DOUBLE` used for
every numeric field of the remote record. -/
def isJsonNumber (d : FirebaseJsonData) : Bool :=
  decide (d.typeNum = JsonType.JSON_INT) || decide (d.typeNum = JsonType.JSON_DOUBLE)

/-- The cast `(unsigned long)jsonData.intValue`. -/
def toULong (i : Int) : Nat := (i % (ULONG_MOD : Int)).toNat

/-- Remote `autoMode` (`Firebase.h` 488-497). The second component is the
local `configChanged`. -/
def cfgAutoMode (json : FirebaseJson) (p : State × Bool) : State × Bool :=
  match json.autoMode with
  | some d =>
    if decide (d.typeNum = JsonType.JSON_BOOL) && decide (p.1.sysConfig.autoMode ≠ d.boolValue) then
      ({ p.1 with sysConfig := { p.1.sysConfig with autoMode := d.boolValue },
                  manualMode := !d.boolValue }, true)
    else p
  | none => p

/-- Remote `motorTimeout` (`Firebase.h` 499-507). -/
def cfgMotorTimeout (json : FirebaseJson) (p : State × Bool) : State × Bool :=
  match json.motorTimeout with
  | some d =>
    let newTimeout := toULong d.intValue
    if isJsonNumber d && decide (p.1.sysConfig.motorTimeout ≠ newTimeout)
        && decide (newTimeout > 0) && decide (newTimeout ≤ 300000) then
      ({ p.1 with sysConfig := { p.1.sysConfig with motorTimeout := newTimeout } }, true)
    else p
  | none => p

/-- Remote `sensorReadInterval` (`Firebase.h` 509-517). -/
def cfgSensorReadInterval (json : FirebaseJson) (p : State × Bool) : State × Bool :=
  match json.sensorReadInterval with
  | some d =>
    let newInterval := toULong d.intValue
    if isJsonNumber d && decide (p.1.sysConfig.sensorReadInterval ≠ newInterval)
        && decide (newInterval ≥ 1000) && decide (newInterval ≤ 60000) then
      ({ p.1 with sysConfig := { p.1.sysConfig with sensorReadInterval := newInterval } }, true)
    else p
  | none => p

/-- Remote `distanceExtended` (`Firebase.h` 519-527). -/
def cfgDistanceExtended (json : FirebaseJson) (p : State × Bool) : State × Bool :=
  match json.distanceExtended with
  | some d =>
    let v := d.floatValue
    if isJsonNumber d && decide (|floatSub p.1.sysConfig.distanceExtended v| > 1 / 2)
        && decide (v ≥ 10) && decide (v ≤ 200) then
      ({ p.1 with sysConfig := { p.1.sysConfig with distanceExtended := v } }, true)
    else p
  | none => p

/-- Remote `distanceRetracted` (`Firebase.h` 529-536). -/
def cfgDistanceRetracted (json : FirebaseJson) (p : State × Bool) : State × Bool :=
  match json.distanceRetracted with
  | some d =>
    let v := d.floatValue
    if isJsonNumber d && decide (|floatSub p.1.sysConfig.distanceRetracted v| > 1 / 2)
        && decide (v ≥ 5) && decide (v ≤ 100) then
      ({ p.1 with sysConfig := { p.1.sysConfig with distanceRetracted := v } }, true)
    else p
  | none => p

/-- Remote `distanceTolerance` (`Firebase.h` 538-545). -/
def cfgDistanceTolerance (json : FirebaseJson) (p : State × Bool) : State × Bool :=
  match json.distanceTolerance with
  | some d =>
    let v := d.floatValue
    if isJsonNumber d && decide (|floatSub p.1.sysConfig.distanceTolerance v| > 1 / 2)
        && decide (v ≥ 1) && decide (v ≤ 20) then
      ({ p.1 with sysConfig := { p.1.sysConfig with distanceTolerance := v } }, true)
    else p
  | none => p

/-- Remote `deviceName` (`Firebase.h` 547-556). -/
def cfgDeviceName (json : FirebaseJson) (p : State × Bool) : State × Bool :=
  match json.deviceName with
  | some d =>
    if decide (d.typeNum = JsonType.JSON_STRING)
        && decide (p.1.sysConfig.deviceName ≠ d.stringValue)
        && decide (d.stringValue.utf8ByteSize < 32) then
      ({ p.1 with sysConfig := { p.1.sysConfig with deviceName := d.stringValue } }, true)
    else p
  | none => p

/-- Remote `deviceLocation` (`Firebase.h` 558-567). -/
def cfgDeviceLocation (json : FirebaseJson) (p : State × Bool) : State × Bool :=
  match json.deviceLocation with
  | some d =>
    if decide (d.typeNum = JsonType.JSON_STRING)
        && decide (p.1.sysConfig.deviceLocation ≠ d.stringValue)
        && decide (d.stringValue.utf8ByteSize < 32) then
      ({ p.1 with sysConfig := { p.1.sysConfig with deviceLocation := d.stringValue } }, true)
    else p
  | none => p

/-- Remote `useCustomThresholds` (`Firebase.h` 569-577). -/
def cfgUseCustomThresholds (json : FirebaseJson) (p : State × Bool) : State × Bool :=
  match json.useCustomThresholds with
  | some d =>
    if decide (d.typeNum = JsonType.JSON_BOOL)
        && decide (p.1.sysConfig.useCustomThresholds ≠ d.boolValue) then
      ({ p.1 with sysConfig := { p.1.sysConfig with useCustomThresholds := d.boolValue } }, true)
    else p
  | none => p

/-- Remote `tempMinThreshold` (`Firebase.h` 579-586). -/
def cfgTempMin (json : FirebaseJson) (p : State × Bool) : State × Bool :=
  match json.tempMinThreshold with
  | some d =>
    let v := d.floatValue
    if isJsonNumber d
        && decide (|floatSub p.1.sysConfig.tempMinThreshold v| > roundDouble (1 / 10))
        && decide (v ≥ 0) && decide (v ≤ 50) then
      ({ p.1 with sysConfig := { p.1.sysConfig with tempMinThreshold := v } }, true)
    else p
  | none => p

/-- Remote `tempMaxThreshold` (`Firebase.h` 588-595). -/
def cfgTempMax (json : FirebaseJson) (p : State × Bool) : State × Bool :=
  match json.tempMaxThreshold with
  | some d =>
    let v := d.floatValue
    if isJsonNumber d
        && decide (|floatSub p.1.sysConfig.tempMaxThreshold v| > roundDouble (1 / 10))
        && decide (v ≥ 0) && decide (v ≤ 60) then
      ({ p.1 with sysConfig := { p.1.sysConfig with tempMaxThreshold := v } }, true)
    else p
  | none => p

/-- Remote `humidityMinThreshold` (`Firebase.h` 597-604). -/
def cfgHumidityMin (json : FirebaseJson) (p : State × Bool) : State × Bool :=
  match json.humidityMinThreshold with
  | some d =>
    let v := d.floatValue
    if isJsonNumber d
        && decide (|floatSub p.1.sysConfig.humidityMinThreshold v| > roundDouble (1 / 10))
        && decide (v ≥ 0) && decide (v ≤ 100) then
      ({ p.1 with sysConfig := { p.1.sysConfig with humidityMinThreshold := v } }, true)
    else p
  | none => p

/-- Remote `humidityMaxThreshold` (`Firebase.h` 606-613). -/
def cfgHumidityMax (json : FirebaseJson) (p : State × Bool) : State × Bool :=
  match json.humidityMaxThreshold with
  | some d =>
    let v := d.floatValue
    if isJsonNumber d
        && decide (|floatSub p.1.sysConfig.humidityMaxThreshold v| > roundDouble (1 / 10))
        && decide (v ≥ 0) && decide (v ≤ 100) then
      ({ p.1 with sysConfig := { p.1.sysConfig with humidityMaxThreshold := v } }, true)
    else p
  | none => p

/-- Remote `enablePirControl` (`Firebase.h` 615-623). -/
def cfgEnablePirControl (json : FirebaseJson) (p : State × Bool) : State × Bool :=
  match json.enablePirControl with
  | some d =>
    if decide (d.typeNum = JsonType.JSON_BOOL)
        && decide (p.1.sysConfig.enablePirControl ≠ d.boolValue) then
      ({ p.1 with sysConfig := { p.1.sysConfig with enablePirControl := d.boolValue } }, true)
    else p
  | none => p

/-- Remote `retractOnUserPresent` (`Firebase.h` 625-633). -/
def cfgRetractOnUserPresent (json : FirebaseJson) (p : State × Bool) : State × Bool :=
  match json.retractOnUserPresent with
  | some d =>
    if decide (d.typeNum = JsonType.JSON_BOOL)
        && decide (p.1.sysConfig.retractOnUserPresent ≠ d.boolValue) then
      ({ p.1 with sysConfig := { p.1.sysConfig with retractOnUserPresent := d.boolValue } }, true)
    else p
  | none => p

/-- Remote `pirRetractDelay` (`Firebase.h` 635-642). -/
def cfgPirRetractDelay (json : FirebaseJson) (p : State × Bool) : State × Bool :=
  match json.pirRetractDelay with
  | some d =>
    let newPirDelay := toULong d.intValue
    if isJsonNumber d && decide (p.1.sysConfig.pirRetractDelay ≠ newPirDelay)
        && decide (newPirDelay ≥ 0) && decide (newPirDelay ≤ 60000) then
      ({ p.1 with sysConfig := { p.1.sysConfig with pirRetractDelay := newPirDelay } }, true)
    else p
  | none => p

/-- The configuration part of `listenForFirebaseConfigChanges`
(`Firebase.h` 486-642), field by field in source order, starting from
`configChanged = false`. -/
def applyRemoteConfig (json : FirebaseJson) (s : State) : State × Bool :=
  (s, false)
    |> cfgAutoMode json
    |> cfgMotorTimeout json
    |> cfgSensorReadInterval json
    |> cfgDistanceExtended json
    |> cfgDistanceRetracted json
    |> cfgDistanceTolerance json
    |> cfgDeviceName json
    |> cfgDeviceLocation json
    |> cfgUseCustomThresholds json
    |> cfgTempMin json
    |> cfgTempMax json
    |> cfgHumidityMin json
    |> cfgHumidityMax json
    |> cfgEnablePirControl json
    |> cfgRetractOnUserPresent json
    |> cfgPirRetractDelay json

/-- The assignments made when a remote request is accepted, before the motor
function is called (`Firebase.h` 662-666 and 681-685). -/
def beginManualCommand (name : String) (target : HangerState) (s : State) : State :=
  { s with sysConfig := { s.sysConfig with requestedState := name, autoMode := false },
           manualMode := true,
           manualCommandInProgress := true,
           targetState := target }

/-- The `requestedState` part of `listenForFirebaseConfigChanges`
(`Firebase.h` 644-711). -/
def handleRequestedState (w : World) (fuel : Nat) (json : FirebaseJson) (p : State × Bool) :
    Option (State × Bool) :=
  match json.requestedState with
  | some d =>
    if d.typeNum = JsonType.JSON_STRING then
      let requestedState := d.stringValue
      if !p.1.manualCommandInProgress && decide (requestedState.utf8ByteSize > 0)
          && decide (requestedState ≠ "none") then
        if requestedState = "extend" ∨ requestedState = "EXTENDED"
            ∨ requestedState = "extended" then
          (extendHanger w fuel (beginManualCommand "extend" HangerState.EXTENDED p.1)).map
            fun s1 => (s1, true)
        else if requestedState = "retract" ∨ requestedState = "RETRACTED"
            ∨ requestedState = "retracted" then
          (retractHanger w fuel (beginManualCommand "retract" HangerState.RETRACTED p.1)).map
            fun s1 => (s1, true)
        else some p
      else some p
    else some p
  | none => some p

/-- The end of `listenForFirebaseConfigChanges` (`Firebase.h` 713-724):
persist and confirm when anything changed. -/
def saveIfChanged (w : World) (p : State × Bool) : State :=
  if p.2 then
    let s1 := saveConfig p.1
    if !s1.manualCommandInProgress then sendAlertToFirebase w "INFO" s1 else s1
  else p.1

/-- `listenForFirebaseConfigChanges` (`Firebase.h` 476-733). -/
def listenForFirebaseConfigChanges (w : World) (fuel : Nat) (s : State) : Option State :=
  let c := isFirebaseConnected w s
  if !c.1 then some c.2
  else
    let ok := w.fbGet c.2.fbGetIdx
    let s1 : State := { c.2 with fbGetIdx := c.2.fbGetIdx + 1 }
    if ok then
      let json := s1.remote
      (handleRequestedState w fuel json (applyRemoteConfig json s1)).map (saveIfChanged w)
    else some s1

/-- What the remote `requestedState` holds after the device has written
"none" to it. -/
def jsonNone : FirebaseJsonData :=
  { typeNum := JsonType.JSON_STRING, boolValue := false, intValue := 0, floatValue := 0,
    stringValue := "none" }

/-- `clearFirebaseRequestedState` (`Firebase.h` 735-750). -/
def clearFirebaseRequestedState (w : World) (s : State) : State :=
  let c := isFirebaseConnected w s
  if !c.1 then c.2
  else
    let ok := w.fbSet c.2.fbSetIdx
    let s1 : State := { c.2 with fbSetIdx := c.2.fbSetIdx + 1 }
    let s2 := s1.emit (Event.remoteClear ok)
    if ok then { s2 with remote := { s2.remote with requestedState := some jsonNone } }
    else s2

/-- `sendSensorDataToFirebase` (`Firebase.h` 235-265): telemetry only. -/
def sendSensorDataToFirebase (w : World) (s : State) : State :=
  (isFirebaseConnected w s).2

/-- `sendSystemStatusToFirebase` (`Firebase.h` 267-303): telemetry only. -/
def sendSystemStatusToFirebase (w : World) (s : State) : State :=
  (isFirebaseConnected w s).2

/-- `handleFirebaseOperations` (`main.cpp` 189-207). -/
def handleFirebaseOperations (w : World) (fuel : Nat) (s : State) : Option State :=
  let c := isFirebaseConnected w s
  if !c.1 then some c.2
  else
    (listenForFirebaseConfigChanges w fuel c.2).map fun s1 =>
      let s2 := if !s1.manualCommandInProgress then sendSensorDataToFirebase w s1 else s1
      let s3 := sendSystemStatusToFirebase w s2
      if s3.needToClearFirebaseState then
        { clearFirebaseRequestedState w s3 with needToClearFirebaseState := false }
      else s3

/-- `readDHT11` (`Sensor.h` 74-88). -/
def readDHT11 (w : World) (s : State) : State :=
  let s1 : State := { s with dhtIdx := s.dhtIdx + 1 }
  match w.dhtTemperature s.dhtIdx, w.dhtHumidity s.dhtIdx with
  | some newTemp, some newHum => { s1 with temperature := newTemp, humidity := newHum }
  | _, _ => s1

/-- The constant `MOTION_TIMEOUT` of `Sensor.h`. -/
def MOTION_TIMEOUT : Nat := 10000

/-- `readPIR` (`Sensor.h` 93-114). -/
def readPIR (w : World) (s : State) : State :=
  let pirValue := w.pir s.pirIdx
  let s1 : State := { s with pirIdx := s.pirIdx + 1 }
  let m := millis w s1
  if pirValue then
    { m.2 with motionDetectedTime := m.1, userPresent := true }
  else if usub m.1 m.2.motionDetectedTime > MOTION_TIMEOUT then
    { m.2 with userPresent := false }
  else
    { m.2 with userPresent := true }

/-- `readRainSensor` (`Sensor.h` 117-123). -/
def readRainSensor (w : World) (s : State) : State :=
  { s with rainDetected := decide (w.rain s.rainIdx > 0), rainIdx := s.rainIdx + 1 }

/-- `readSensors` (`Sensor.h` 125-130). -/
def readSensors (w : World) (s : State) : State :=
  let s1 := readRainSensor w (readPIR w (readDHT11 w s))
  let r := readUltrasonicDistance w s1
  { r.2 with hangerDistance := r.1 }

/-- `handleSystemTasks` (`main.cpp` 175-187). A pressed config button enters
the configuration portal, which never returns. -/
def handleSystemTasks (w : World) (s : State) : Option State :=
  let s1 := checkManualCommandCompletion s
  let pressed := w.configButton s1.buttonIdx
  let s2 : State := { s1 with buttonIdx := s1.buttonIdx + 1 }
  if pressed then none else some (readSensors w s2)

/-- `stopMotor` (`ControlLogic.h` 269-273). -/
def stopMotor (s : State) : State :=
  { digitalWriteRelay false s with motorRunning := false }

/-- `checkLimitDistances` (`ControlLogic.h` 276-283). The clock is read only
when `motorRunning` holds. -/
def checkLimitDistances (w : World) (s : State) : State :=
  if s.motorRunning then
    let m := millis w s
    if usub m.1 m.2.motorStartTime > m.2.sysConfig.motorTimeout then
      { stopMotor m.2 with currentState := HangerState.HANGER_ERROR }
    else m.2
  else s

/-- `handleSystemError` (`SystemError.h` 9-43). -/
def handleSystemError (w : World) (s : State) : State :=
  let s1 :=
    if s.errorStartTime = 0 then
      let m := millis w s
      sendAlertToFirebase w "ERROR" { m.2 with errorStartTime := m.1 }
    else s
  let s2 := s1.emit Event.errorScreen
  let s3 : State := { digitalWriteRelay false s2 with motorRunning := false }
  let m := millis w s3
  if usub m.1 m.2.errorStartTime > 30000 then
    let s4 : State := { m.2 with currentState := HangerState.RETRACTED, errorStartTime := 0 }
    sendAlertToFirebase w "INFO" (checkLimitDistances w s4)
  else m.2

/-- `handleSafetyChecks` (`main.cpp` 209-217). -/
def handleSafetyChecks (w : World) (s : State) : State :=
  let s1 := checkLimitDistances w s
  if s1.currentState = HangerState.HANGER_ERROR then handleSystemError w s1 else s1

/-- One pass of `loop` (`main.cpp` 251-262); the NTP resync and the display
refresh do not touch the state. -/
def loop (w : World) (fuel : Nat) (s : State) : Option State :=
  (handleSystemTasks w s).bind fun s1 =>
    (handleFirebaseOperations w fuel s1).bind fun s2 =>
      handleControlLogic w fuel (handleSafetyChecks w s2)

/-- Number of calls of `extendHanger` and `retractHanger` recorded in a log. -/
def motorCalls (l : List Event) : Nat :=
  l.count Event.extendCall + l.count Event.retractCall

/-- Number of times the relay was switched on recorded in a log. -/
def relayEngagements (l : List Event) : Nat :=
  l.count (Event.relayWrite true)

/-! ## Specification vocabulary -/

/-- What a transit loop may change: the distance, the two sensor cursors and
the log, which grows by exactly one event telling how the loop ended. -/
def LoopFrame (s s1 : State) : Prop :=
  ∃ (d : ℚ) (e c : Nat) (ev : Event),
    s1 = { s with hangerDistance := d, echoIdx := e, clockIdx := c, log := s.log ++ [ev] }
      ∧ (ev = Event.targetReached ∨ ev = Event.motorTimeoutError)

/-- What a motor function does to the state when it returns, for the target
position `tgt` and its call event `call`: either the early return, which only
logs the call, or a full transit, which ends with the relay off and the
position set to the target. -/
def TransitFrame (tgt : HangerState) (call : Event) (s s1 : State) : Prop :=
  (s.currentState = tgt ∧ s1 = { s with log := s.log ++ [call] })
  ∨ (s.currentState ≠ tgt ∧ ∃ (d : ℚ) (e c : Nat) (ev : Event),
      s1 = { s with currentState := tgt, relay := false, hangerDistance := d, echoIdx := e,
                    clockIdx := c,
                    log := s.log ++ [call] ++ [Event.relayWrite true] ++ [ev]
                            ++ [Event.relayWrite false] }
        ∧ (ev = Event.targetReached ∨ ev = Event.motorTimeoutError))

/-! ## Concrete configurations, states and worlds -/

/-- The configuration written by `resetConfig` (`Config.h` 285-316); the
fields it does not assign keep the zero value of the global. -/
def defaultConfig : SystemConfig :=
  { deviceName := "Smart_Hanger_1", deviceLocation := "Backyard",
    motorTimeout := 30000, sensorReadInterval := 2000,
    distanceRetracted := 20, distanceExtended := 50, distanceTolerance := 5,
    autoMode := true,
    tempMinThreshold := 25, tempMaxThreshold := 40,
    humidityMinThreshold := 30, humidityMaxThreshold := 70,
    useCustomThresholds := false,
    enablePirControl := false, retractOnUserPresent := false, pirRetractDelay := 0,
    requestedState := "none" }

/-- A remote record with no key at all. -/
def emptyJson : FirebaseJson :=
  { autoMode := none, motorTimeout := none, sensorReadInterval := none,
    distanceExtended := none, distanceRetracted := none, distanceTolerance := none,
    deviceName := none, deviceLocation := none, useCustomThresholds := none,
    tempMinThreshold := none, tempMaxThreshold := none, humidityMinThreshold := none,
    humidityMaxThreshold := none, enablePirControl := none, retractOnUserPresent := none,
    pirRetractDelay := none, requestedState := none }

/-- The initial values of the globals (`Config.h` 148-160) and statics, with
the default configuration, the sensor defaults of `initializeSensors`, an
empty remote record and an empty log. -/
def bootState : State :=
  { sysConfig := defaultConfig, currentState := HangerState.RETRACTED, motorRunning := false,
    rainDetected := false, userPresent := false, manualMode := false,
    manualCommandInProgress := false, targetState := HangerState.RETRACTED,
    needToClearFirebaseState := false, temperature := 25, humidity := 50,
    hangerDistance := 20, motorStartTime := 0, motionDetectedTime := 0,
    lastUserPresence := false, lastPirAction := 0, pirDelayStartTime := 0,
    pirDelayActive := false, errorStartTime := 0, relay := false, remote := emptyJson,
    clockIdx := 0, echoIdx := 0, pirIdx := 0, rainIdx := 0, dhtIdx := 0, buttonIdx := 0,
    fbReadyIdx := 0, fbGetIdx := 0, fbSetIdx := 0, log := [] }

/-- A JSON string value. -/
def jsonString (v : String) : FirebaseJsonData :=
  { typeNum := JsonType.JSON_STRING, boolValue := false, intValue := 0, floatValue := 0,
    stringValue := v }

/-- A JSON boolean value. -/
def jsonBool (b : Bool) : FirebaseJsonData :=
  { typeNum := JsonType.JSON_BOOL, boolValue := b, intValue := 0, floatValue := 0,
    stringValue := "" }

/-- A world whose clock advances 100 ms per read, whose echo is the constant
`echo` microseconds, with the cloud always ready and every cloud read and
write succeeding; no rain, no motion, no button. -/
def steadyWorld (echo : Int) : World :=
  { clock := fun k => 100 * k, echo := fun _ => echo, pir := fun _ => false,
    rain := fun _ => 0, dhtTemperature := fun _ => some 30, dhtHumidity := fun _ => some 50,
    configButton := fun _ => false, fbReady := fun _ => true, fbGet := fun _ => true,
    fbSet := fun _ => true }

/-- Boot state, but Position is Extended and the relay pin is high. -/
def relayOnExtended : State :=
  { bootState with currentState := HangerState.EXTENDED, relay := true }

/-- The control inputs that neither a motor function nor an alert changes:
configuration, mode flags, command bookkeeping, the sensor snapshot other than
the distance, and the remote record. -/
def SameControl (s s1 : State) : Prop :=
  s1.sysConfig = s.sysConfig ∧ s1.manualMode = s.manualMode
    ∧ s1.manualCommandInProgress = s.manualCommandInProgress
    ∧ s1.targetState = s.targetState
    ∧ s1.needToClearFirebaseState = s.needToClearFirebaseState
    ∧ s1.rainDetected = s.rainDetected ∧ s1.userPresent = s.userPresent
    ∧ s1.temperature = s.temperature ∧ s1.humidity = s.humidity
    ∧ s1.remote = s.remote

/-- The effect of a piece of control code on the motor: the control inputs
are kept and the log gains exactly `ne` calls of `extendHanger` and `nr` calls
of `retractHanger`. -/
def MotorEffect (ne nr : Nat) (s s1 : State) : Prop :=
  SameControl s s1
    ∧ s1.log.count Event.extendCall = s.log.count Event.extendCall + ne
    ∧ s1.log.count Event.retractCall = s.log.count Event.retractCall + nr

/-- The guard under which `executePirAction` calls a motor function. -/
def pirActs (s : State) : Bool :=
  if s.sysConfig.retractOnUserPresent then
    (s.userPresent && decide (s.currentState = HangerState.EXTENDED))
      || (!s.userPresent && decide (s.currentState = HangerState.RETRACTED)
            && isGoodDryingConditions s)
  else
    (s.userPresent && decide (s.currentState = HangerState.RETRACTED)
        && isGoodDryingConditions s)
      || (!s.userPresent && decide (s.currentState = HangerState.EXTENDED))

/-- Rain is detected and Position is Extended while a manual extend command
is still marked in progress (the state right after the command was accepted
and carried out). -/
def rainDuringCommand : State :=
  { bootState with
      sysConfig := { defaultConfig with autoMode := false, requestedState := "extend" },
      currentState := HangerState.EXTENDED, rainDetected := true, manualMode := true,
      manualCommandInProgress := true, targetState := HangerState.EXTENDED }

/-- Rain is detected and Position is Extended, no manual command. -/
def rainWhileExtended : State :=
  { bootState with currentState := HangerState.EXTENDED, rainDetected := true }

/-- Occupancy control enabled under the access policy, Position Extended,
good drying conditions, and the user has just become absent (`userPresent` is
false, `lastUserPresence` still true). -/
def userJustLeft : State :=
  { bootState with
      sysConfig := { defaultConfig with enablePirControl := true, retractOnUserPresent := false },
      currentState := HangerState.EXTENDED, temperature := 30, humidity := 50,
      userPresent := false, lastUserPresence := true }

/-- As `steadyWorld`, but the first echo is 1176 us (about 20 cm, the
retracted band) and every later echo is 2941 us (about 50 cm, the extended
band). -/
def twoTransitWorld : World :=
  { steadyWorld 2941 with echo := fun k => if k = 0 then 1176 else 2941 }

/-- What a configuration field other than `autoMode` may change when it is
synchronised from the remote record: the configuration only, and within it
neither `autoMode` nor `requestedState`. -/
def CfgOther (p q : State × Bool) : Prop :=
  ∃ c : SystemConfig, q.1 = { p.1 with sysConfig := c }
    ∧ c.autoMode = p.1.sysConfig.autoMode ∧ c.requestedState = p.1.sysConfig.requestedState

/-- The local state of `listenForFirebaseConfigChanges` once the cloud was
found ready, the remote record was read and its configuration fields were
applied, just before `requestedState` is looked at. -/
def afterConfigSync (s : State) : State :=
  (applyRemoteConfig s.remote
    { s with fbReadyIdx := s.fbReadyIdx + 1, fbGetIdx := s.fbGetIdx + 1 }).1

/-- The remote record carries `autoMode = true` as a JSON boolean. -/
def remoteEnablesAuto (s : State) : Prop :=
  ∃ d, s.remote.autoMode = some d ∧ d.typeNum = JsonType.JSON_BOOL ∧ d.boolValue = true

/-- A manual extend command has been accepted and carried out and is still
marked in progress, while the remote record holds the request together with
`autoMode = true`. -/
def commandPending : State :=
  { bootState with
      sysConfig := { defaultConfig with autoMode := false, requestedState := "extend" },
      currentState := HangerState.EXTENDED, manualMode := true,
      manualCommandInProgress := true, targetState := HangerState.EXTENDED,
      remote := { emptyJson with autoMode := some (jsonBool true),
                                 requestedState := some (jsonString "retract") } }

/-- As `commandPending`, with an empty remote record. -/
def commandPendingQuiet : State :=
  { commandPending with remote := emptyJson }

/-- A manual extend command has completed: the flag
`needToClearFirebaseState` is raised, the local `requestedState` is "none" and
the remote record still holds "extend". -/
def clearPending : State :=
  { bootState with
      sysConfig := { defaultConfig with autoMode := false },
      currentState := HangerState.EXTENDED, manualMode := true,
      targetState := HangerState.EXTENDED, needToClearFirebaseState := true,
      remote := { emptyJson with requestedState := some (jsonString "extend") } }

/-- The cloud is ready, but this cycle's read of the remote record and the
write to it both fail. -/
def failingWriteWorld : World :=
  { steadyWorld 2941 with fbGet := fun _ => false, fbSet := fun _ => false }

/-- The cloud is ready for the first four checks of a cycle and not ready
from the fifth on, which is the check made by `clearFirebaseRequestedState`. -/
def droppingWorld : World :=
  { steadyWorld 2941 with fbGet := fun _ => false, fbReady := fun k => decide (k < 4) }

/-- Boot state with a remote record that asks for "extend". -/
def extendRequested : State :=
  { bootState with remote := { emptyJson with requestedState := some (jsonString "extend") } }

/-- Position Extended, automatic mode, and a remote record that asks for
"retract". -/
def retractRequested : State :=
  { bootState with
      currentState := HangerState.EXTENDED,
      remote := { emptyJson with requestedState := some (jsonString "retract") } }

/-- The outcome of accepting a remote request for the position `tgt`, whose
motor function logs `call` (the other motor function logs `other`): the
command is marked in progress, automatic mode is off, the target is recorded,
the motor function ran exactly once and the other one not at all, Position is
at the target, and a following `checkManualCommandCompletion` clears the flag,
raises `needToClearFirebaseState` and resets the local `requestedState`. -/
def CommandStarted (tgt : HangerState) (call other : Event) (s s1 : State) : Prop :=
  s1.manualCommandInProgress = true
    ∧ s1.sysConfig.autoMode = false
    ∧ s1.targetState = tgt
    ∧ s1.log.count call = s.log.count call + 1
    ∧ s1.log.count other = s.log.count other
    ∧ s1.currentState = tgt
    ∧ (checkManualCommandCompletion s1).manualCommandInProgress = false
    ∧ (checkManualCommandCompletion s1).needToClearFirebaseState = true
    ∧ (checkManualCommandCompletion s1).sysConfig.requestedState = "none"

/-- The three things a control rule can do to the motor. -/
inductive MotorAction
  | noAction
  | extend
  | retract
  deriving DecidableEq, Repr

/-- The priority list of the arbitration procedure for a device without
occupancy control, written from the specification: rain emergency, manual
hold, auto-extend, auto-retract, otherwise nothing. -/
def priorityRule (s : State) : MotorAction :=
  if s.rainDetected = true ∧ s.currentState = HangerState.EXTENDED then MotorAction.retract
  else if s.manualMode = true then MotorAction.noAction
  else if s.currentState = HangerState.RETRACTED ∧ isGoodDryingConditions s = true then
    MotorAction.extend
  else if s.currentState = HangerState.EXTENDED ∧ isGoodDryingConditions s = false then
    MotorAction.retract
  else MotorAction.noAction

/-- The occupancy policy table, written from the specification: under the
privacy policy retract when present and Extended, extend when absent,
Retracted and conditions are good; under the access policy extend when
present, Retracted and conditions are good, retract when absent and
Extended. -/
def occupancyPolicy (s : State) : MotorAction :=
  if s.sysConfig.retractOnUserPresent = true then
    if s.userPresent = true ∧ s.currentState = HangerState.EXTENDED then MotorAction.retract
    else if s.userPresent = false ∧ s.currentState = HangerState.RETRACTED
        ∧ isGoodDryingConditions s = true then MotorAction.extend
    else MotorAction.noAction
  else
    if s.userPresent = true ∧ s.currentState = HangerState.RETRACTED
        ∧ isGoodDryingConditions s = true then MotorAction.extend
    else if s.userPresent = false ∧ s.currentState = HangerState.EXTENDED then
      MotorAction.retract
    else MotorAction.noAction

/-- Boot state with the temperature exactly on the lower threshold. -/
def onThreshold : State :=
  { bootState with temperature := 25, humidity := 50 }

/-- Boot state with temperature and humidity strictly inside both ranges. -/
def pleasantDay : State :=
  { bootState with temperature := 30, humidity := 50 }

/-- Privacy policy, occupancy control enabled, the user is present and
Position is Extended. -/
def presentWhileExtended : State :=
  { bootState with
      sysConfig := { defaultConfig with enablePirControl := true, retractOnUserPresent := true,
                                        pirRetractDelay := 5000 },
      currentState := HangerState.EXTENDED, userPresent := true }

/-- Occupancy control enabled, the user is present, Position Retracted, and
the conditions are good. -/
def presentOnPleasantDay : State :=
  { pleasantDay with
      sysConfig := { defaultConfig with enablePirControl := true },
      userPresent := true, lastUserPresence := true }

/-- No motion at all; the clock reads 3000 ms at the first read and advances
100 ms per read. -/
def earlyWorld : World :=
  { steadyWorld 1176 with clock := fun k => 3000 + 100 * k }

/-- As `earlyWorld`, with the PIR pin high at every read. -/
def motionWorld : World :=
  { earlyWorld with pir := fun _ => true }

/-- An `unsigned long` field after synchronisation: it kept its old value, or
the remote record holds a number for it, the field equals the record's integer
view, and that value lies in `[lo, hi]`. -/
def KeptOrRemoteInt (old new : Nat) (rd : Option FirebaseJsonData) (lo hi : Int) : Prop :=
  new = old ∨ ∃ d, rd = some d ∧ isJsonNumber d = true ∧ (new : Int) = d.intValue
    ∧ lo ≤ d.intValue ∧ d.intValue ≤ hi

/-- A `float` field after synchronisation: it kept its old value, or the
remote record holds a number for it, the field equals the record's float view,
and that value lies in `[lo, hi]`. -/
def KeptOrRemoteFloat (old new : ℚ) (rd : Option FirebaseJsonData) (lo hi : ℚ) : Prop :=
  new = old ∨ ∃ d, rd = some d ∧ isJsonNumber d = true ∧ new = d.floatValue
    ∧ lo ≤ d.floatValue ∧ d.floatValue ≤ hi

/-- The remote value for an `unsigned long` field is unusable: absent, not a
number, or outside `[lo, hi]`. -/
def RejectedInt (rd : Option FirebaseJsonData) (lo hi : Int) : Prop :=
  ∀ d, rd = some d → isJsonNumber d = false ∨ d.intValue < lo ∨ hi < d.intValue

/-- The remote value for a `float` field is unusable: absent, not a number,
or outside `[lo, hi]`. -/
def RejectedFloat (rd : Option FirebaseJsonData) (lo hi : ℚ) : Prop :=
  ∀ d, rd = some d → isJsonNumber d = false ∨ d.floatValue < lo ∨ hi < d.floatValue

/-- The integer views of the remote record are values of the C type `int`
(32 bits) for the three fields the firmware casts to `unsigned long`. -/
def IntViewsInRange (json : FirebaseJson) : Prop :=
  (∀ d, json.motorTimeout = some d → -2147483648 ≤ d.intValue ∧ d.intValue < 2147483648)
    ∧ (∀ d, json.sensorReadInterval = some d →
        -2147483648 ≤ d.intValue ∧ d.intValue < 2147483648)
    ∧ (∀ d, json.pirRetractDelay = some d →
        -2147483648 ≤ d.intValue ∧ d.intValue < 2147483648)

/-- Every `unsigned long` configuration field of `c1` that is synchronised
from the remote record is the one of `c0` or the remote value inside the
field's safe bounds: `motorTimeout` in (0, 300000], `sensorReadInterval` in
[1000, 60000], `pirRetractDelay` in [0, 60000]. -/
def IntSynced (json : FirebaseJson) (c0 c1 : SystemConfig) : Prop :=
  KeptOrRemoteInt c0.motorTimeout c1.motorTimeout json.motorTimeout 1 300000
    ∧ KeptOrRemoteInt c0.sensorReadInterval c1.sensorReadInterval json.sensorReadInterval
        1000 60000
    ∧ KeptOrRemoteInt c0.pirRetractDelay c1.pirRetractDelay json.pirRetractDelay 0 60000

/-- Every `float` configuration field of `c1` is the one of `c0` or the
remote value inside the field's safe bounds. -/
def FloatSynced (json : FirebaseJson) (c0 c1 : SystemConfig) : Prop :=
  KeptOrRemoteFloat c0.distanceExtended c1.distanceExtended json.distanceExtended 10 200
    ∧ KeptOrRemoteFloat c0.distanceRetracted c1.distanceRetracted json.distanceRetracted 5 100
    ∧ KeptOrRemoteFloat c0.distanceTolerance c1.distanceTolerance json.distanceTolerance 1 20
    ∧ KeptOrRemoteFloat c0.tempMinThreshold c1.tempMinThreshold json.tempMinThreshold 0 50
    ∧ KeptOrRemoteFloat c0.tempMaxThreshold c1.tempMaxThreshold json.tempMaxThreshold 0 60
    ∧ KeptOrRemoteFloat c0.humidityMinThreshold c1.humidityMinThreshold
        json.humidityMinThreshold 0 100
    ∧ KeptOrRemoteFloat c0.humidityMaxThreshold c1.humidityMaxThreshold
        json.humidityMaxThreshold 0 100

/-- Every numeric configuration field of `c1` is the one of `c0` or the
remote value inside the field's safe bounds. -/
def NumericSynced (json : FirebaseJson) (c0 c1 : SystemConfig) : Prop :=
  IntSynced json c0 c1 ∧ FloatSynced json c0 c1

/-- Every numeric configuration field whose remote value is unusable is the
same in `c1` as in `c0`. -/
def RejectedKept (json : FirebaseJson) (c0 c1 : SystemConfig) : Prop :=
  (RejectedInt json.motorTimeout 1 300000 → c1.motorTimeout = c0.motorTimeout)
    ∧ (RejectedInt json.sensorReadInterval 1000 60000 →
        c1.sensorReadInterval = c0.sensorReadInterval)
    ∧ (RejectedFloat json.distanceExtended 10 200 → c1.distanceExtended = c0.distanceExtended)
    ∧ (RejectedFloat json.distanceRetracted 5 100 →
        c1.distanceRetracted = c0.distanceRetracted)
    ∧ (RejectedFloat json.distanceTolerance 1 20 →
        c1.distanceTolerance = c0.distanceTolerance)
    ∧ (RejectedFloat json.tempMinThreshold 0 50 → c1.tempMinThreshold = c0.tempMinThreshold)
    ∧ (RejectedFloat json.tempMaxThreshold 0 60 → c1.tempMaxThreshold = c0.tempMaxThreshold)
    ∧ (RejectedFloat json.humidityMinThreshold 0 100 →
        c1.humidityMinThreshold = c0.humidityMinThreshold)
    ∧ (RejectedFloat json.humidityMaxThreshold 0 100 →
        c1.humidityMaxThreshold = c0.humidityMaxThreshold)
    ∧ (RejectedInt json.pirRetractDelay 0 60000 → c1.pirRetractDelay = c0.pirRetractDelay)

/-- Every numeric threshold of the remote record is ordered against the
partner it can end up next to: a remote minimum lies below the local maximum
and below a numeric remote maximum, and a remote maximum lies above the local
minimum. -/
def ThresholdsCompatible (s : State) : Prop :=
  (∀ d, s.remote.tempMinThreshold = some d → isJsonNumber d = true →
      d.floatValue < s.sysConfig.tempMaxThreshold
        ∧ ∀ e, s.remote.tempMaxThreshold = some e → isJsonNumber e = true →
            d.floatValue < e.floatValue)
    ∧ (∀ e, s.remote.tempMaxThreshold = some e → isJsonNumber e = true →
        s.sysConfig.tempMinThreshold < e.floatValue)
    ∧ (∀ d, s.remote.humidityMinThreshold = some d → isJsonNumber d = true →
        d.floatValue < s.sysConfig.humidityMaxThreshold
          ∧ ∀ e, s.remote.humidityMaxThreshold = some e → isJsonNumber e = true →
              d.floatValue < e.floatValue)
    ∧ (∀ e, s.remote.humidityMaxThreshold = some e → isJsonNumber e = true →
        s.sysConfig.humidityMinThreshold < e.floatValue)

/-- A JSON number with the given integer and float views. -/
def jsonNumber (i : Int) (q : ℚ) : FirebaseJsonData :=
  { typeNum := JsonType.JSON_DOUBLE, boolValue := false, intValue := i, floatValue := q,
    stringValue := "" }

/-- Boot state whose remote record asks for a minimum temperature of 45
degrees; the local thresholds are 25 and 40. -/
def hotMinimumRequested : State :=
  { bootState with remote := { emptyJson with tempMinThreshold := some (jsonNumber 45 45) } }

/-- Boot state whose remote record carries a motor timeout of 45000 ms, an
out-of-range minimum temperature of 70 degrees and a maximum temperature of
38 degrees. -/
def mixedConfigRequested : State :=
  { bootState with
      remote := { emptyJson with motorTimeout := some (jsonNumber 45000 45000),
                                 tempMinThreshold := some (jsonNumber 70 70),
                                 tempMaxThreshold := some (jsonNumber 38 38) } }

/-- Boot state whose remote record narrows the temperature range to 30..38
degrees; the local thresholds are 25 and 40. -/
def narrowerRangeRequested : State :=
  { bootState with
      remote := { emptyJson with tempMinThreshold := some (jsonNumber 30 30),
                                 tempMaxThreshold := some (jsonNumber 38 38) } }

/-- The occupancy scenario of the specification: occupancy control enabled
under the privacy policy with an action delay of 5000 ms. -/
def PrivacyDelay5000 (s : State) : Prop :=
  s.sysConfig.enablePirControl = true ∧ s.sysConfig.retractOnUserPresent = true
    ∧ s.sysConfig.pirRetractDelay = 5000

/-- The delayed occupancy action is armed since clock time `t0`, the user is
present and that presence has been recorded. -/
def PirArmed (t0 : Nat) (s : State) : Prop :=
  PrivacyDelay5000 s ∧ s.pirDelayActive = true ∧ s.pirDelayStartTime = t0 % ULONG_MOD
    ∧ s.lastUserPresence = true ∧ s.userPresent = true

/-- No delayed occupancy action is armed, the user is present and that
presence has been recorded. -/
def PirSettled (s : State) : Prop :=
  PrivacyDelay5000 s ∧ s.pirDelayActive = false
    ∧ s.lastUserPresence = true ∧ s.userPresent = true

/-- Privacy policy with a 5000 ms delay, Position Extended, the user has just
become present (`lastUserPresence` is still false). -/
def userJustArrived : State :=
  { presentWhileExtended with lastUserPresence := false }

/-- The clock reads 100, 2000, 6000, 6100, 6200, ... ms; the echo is in the
retracted band. -/
def arrivalWorld : World :=
  { steadyWorld 1176 with
      clock := fun k => if k = 0 then 100 else if k = 1 then 2000 else 5800 + 100 * k }

/-- The state of `userJustArrived` two calls later: the delayed action is
armed since clock time 100 and two clock values have been consumed. -/
def armedSince100 : State :=
  { presentWhileExtended with
      lastUserPresence := true, pirDelayActive := true, pirDelayStartTime := 100,
      clockIdx := 2 }

/-- `pirDelayedAction` with a ghost counter: the second component is the
number of `executePirAction` invocations made. -/
def pirDelayedActionCounted (w : World) (fuel : Nat) (pirDelay : Nat) (s : State) :
    Option (State × Nat) :=
  if s.pirDelayActive then
    let m := millis w s
    if usub m.1 m.2.pirDelayStartTime ≥ pirDelay then
      (executePirAction w fuel m.2).map fun s1 =>
        let m1 := millis w { s1 with pirDelayActive := false }
        ({ m1.2 with lastPirAction := m1.1 }, 1)
    else some (m.2, 0)
  else some (s, 0)

/-- `handlePirControl` (`ControlLogic.h` 102-145) with a ghost counter: the
second component is the number of `executePirAction` invocations (fire
events) made by the call. -/
def handlePirControlCounted (w : World) (fuel : Nat) (s : State) : Option (State × Nat) :=
  if !s.sysConfig.enablePirControl then some (s, 0)
  else
    let pirDelay : Nat := max 5000 s.sysConfig.pirRetractDelay
    if s.userPresent ≠ s.lastUserPresence then
      if decide (pirDelay > 0) && s.userPresent then
        let m := millis w { s with pirDelayActive := true }
        some ({ m.2 with pirDelayStartTime := m.1, lastUserPresence := m.2.userPresent }, 0)
      else
        (executePirAction w fuel s).bind fun s1 =>
          let m := millis w { s1 with lastUserPresence := s1.userPresent }
          (pirDelayedActionCounted w fuel pirDelay { m.2 with lastPirAction := m.1 }).map
            fun r => (r.1, r.2 + 1)
    else pirDelayedActionCounted w fuel pirDelay s

/-- Occupancy control enabled; a delayed action armed at clock time 0 is
still pending, the recorded presence is "present" and the user is now
absent. -/
def staleArmed : State :=
  { bootState with
      sysConfig := { defaultConfig with enablePirControl := true },
      pirDelayActive := true, pirDelayStartTime := 0,
      lastUserPresence := true, userPresent := false }

/-- As `steadyWorld`, with a clock that starts at 30000 ms. -/
def lateWorld : World :=
  { steadyWorld 1176 with clock := fun k => 30000 + 100 * k }

/-- The part of a cycle that reconciles the remote record: `handleSystemTasks`
followed by `handleFirebaseOperations` (`main.cpp` 254-255). -/
def syncCycle (w : World) (fuel : Nat) (s : State) : Option State :=
  (handleSystemTasks w s).bind (handleFirebaseOperations w fuel)

/-- As `extendRequested` (automatic mode, Position Retracted, remote request
"extend"), on a cold day: 20 degrees, below the 25 degree threshold. -/
def coldExtendRequested : State :=
  { extendRequested with temperature := 20 }

/-- As `steadyWorld`, but the first echo is 2941 us (about 50 cm, the
extended band) and every later echo is 1176 us (about 20 cm, the retracted
band). -/
def extendThenRetractWorld : World :=
  { steadyWorld 1176 with echo := fun k => if k = 0 then 2941 else 1176 }

/-- Boot state with Position Error. -/
def inError : State :=
  { bootState with currentState := HangerState.HANGER_ERROR }

/-- A world whose clock reads 1000, 1000, 31000 and then 31001, 31002, ...;
otherwise as `steadyWorld 1176`. -/
def boundaryWorld : World :=
  { steadyWorld 1176 with
      clock := fun k => if k < 2 then 1000 else if k = 2 then 31000 else 30998 + k }

/-- Number of ERROR alerts recorded in a log, pushed or not. -/
def errorAlerts (l : List Event) : Nat :=
  l.count (Event.alert "ERROR" true) + l.count (Event.alert "ERROR" false)

/-- Number of INFO alerts recorded in a log, pushed or not. -/
def infoAlerts (l : List Event) : Nat :=
  l.count (Event.alert "INFO" true) + l.count (Event.alert "INFO" false)

/-- An error incident that began at clock time `t0` is open: Position is
Error and the static `errorStartTime` holds `t0` as the 32-bit counter showed
it, which is not the value 0 that marks "no incident". -/
def ErrorIncident (t0 : Nat) (s : State) : Prop :=
  s.currentState = HangerState.HANGER_ERROR
    ∧ s.errorStartTime = t0 % ULONG_MOD
    ∧ t0 % ULONG_MOD ≠ 0

/-- Position Error, no command in progress, and a remote record that asks
for "extend". -/
def errorExtendRequested : State :=
  { inError with remote := { emptyJson with requestedState := some (jsonString "extend") } }

/-- The remote record holds no request that `listenForFirebaseConfigChanges`
would act on: whatever string it carries under `requestedState` is none of the
six accepted spellings. -/
def NoValidRequest (json : FirebaseJson) : Prop :=
  ∀ d, json.requestedState = some d → d.typeNum = JsonType.JSON_STRING →
    ¬ (d.stringValue = "extend" ∨ d.stringValue = "EXTENDED" ∨ d.stringValue = "extended"
        ∨ d.stringValue = "retract" ∨ d.stringValue = "RETRACTED"
        ∨ d.stringValue = "retracted")

/-- Position is still Error and neither a motor function was called nor the
relay engaged between `s` and `s1`. -/
def StillError (s s1 : State) : Prop :=
  s1.currentState = HangerState.HANGER_ERROR
    ∧ motorCalls s1.log = motorCalls s.log
    ∧ relayEngagements s1.log = relayEngagements s.log

/-- The distance `readUltrasonicDistance` returns for the echo at cursor `e`
when the previous distance is `prev` (`Sensor.h` 48-68): the new distance when
it is valid, the previous one otherwise. -/
def nextDistance (w : World) (prev : ℚ) (e : Nat) : ℚ :=
  if 0 < echoDistance (w.echo e) ∧ echoDistance (w.echo e) < 400 then echoDistance (w.echo e)
  else prev

/-- The reading taken by poll number `j` (from 0) of a transit loop that is
entered with the distance `d0` and the echo cursor `e0`. -/
def polledDistance (w : World) (d0 : ℚ) (e0 : Nat) : Nat → ℚ
  | 0 => nextDistance w d0 e0
  | j + 1 => nextDistance w (polledDistance w d0 e0 j) (e0 + (j + 1))

/-- The elapsed time that poll number `j` (from 0) of a transit started in
state `s` computes: the motor function reads its start time at the clock cursor
of `s`, and poll `j` makes the clock read number `1 + j` after it. -/
def transitElapsed (w : World) (s : State) (j : Nat) : Nat :=
  usub (w.clock (s.clockIdx + 1 + j) % ULONG_MOD) (w.clock s.clockIdx % ULONG_MOD)

/-- As `steadyWorld`, but the echoes are 1059, 1800, 2600, 2700 and then
3059 us: distances rising through about 18, 30.6, 44.2, 45.9 and 52 cm. -/
def risingWorld : World :=
  { steadyWorld 3059 with
      echo := fun k => if k = 0 then 1059 else if k = 1 then 1800 else if k = 2 then 2600
                else if k = 3 then 2700 else 3059 }

/-- As `steadyWorld`, but the echoes are 3059, 2600, 1500 and then 1176 us:
distances falling through about 52, 44.2, 25.5 and 20 cm. -/
def fallingWorld : World :=
  { steadyWorld 1176 with
      echo := fun k => if k = 0 then 3059 else if k = 1 then 2600 else if k = 2 then 1500
                else 1176 }

/-- Boot state (Position recorded as Retracted) with a measured distance of
50 cm, the centre of the extended band. -/
def atExtendedBand : State :=
  { bootState with hangerDistance := 50 }

/-- A world with the distance stuck at about 18 cm whose clock reads 0 when
the transit starts, 30000 at the first poll and 30100, 30200, ... at the
following ones. -/
def exactTimeoutWorld : World :=
  { steadyWorld 1059 with clock := fun k => if k = 0 then 0 else 29900 + 100 * k }

/-- The clock as a transit started at clock cursor `c` with timeout `T` sees
it: it does not run backwards between the start-time read and the first poll,
it advances by at least 100 ms between consecutive polls (the `delay(100)` of
the loop), and no single step is so long that, added to the timeout, it
reaches the 2^32 ms range of the counter. -/
def ClockAdvances (w : World) (c T : Nat) : Prop :=
  w.clock c ≤ w.clock (c + 1)
    ∧ (∀ i, w.clock (c + 1 + i) + 100 ≤ w.clock (c + 1 + i + 1))
    ∧ (∀ i, w.clock (c + i + 1) - w.clock (c + i) + T < ULONG_MOD)

/-- `initializeBasicModules` (`main.cpp` 56-65): `initializeConfig` leaves in
`sysConfig` the configuration `stored` that it found in the settings store (or
the defaults), and `manualMode` is set to the negation of its `autoMode`. -/
def initializeBasicModules (stored : SystemConfig) (s : State) : State :=
  { s with sysConfig := stored, manualMode := !stored.autoMode }

/-- Manual mode with a remote record that switches automatic mode on and
asks for "retract" at the same time; Position is Extended. -/
def autoAndRetractRequested : State :=
  { bootState with
      sysConfig := { defaultConfig with autoMode := false }, manualMode := true,
      currentState := HangerState.EXTENDED,
      remote := { emptyJson with autoMode := some (jsonBool true),
                                 requestedState := some (jsonString "retract") } }

/-- Automatic mode with a remote record that switches automatic mode off. -/
def autoOffRequested : State :=
  { bootState with remote := { emptyJson with autoMode := some (jsonBool false) } }

/-- A world whose clock reads 4294967500 at every read: 500 ms after the
time 4294967000, with the wrap of the 32-bit counter at 4294967296 in between
(the counter itself shows 204). -/
def wrapWorld : World :=
  { steadyWorld 1059 with clock := fun _ => 4294967500 }

/-- Occupancy control with a delayed action armed at counter value
4294967000, which is also the time of the last motion impulse. -/
def armedBeforeWrap : State :=
  { bootState with
      sysConfig := { defaultConfig with enablePirControl := true, retractOnUserPresent := true,
                                        pirRetractDelay := 5000 },
      userPresent := true, lastUserPresence := true, pirDelayActive := true,
      pirDelayStartTime := 4294967000, motionDetectedTime := 4294967000 }

/-- A remote boolean is taken over: it is a JSON boolean and differs from
the local value. -/
def acceptsBool (rd : Option FirebaseJsonData) (loc : Bool) : Bool :=
  match rd with
  | some d => decide (d.typeNum = JsonType.JSON_BOOL) && decide (loc ≠ d.boolValue)
  | none => false

/-- A remote integer is taken over: it is a JSON number, differs from the
local value and lies in `[lo, hi]`. -/
def acceptsULong (rd : Option FirebaseJsonData) (lo hi loc : Nat) : Bool :=
  match rd with
  | some d => isJsonNumber d && decide (loc ≠ toULong d.intValue)
      && decide (lo ≤ toULong d.intValue) && decide (toULong d.intValue ≤ hi)
  | none => false

/-- A remote float is taken over: it is a JSON number, the `float`
difference between the local value and it exceeds `eps` in magnitude, and it
lies in `[lo, hi]`. -/
def acceptsFloat (rd : Option FirebaseJsonData) (eps lo hi loc : ℚ) : Bool :=
  match rd with
  | some d => isJsonNumber d && decide (|floatSub loc d.floatValue| > eps)
      && decide (lo ≤ d.floatValue) && decide (d.floatValue ≤ hi)
  | none => false

/-- A remote string is taken over: it is a JSON string, differs from the
local value and fits the 32-byte buffer. -/
def acceptsString (rd : Option FirebaseJsonData) (loc : String) : Bool :=
  match rd with
  | some d => decide (d.typeNum = JsonType.JSON_STRING) && decide (loc ≠ d.stringValue)
      && decide (d.stringValue.utf8ByteSize < 32)
  | none => false

/-- Some configuration field of the remote record is taken over by the local
configuration `c`: it has the right JSON type, lies inside the field's bounds
and differs from the local value: at all for the integer, boolean and string
fields; for the `float` fields the difference `local - remote`, computed in
`float`, exceeds in magnitude 0.5 (the three distances) or the `double` literal
0.1 (the four thresholds). -/
def remoteChanges (json : FirebaseJson) (c : SystemConfig) : Bool :=
  acceptsBool json.autoMode c.autoMode
    || acceptsULong json.motorTimeout 1 300000 c.motorTimeout
    || acceptsULong json.sensorReadInterval 1000 60000 c.sensorReadInterval
    || acceptsFloat json.distanceExtended (1 / 2) 10 200 c.distanceExtended
    || acceptsFloat json.distanceRetracted (1 / 2) 5 100 c.distanceRetracted
    || acceptsFloat json.distanceTolerance (1 / 2) 1 20 c.distanceTolerance
    || acceptsString json.deviceName c.deviceName
    || acceptsString json.deviceLocation c.deviceLocation
    || acceptsBool json.useCustomThresholds c.useCustomThresholds
    || acceptsFloat json.tempMinThreshold (roundDouble (1 / 10)) 0 50 c.tempMinThreshold
    || acceptsFloat json.tempMaxThreshold (roundDouble (1 / 10)) 0 60 c.tempMaxThreshold
    || acceptsFloat json.humidityMinThreshold (roundDouble (1 / 10)) 0 100 c.humidityMinThreshold
    || acceptsFloat json.humidityMaxThreshold (roundDouble (1 / 10)) 0 100 c.humidityMaxThreshold
    || acceptsBool json.enablePirControl c.enablePirControl
    || acceptsBool json.retractOnUserPresent c.retractOnUserPresent
    || acceptsULong json.pirRetractDelay 0 60000 c.pirRetractDelay

/-- Boot state whose remote record carries a maximum temperature of 70
degrees (the local one is 40, the bounds are [0, 60]) and a motor timeout of
400000 ms (the local one is 30000, the bounds are (0, 300000]). -/
def outOfRangeRequested : State :=
  { bootState with
      remote := { emptyJson with tempMaxThreshold := some (jsonNumber 70 70),
                                 motorTimeout := some (jsonNumber 400000 400000) } }

/-- Boot state whose remote record carries a maximum temperature of 38
degrees (the local one is 40). -/
def coolerMaximumRequested : State :=
  { bootState with remote := { emptyJson with tempMaxThreshold := some (jsonNumber 38 38) } }

/-- The remote record holds a request that `listenForFirebaseConfigChanges`
acts on when no command is in progress: a JSON string with one of the six
accepted spellings. -/
def ValidRequest (json : FirebaseJson) : Prop :=
  ∃ d, json.requestedState = some d ∧ d.typeNum = JsonType.JSON_STRING
    ∧ (d.stringValue = "extend" ∨ d.stringValue = "EXTENDED" ∨ d.stringValue = "extended"
        ∨ d.stringValue = "retract" ∨ d.stringValue = "RETRACTED"
        ∨ d.stringValue = "retracted")

/-- Occupancy control under the privacy policy with a 5000 ms delay, Position
Retracted, good drying conditions (30 degrees, 50 %), nobody present so far. -/
def nobodyYetRetracted : State :=
  { presentWhileExtended with
      currentState := HangerState.RETRACTED, temperature := 30, humidity := 50,
      userPresent := false, lastUserPresence := false }

/-- One motion impulse at the first PIR read and none afterwards; the clock
reads 20000 at that PIR read, 29000 at the following `handlePirControl` call,
31000 at the next PIR read and 31100, 31200, ... afterwards; the echo is in
the extended band. -/
def slowCycleWorld : World :=
  { steadyWorld 2941 with
      pir := fun k => decide (k = 0),
      clock := fun k => if k = 0 then 20000 else if k = 1 then 29000 else 30800 + 100 * k }

/-- Boot state whose remote record carries a minimum temperature of 25.1
degrees, as the `float` nearest to 25.1; the local value is 25. -/
def tenthAboveRequested : State :=
  { bootState with
      remote := { emptyJson with
        tempMinThreshold := some (jsonNumber 25 (roundFloat (251 / 10))) } }

/-- A local minimum temperature of 0.125 degrees and a remote one of 0.025
degrees, as the `float` nearest to 0.025: the exact difference is just below
0.1, the `float` difference is the `float` next above 0.1. -/
def roundedDifferenceRequested : State :=
  { bootState with
      sysConfig := { defaultConfig with tempMinThreshold := 1 / 8 },
      remote := { emptyJson with
        tempMinThreshold := some (jsonNumber 0 (roundFloat (25 / 1000))) } }

/-! ## Theorems -/

/-! ## Frame lemmas for the transit loops -/

theorem readUltrasonicDistance_snd (w : World) (s : State) :
    (readUltrasonicDistance w s).2 = { s with echoIdx := s.echoIdx + 1 } := by
  unfold readUltrasonicDistance
  dsimp only
  split <;> rfl

theorem extendLoop_frame (w : World) (st : Nat) :
    ∀ (fuel : Nat) (s s1 : State), extendLoop w st fuel s = some s1 → LoopFrame s s1 := by
  intro fuel
  induction fuel with
  | zero => intro s s1 h; simp [extendLoop] at h
  | succ n ih =>
    intro s s1 h
    unfold extendLoop at h
    simp only [readUltrasonicDistance_snd] at h
    split at h
    · simp only [Option.some.injEq] at h
      exact ⟨_, _, _, _, by rw [← h]; rfl, Or.inl rfl⟩
    · split at h
      · simp only [Option.some.injEq] at h
        exact ⟨_, _, _, _, by rw [← h]; rfl, Or.inr rfl⟩
      · obtain ⟨d, e, c, ev, h1, h2⟩ := ih _ _ h
        exact ⟨d, e, c, ev, by rw [h1]; rfl, h2⟩

theorem retractLoop_frame (w : World) (st : Nat) :
    ∀ (fuel : Nat) (s s1 : State), retractLoop w st fuel s = some s1 → LoopFrame s s1 := by
  intro fuel
  induction fuel with
  | zero => intro s s1 h; simp [retractLoop] at h
  | succ n ih =>
    intro s s1 h
    unfold retractLoop at h
    simp only [readUltrasonicDistance_snd] at h
    split at h
    · simp only [Option.some.injEq] at h
      exact ⟨_, _, _, _, by rw [← h]; rfl, Or.inl rfl⟩
    · split at h
      · simp only [Option.some.injEq] at h
        exact ⟨_, _, _, _, by rw [← h]; rfl, Or.inr rfl⟩
      · obtain ⟨d, e, c, ev, h1, h2⟩ := ih _ _ h
        exact ⟨d, e, c, ev, by rw [h1]; rfl, h2⟩

theorem extendHanger_frame (w : World) (fuel : Nat) (s s1 : State)
    (h : extendHanger w fuel s = some s1) :
    TransitFrame HangerState.EXTENDED Event.extendCall s s1 := by
  unfold extendHanger at h
  dsimp only at h
  split at h
  · rename_i hc
    left
    simp only [Option.some.injEq] at h
    exact ⟨hc, by rw [← h]; rfl⟩
  · rename_i hc
    right
    refine ⟨hc, ?_⟩
    split at h
    · simp at h
    · rename_i s2 hl
      obtain ⟨d, e, c, ev, h1, h2⟩ := extendLoop_frame _ _ _ _ _ hl
      simp only [Option.some.injEq] at h
      exact ⟨d, e, c, ev, by rw [← h, h1]; simp [digitalWriteRelay, millis, State.emit], h2⟩

theorem retractHanger_frame (w : World) (fuel : Nat) (s s1 : State)
    (h : retractHanger w fuel s = some s1) :
    TransitFrame HangerState.RETRACTED Event.retractCall s s1 := by
  unfold retractHanger at h
  dsimp only at h
  split at h
  · rename_i hc
    left
    simp only [Option.some.injEq] at h
    exact ⟨hc, by rw [← h]; rfl⟩
  · rename_i hc
    right
    refine ⟨hc, ?_⟩
    split at h
    · simp at h
    · rename_i s2 hl
      obtain ⟨d, e, c, ev, h1, h2⟩ := retractLoop_frame _ _ _ _ _ hl
      simp only [Option.some.injEq] at h
      exact ⟨d, e, c, ev, by rw [← h, h1]; simp [digitalWriteRelay, millis, State.emit], h2⟩

/-! ## Transit lemmas -/

theorem TransitFrame.relay_off {tgt : HangerState} {call : Event} {s s1 : State}
    (h : TransitFrame tgt call s s1) (hs : s.relay = false ∨ s.currentState ≠ tgt) :
    s1.relay = false := by
  rcases h with ⟨hc, rfl⟩ | ⟨_, d, e, c, ev, rfl, _⟩
  · rcases hs with hr | hn
    · exact hr
    · exact absurd hc hn
  · rfl

theorem TransitFrame.relay_early {tgt : HangerState} {call : Event} {s s1 : State}
    (h : TransitFrame tgt call s s1) (hs : s.currentState = tgt) :
    s1.relay = s.relay := by
  rcases h with ⟨_, rfl⟩ | ⟨hn, _⟩
  · rfl
  · exact absurd hs hn

theorem readUltrasonicDistance_valid (w : World) (s : State)
    (h : 0 < echoDistance (w.echo s.echoIdx) ∧ echoDistance (w.echo s.echoIdx) < 400) :
    (readUltrasonicDistance w s).1 = echoDistance (w.echo s.echoIdx) := by
  unfold readUltrasonicDistance
  dsimp only
  rw [if_pos h]

theorem usub_zero (a : Nat) : usub a 0 = a % ULONG_MOD := by
  unfold usub ULONG_MOD
  omega

/-- A sensor stuck at a valid out-of-band distance: the extend loop polls
until the first clock read whose elapsed time exceeds the timeout and leaves
through the timeout branch. -/
theorem extendLoop_stuck (w : World) (st : Nat) (e : Int) (hecho : ∀ k, w.echo k = e)
    (hvalid : 0 < echoDistance e ∧ echoDistance e < 400) :
    ∀ (n : Nat) (s : State),
      inBand s.sysConfig.distanceExtended s.sysConfig.distanceTolerance (echoDistance e) = false →
      (∀ i, i < n → ¬ usub (w.clock (s.clockIdx + i) % ULONG_MOD) st > s.sysConfig.motorTimeout) →
      usub (w.clock (s.clockIdx + n) % ULONG_MOD) st > s.sysConfig.motorTimeout →
      extendLoop w st (n + 1) s
        = some { s with hangerDistance := echoDistance e, echoIdx := s.echoIdx + (n + 1),
                        clockIdx := s.clockIdx + (n + 1),
                        log := s.log ++ [Event.motorTimeoutError] } := by
  intro n
  induction n with
  | zero =>
    intro s hband _ hto
    have hr : (readUltrasonicDistance w s).1 = echoDistance e := by
      rw [readUltrasonicDistance_valid w s (by rw [hecho]; exact hvalid), hecho]
    unfold extendLoop
    simp only [readUltrasonicDistance_snd, hr, hband, millis, State.emit]
    simp only [Nat.add_zero] at hto
    simp [hto]
  | succ n ih =>
    intro s hband hlt hto
    have hr : (readUltrasonicDistance w s).1 = echoDistance e := by
      rw [readUltrasonicDistance_valid w s (by rw [hecho]; exact hvalid), hecho]
    have h0 := hlt 0 (Nat.succ_pos n)
    simp only [Nat.add_zero] at h0
    unfold extendLoop
    simp only [readUltrasonicDistance_snd, hr, hband, millis, State.emit]
    simp only [h0, if_false, Bool.false_eq_true]
    rw [ih]
    · simp [Nat.add_assoc, Nat.add_comm 1]
    · exact hband
    · intro i hi
      have := hlt (i + 1) (Nat.succ_lt_succ hi)
      simpa [Nat.add_assoc, Nat.add_comm 1] using this
    · simpa [Nat.add_assoc, Nat.add_comm 1] using hto

theorem extendHanger_of_loop (w : World) (fuel : Nat) (s r : State)
    (hc : s.currentState ≠ HangerState.EXTENDED)
    (hl : extendLoop w (millis w (digitalWriteRelay true (s.emit Event.extendCall))).1 fuel
            (millis w (digitalWriteRelay true (s.emit Event.extendCall))).2 = some r) :
    extendHanger w fuel s
      = some { digitalWriteRelay false r with currentState := HangerState.EXTENDED } := by
  unfold extendHanger
  dsimp only
  rw [if_neg (by simpa [State.emit] using hc), hl]

/-! ## C1 -/

/-- C1 (counterexample): with Position already Extended and the relay on at
entry, `extendHanger` returns early and the relay is still on. -/
theorem extendHanger_early_return_keeps_relay_on :
    relayOnExtended.currentState = HangerState.EXTENDED ∧ relayOnExtended.relay = true ∧
      ∃ s1, extendHanger (steadyWorld 1059) 0 relayOnExtended = some s1 ∧ s1.relay = true := by
  refine ⟨rfl, rfl, _, rfl, rfl⟩

/-- C1 (amended): whenever `extendHanger` or `retractHanger` returns, the
relay is off if it was off on entry or if Position differed from the target on
entry (a transit was run, ended by the target test or by the timeout); on the
early return the relay keeps the level it had on entry. -/
theorem motor_function_returns_with_relay_off (w : World) (fuel : Nat) (s s1 : State) :
    (extendHanger w fuel s = some s1 →
      ((s.relay = false ∨ s.currentState ≠ HangerState.EXTENDED) → s1.relay = false)
        ∧ (s.currentState = HangerState.EXTENDED → s1.relay = s.relay))
    ∧ (retractHanger w fuel s = some s1 →
      ((s.relay = false ∨ s.currentState ≠ HangerState.RETRACTED) → s1.relay = false)
        ∧ (s.currentState = HangerState.RETRACTED → s1.relay = s.relay)) := by
  constructor
  · intro h
    have hf := extendHanger_frame w fuel s s1 h
    exact ⟨hf.relay_off, hf.relay_early⟩
  · intro h
    have hf := retractHanger_frame w fuel s s1 h
    exact ⟨hf.relay_off, hf.relay_early⟩

/-- C1 (witness): an extend transit from the boot state that reaches its band
at the first poll, and a retract transit entered with the relay already on. -/
theorem motor_function_returns_with_relay_off_witness :
    (∃ s1, extendHanger (steadyWorld 2941) 1 bootState = some s1 ∧ s1.relay = false)
    ∧ (∃ s1, retractHanger (steadyWorld 1176) 1 relayOnExtended = some s1 ∧ s1.relay = false) := by
  have h1 : (extendHanger (steadyWorld 2941) 1 bootState).isSome = true := by decide!
  have h2 : (retractHanger (steadyWorld 1176) 1 relayOnExtended).isSome = true := by decide!
  obtain ⟨a, ha⟩ := Option.isSome_iff_exists.mp h1
  obtain ⟨b, hb⟩ := Option.isSome_iff_exists.mp h2
  exact ⟨⟨a, ha, ((motor_function_returns_with_relay_off _ _ _ _).1 ha).1 (Or.inl rfl)⟩,
    ⟨b, hb, ((motor_function_returns_with_relay_off _ _ _ _).2 hb).1
      (Or.inr (by simp [relayOnExtended]))⟩⟩

/-! ## C2 -/

/-- C2 (code bug, evaluated): starting Retracted with the distance stuck at
about 18 cm (echo 1059 us), target band 45 to 55 cm, timeout 30000 ms and a
clock advancing 100 ms per poll, `extendHanger` leaves its loop through the
timeout branch and still records Position = Extended. -/
theorem extendHanger_timeout_records_extended :
    bootState.currentState = HangerState.RETRACTED ∧
      ∃ s1, extendHanger (steadyWorld 1059) 301 bootState = some s1
        ∧ s1.log = [Event.extendCall, Event.relayWrite true, Event.motorTimeoutError,
                    Event.relayWrite false]
        ∧ s1.relay = false
        ∧ s1.currentState = HangerState.EXTENDED := by
  refine ⟨rfl, ?_⟩
  have hl := extendLoop_stuck (steadyWorld 1059) 0 1059 (fun _ => rfl)
    (by decide!) 300
    (millis (steadyWorld 1059) (digitalWriteRelay true (bootState.emit Event.extendCall))).2
    (by decide!)
    (by
      intro i hi
      have hm : 100 * (0 + 1 + i) % 4294967296 = 100 * (0 + 1 + i) :=
        Nat.mod_eq_of_lt (by omega)
      simp only [millis, digitalWriteRelay, State.emit, bootState, defaultConfig, steadyWorld,
        usub_zero, Nat.mod_mod, ULONG_MOD, hm]
      omega)
    (by
      simp [millis, digitalWriteRelay, State.emit, bootState, defaultConfig, steadyWorld,
        usub_zero, ULONG_MOD])
  have hx := extendHanger_of_loop (steadyWorld 1059) 301 bootState _ (by simp [bootState]) hl
  exact ⟨_, hx, by simp [millis, digitalWriteRelay, State.emit, bootState], rfl, rfl⟩

/-! ## Effects of the control code on the motor -/

theorem SameControl.same (s : State) : SameControl s s :=
  ⟨rfl, rfl, rfl, rfl, rfl, rfl, rfl, rfl, rfl, rfl⟩

theorem SameControl.andThen {a b c : State} (h1 : SameControl a b) (h2 : SameControl b c) :
    SameControl a c := by
  obtain ⟨a1, a2, a3, a4, a5, a6, a7, a8, a9, a10⟩ := h1
  obtain ⟨b1, b2, b3, b4, b5, b6, b7, b8, b9, b10⟩ := h2
  exact ⟨b1.trans a1, b2.trans a2, b3.trans a3, b4.trans a4, b5.trans a5, b6.trans a6,
    b7.trans a7, b8.trans a8, b9.trans a9, b10.trans a10⟩

theorem MotorEffect.none (s : State) : MotorEffect 0 0 s s :=
  ⟨SameControl.same s, rfl, rfl⟩

theorem MotorEffect.seq {a b c : State} {e1 r1 e2 r2 : Nat} (h1 : MotorEffect e1 r1 a b)
    (h2 : MotorEffect e2 r2 b c) : MotorEffect (e1 + e2) (r1 + r2) a c := by
  obtain ⟨x1, x2, x3⟩ := h1
  obtain ⟨y1, y2, y3⟩ := h2
  exact ⟨x1.andThen y1, by omega, by omega⟩

theorem sendAlertToFirebase_effect (w : World) (level : String) (s : State) :
    MotorEffect 0 0 s (sendAlertToFirebase w level s)
      ∧ (sendAlertToFirebase w level s).currentState = s.currentState
      ∧ (sendAlertToFirebase w level s).relay = s.relay := by
  refine ⟨⟨⟨rfl, rfl, rfl, rfl, rfl, rfl, rfl, rfl, rfl, rfl⟩, ?_, ?_⟩, rfl, rfl⟩
  · simp [sendAlertToFirebase, State.emit, isFirebaseConnected]
  · simp [sendAlertToFirebase, State.emit, isFirebaseConnected]

theorem extendHanger_effect (w : World) (fuel : Nat) (s s1 : State)
    (h : extendHanger w fuel s = some s1) :
    MotorEffect 1 0 s s1 ∧ s1.currentState = HangerState.EXTENDED := by
  rcases extendHanger_frame w fuel s s1 h with ⟨hc, rfl⟩ | ⟨_, d, e, c, ev, rfl, hev⟩
  · refine ⟨⟨⟨rfl, rfl, rfl, rfl, rfl, rfl, rfl, rfl, rfl, rfl⟩, ?_, ?_⟩, hc⟩ <;> simp
  · refine ⟨⟨⟨rfl, rfl, rfl, rfl, rfl, rfl, rfl, rfl, rfl, rfl⟩, ?_, ?_⟩, rfl⟩ <;>
      rcases hev with rfl | rfl <;> simp

theorem retractHanger_effect (w : World) (fuel : Nat) (s s1 : State)
    (h : retractHanger w fuel s = some s1) :
    MotorEffect 0 1 s s1 ∧ s1.currentState = HangerState.RETRACTED := by
  rcases retractHanger_frame w fuel s s1 h with ⟨hc, rfl⟩ | ⟨_, d, e, c, ev, rfl, hev⟩
  · refine ⟨⟨⟨rfl, rfl, rfl, rfl, rfl, rfl, rfl, rfl, rfl, rfl⟩, ?_, ?_⟩, hc⟩ <;> simp
  · refine ⟨⟨⟨rfl, rfl, rfl, rfl, rfl, rfl, rfl, rfl, rfl, rfl⟩, ?_, ?_⟩, rfl⟩ <;>
      rcases hev with rfl | rfl <;> simp


theorem pirActs_congr {a b : State} (h1 : b.sysConfig = a.sysConfig)
    (h2 : b.userPresent = a.userPresent) (h3 : b.currentState = a.currentState)
    (h4 : b.temperature = a.temperature) (h5 : b.humidity = a.humidity)
    (h6 : b.rainDetected = a.rainDetected) : pirActs b = pirActs a := by
  simp only [pirActs, isGoodDryingConditions, h1, h2, h3, h4, h5, h6]

theorem executePirAction_effect (w : World) (fuel : Nat) (s s1 : State)
    (h : executePirAction w fuel s = some s1) :
    (pirActs s = false ∧ s1 = s)
      ∨ (pirActs s = true ∧ pirActs s1 = false
          ∧ ∃ e r, e + r = 1 ∧ MotorEffect e r s s1) := by
  unfold executePirAction at h
  split at h
  · rename_i hp
    split at h
    · rename_i hg
      obtain ⟨m, hm, rfl⟩ := Option.map_eq_some'.mp h
      obtain ⟨hme, hcs⟩ := retractHanger_effect w fuel s m hm
      obtain ⟨hae, hac, _⟩ := sendAlertToFirebase_effect w "INFO" m
      have hE := hme.seq hae
      simp only [Bool.and_eq_true, decide_eq_true_eq] at hg
      refine Or.inr ⟨by simp [pirActs, hp, hg.1, hg.2], ?_, 0, 1, rfl, hE⟩
      have hu := hE.1.2.2.2.2.2.2.1
      have hc := hE.1.1
      simp [pirActs, hc, hp, hu, hg.1, hac, hcs]
    · rename_i hg
      split at h
      · rename_i hg2
        obtain ⟨m, hm, rfl⟩ := Option.map_eq_some'.mp h
        obtain ⟨hme, hcs⟩ := extendHanger_effect w fuel s m hm
        obtain ⟨hae, hac, _⟩ := sendAlertToFirebase_effect w "INFO" m
        have hE := hme.seq hae
        simp only [Bool.and_eq_true, decide_eq_true_eq, Bool.not_eq_true'] at hg2
        refine Or.inr ⟨by simp [pirActs, hp, hg2.1.1, hg2.1.2, hg2.2], ?_, 1, 0, rfl, hE⟩
        have hu := hE.1.2.2.2.2.2.2.1
        have hc := hE.1.1
        simp [pirActs, hc, hp, hu, hg2.1.1, hac, hcs]
      · rename_i hg2
        simp only [Option.some.injEq] at h
        refine Or.inl ⟨?_, h.symm⟩
        simp only [pirActs, hp, if_true]
        simp only [Bool.not_eq_true] at hg hg2
        rw [hg, hg2]
        rfl
  · rename_i hp
    split at h
    · rename_i hg
      obtain ⟨m, hm, rfl⟩ := Option.map_eq_some'.mp h
      obtain ⟨hme, hcs⟩ := extendHanger_effect w fuel s m hm
      obtain ⟨hae, hac, _⟩ := sendAlertToFirebase_effect w "INFO" m
      have hE := hme.seq hae
      simp only [Bool.and_eq_true, decide_eq_true_eq] at hg
      refine Or.inr ⟨by simp [pirActs, hp, hg.1.1, hg.1.2, hg.2], ?_, 1, 0, rfl, hE⟩
      have hu := hE.1.2.2.2.2.2.2.1
      have hc := hE.1.1
      simp [pirActs, hc, hp, hu, hg.1.1, hac, hcs]
    · rename_i hg
      split at h
      · rename_i hg2
        obtain ⟨m, hm, rfl⟩ := Option.map_eq_some'.mp h
        obtain ⟨hme, hcs⟩ := retractHanger_effect w fuel s m hm
        obtain ⟨hae, hac, _⟩ := sendAlertToFirebase_effect w "INFO" m
        have hE := hme.seq hae
        simp only [Bool.and_eq_true, decide_eq_true_eq, Bool.not_eq_true'] at hg2
        refine Or.inr ⟨by simp [pirActs, hp, hg2.1, hg2.2], ?_, 0, 1, rfl, hE⟩
        have hu := hE.1.2.2.2.2.2.2.1
        have hc := hE.1.1
        simp [pirActs, hc, hp, hu, hg2.1, hac, hcs]
      · rename_i hg2
        simp only [Option.some.injEq] at h
        refine Or.inl ⟨?_, h.symm⟩
        simp only [pirActs, hp]
        simp only [Bool.not_eq_true] at hg hg2
        rw [hg, hg2]
        rfl

theorem pirDelayedAction_effect (w : World) (fuel d : Nat) (s s1 : State)
    (h : pirDelayedAction w fuel d s = some s1) :
    ∃ e r, e + r ≤ 1 ∧ MotorEffect e r s s1 ∧ (pirActs s = false → e + r = 0) := by
  unfold pirDelayedAction at h
  split at h
  · dsimp only at h
    split at h
    · obtain ⟨m, hm, rfl⟩ := Option.map_eq_some'.mp h
      have hcg : pirActs (millis w s).2 = pirActs s := pirActs_congr rfl rfl rfl rfl rfl rfl
      rcases executePirAction_effect w fuel _ m hm with ⟨hp, rfl⟩ | ⟨hp, _, e, r, her, hE⟩
      · exact ⟨0, 0, by omega, ⟨⟨rfl, rfl, rfl, rfl, rfl, rfl, rfl, rfl, rfl, rfl⟩, rfl, rfl⟩,
          fun _ => rfl⟩
      · refine ⟨e, r, by omega, ?_, ?_⟩
        · obtain ⟨hc, h2, h3⟩ := hE
          exact ⟨hc, h2, h3⟩
        · intro hq
          rw [hcg, hq] at hp
          exact absurd hp (by simp)
    · simp only [Option.some.injEq] at h
      subst h
      exact ⟨0, 0, by omega, ⟨⟨rfl, rfl, rfl, rfl, rfl, rfl, rfl, rfl, rfl, rfl⟩, rfl, rfl⟩,
        fun _ => rfl⟩
  · simp only [Option.some.injEq] at h
    subst h
    exact ⟨0, 0, by omega, MotorEffect.none s, fun _ => rfl⟩

theorem handlePirControl_effect (w : World) (fuel : Nat) (s s1 : State)
    (h : handlePirControl w fuel s = some s1) :
    ∃ e r, e + r ≤ 1 ∧ MotorEffect e r s s1 := by
  unfold handlePirControl at h
  split at h
  · simp only [Option.some.injEq] at h
    subst h
    exact ⟨0, 0, by omega, MotorEffect.none s⟩
  · dsimp only at h
    split at h
    · split at h
      · simp only [Option.some.injEq] at h
        subst h
        exact ⟨0, 0, by omega, ⟨⟨rfl, rfl, rfl, rfl, rfl, rfl, rfl, rfl, rfl, rfl⟩, rfl, rfl⟩⟩
      · obtain ⟨m, hm, hd⟩ := Option.bind_eq_some.mp h
        obtain ⟨e2, r2, h2, hE2, hz⟩ := pirDelayedAction_effect w fuel _ _ s1 hd
        have hmid : MotorEffect 0 0 m
            ({ (millis w { m with lastUserPresence := m.userPresent }).2 with
                lastPirAction := (millis w { m with lastUserPresence := m.userPresent }).1 }) :=
          ⟨⟨rfl, rfl, rfl, rfl, rfl, rfl, rfl, rfl, rfl, rfl⟩, rfl, rfl⟩
        rcases executePirAction_effect w fuel s m hm with ⟨_, rfl⟩ | ⟨_, hq, e, r, her, hE⟩
        · exact ⟨0 + e2, 0 + r2, by omega, hmid.seq hE2⟩
        · have hq2 : pirActs ({ (millis w { m with lastUserPresence := m.userPresent }).2 with
                lastPirAction := (millis w { m with lastUserPresence := m.userPresent }).1 })
              = false := by
            rw [← hq]
            exact pirActs_congr rfl rfl rfl rfl rfl rfl
          have := hz hq2
          exact ⟨e + (0 + e2), r + (0 + r2), by omega, hE.seq (hmid.seq hE2)⟩
    · obtain ⟨e, r, h1, hE, _⟩ := pirDelayedAction_effect w fuel _ s s1 h
      exact ⟨e, r, h1, hE⟩

theorem weatherRules_effect (w : World) (fuel : Nat) (s s1 : State)
    (h : weatherRules w fuel s = some s1) :
    ∃ e r, e + r ≤ 1 ∧ MotorEffect e r s s1 := by
  unfold weatherRules at h
  split at h
  · split at h
    · simp only [Option.some.injEq] at h
      subst h
      exact ⟨0, 0, by omega, MotorEffect.none s⟩
    · obtain ⟨m, hm, rfl⟩ := Option.map_eq_some'.mp h
      exact ⟨1, 0, by omega,
        (extendHanger_effect w fuel s m hm).1.seq (sendAlertToFirebase_effect w "INFO" m).1⟩
  · split at h
    · obtain ⟨m, hm, rfl⟩ := Option.map_eq_some'.mp h
      exact ⟨0, 1, by omega,
        (retractHanger_effect w fuel s m hm).1.seq (sendAlertToFirebase_effect w "WARNING" m).1⟩
    · simp only [Option.some.injEq] at h
      subst h
      exact ⟨0, 0, by omega, MotorEffect.none s⟩

theorem executeControlLogic_effect (w : World) (fuel : Nat) (s s1 : State)
    (h : executeControlLogic w fuel s = some s1) :
    ∃ e r, e + r ≤ 2 ∧ MotorEffect e r s s1
      ∧ ((s.sysConfig.enablePirControl = false ∨ s.manualMode = true
            ∨ (s.rainDetected = true ∧ s.currentState = HangerState.EXTENDED)) → e + r ≤ 1) := by
  unfold executeControlLogic at h
  split at h
  · obtain ⟨m, hm, rfl⟩ := Option.map_eq_some'.mp h
    exact ⟨0, 1, by omega,
      (retractHanger_effect w fuel s m hm).1.seq (sendAlertToFirebase_effect w "EMERGENCY" m).1,
      fun _ => by omega⟩
  · rename_i hr
    split at h
    · simp only [Option.some.injEq] at h
      subst h
      exact ⟨0, 0, by omega, MotorEffect.none s, fun _ => by omega⟩
    · rename_i hmm
      split at h
      · rename_i hp
        obtain ⟨m, hm, hw⟩ := Option.bind_eq_some.mp h
        obtain ⟨e1, r1, h1, hE1⟩ := handlePirControl_effect w fuel s m hm
        obtain ⟨e2, r2, h2, hE2⟩ := weatherRules_effect w fuel m s1 hw
        refine ⟨e1 + e2, r1 + r2, by omega, hE1.seq hE2, ?_⟩
        rintro (hf | hf | ⟨hf1, hf2⟩)
        · simp [hf] at hp
        · exact absurd hf hmm
        · simp [hf1, hf2] at hr
      · obtain ⟨e, r, h1, hE⟩ := weatherRules_effect w fuel s s1 h
        exact ⟨e, r, by omega, hE, fun _ => h1⟩

/-! ## C3 -/

/-- C3 (counterexample): with rain detected, Position Extended and a manual
command in progress, `handleControlLogic` returns at its guard: the state,
log included, is unchanged, so no `retractHanger` took place. -/
theorem handleControlLogic_skips_rain_during_manual_command :
    rainDuringCommand.rainDetected = true
      ∧ rainDuringCommand.currentState = HangerState.EXTENDED
      ∧ rainDuringCommand.manualCommandInProgress = true
      ∧ handleControlLogic (steadyWorld 1176) 1 rainDuringCommand = some rainDuringCommand := by
  exact ⟨rfl, rfl, rfl, rfl⟩

/-- C3 (amended): with rain detected and Position Extended,
`executeControlLogic` performs exactly one `retractHanger` (one relay
engagement, relay off afterwards) and no `extendHanger`, whatever `manualMode`,
`manualCommandInProgress`, the occupancy settings and the presence signal are,
provided the transit returns; `handleControlLogic` does the same when
`manualCommandInProgress` is false and does nothing at all when it is
true. -/
theorem rain_emergency_retracts_once (w : World) (fuel : Nat) (s : State)
    (hrain : s.rainDetected = true) (hext : s.currentState = HangerState.EXTENDED)
    (hret : (retractHanger w fuel s).isSome = true) :
    (∃ s1, executeControlLogic w fuel s = some s1
        ∧ s1.log.count Event.retractCall = s.log.count Event.retractCall + 1
        ∧ s1.log.count Event.extendCall = s.log.count Event.extendCall
        ∧ relayEngagements s1.log = relayEngagements s.log + 1
        ∧ s1.relay = false
        ∧ (s.manualCommandInProgress = false → handleControlLogic w fuel s = some s1))
      ∧ (s.manualCommandInProgress = true → handleControlLogic w fuel s = some s) := by
  obtain ⟨m, hm⟩ := Option.isSome_iff_exists.mp hret
  have hex : executeControlLogic w fuel s = some (sendAlertToFirebase w "EMERGENCY" m) := by
    unfold executeControlLogic handleEmergencyRetraction
    simp [hrain, hext, hm]
  constructor
  · refine ⟨_, hex, ?_, ?_, ?_, ?_, ?_⟩
    · have := ((retractHanger_effect w fuel s m hm).1.seq
        (sendAlertToFirebase_effect w "EMERGENCY" m).1).2.2
      simpa using this
    · have := ((retractHanger_effect w fuel s m hm).1.seq
        (sendAlertToFirebase_effect w "EMERGENCY" m).1).2.1
      simpa using this
    · rcases retractHanger_frame w fuel s m hm with ⟨hc, _⟩ | ⟨_, d, e, c, ev, rfl, hev⟩
      · rw [hext] at hc
        exact absurd hc (by decide)
      · rcases hev with rfl | rfl <;>
          simp [relayEngagements, sendAlertToFirebase, State.emit, isFirebaseConnected]
    · rcases retractHanger_frame w fuel s m hm with ⟨hc, _⟩ | ⟨_, d, e, c, ev, rfl, hev⟩
      · rw [hext] at hc
        exact absurd hc (by decide)
      · rfl
    · intro hq
      unfold handleControlLogic
      simp [hq, hex]
  · intro hq
    unfold handleControlLogic
    simp [hq]

/-- C3 (witness): rain while Extended from the boot configuration; the
retract transit reaches its band at the first poll. -/
theorem rain_emergency_retracts_once_witness :
    ∃ s1, handleControlLogic (steadyWorld 1176) 1 rainWhileExtended = some s1
      ∧ s1.log.count Event.retractCall = 1 ∧ s1.log.count Event.extendCall = 0 := by
  have h : (retractHanger (steadyWorld 1176) 1 rainWhileExtended).isSome = true := by decide!
  obtain ⟨⟨s1, _, h1, h2, _, _, h5⟩, _⟩ :=
    rain_emergency_retracts_once (steadyWorld 1176) 1 rainWhileExtended rfl rfl h
  exact ⟨s1, h5 rfl, by simpa [rainWhileExtended, bootState] using h1,
    by simpa [rainWhileExtended, bootState] using h2⟩

/-! ## C4 -/

/-- C4 (counterexample): under the access policy, when the user has just
become absent with Position Extended and good drying conditions, one call of
`executeControlLogic` runs `retractHanger` (from `handlePirControl`) and then
`extendHanger` (from the auto-extend rule): two motor invocations, each
engaging the relay. -/
theorem executeControlLogic_two_motor_calls :
    (executeControlLogic twoTransitWorld 1 userJustLeft).map State.log
        = some [Event.retractCall, Event.relayWrite true, Event.targetReached,
                Event.relayWrite false, Event.alert "INFO" true,
                Event.extendCall, Event.relayWrite true, Event.targetReached,
                Event.relayWrite false, Event.alert "INFO" true]
      ∧ (executeControlLogic twoTransitWorld 1 userJustLeft).map (fun s1 => motorCalls s1.log)
        = some 2
      ∧ (executeControlLogic twoTransitWorld 1 userJustLeft).map
          (fun s1 => relayEngagements s1.log) = some 2 := by
  decide!

/-- C4 (amended): one call of `executeControlLogic` that returns has invoked
the motor functions at most twice (at most once from `handlePirControl` and at
most once from the weather rules), and at most once when occupancy control is
disabled, when `manualMode` is set, or when the rain emergency applies. -/
theorem executeControlLogic_motor_calls_bound (w : World) (fuel : Nat) (s s1 : State)
    (h : executeControlLogic w fuel s = some s1) :
    motorCalls s1.log ≤ motorCalls s.log + 2
      ∧ ((s.sysConfig.enablePirControl = false ∨ s.manualMode = true
            ∨ (s.rainDetected = true ∧ s.currentState = HangerState.EXTENDED))
          → motorCalls s1.log ≤ motorCalls s.log + 1) := by
  obtain ⟨e, r, h2, ⟨_, he, hr⟩, h1⟩ := executeControlLogic_effect w fuel s s1 h
  unfold motorCalls
  constructor
  · omega
  · intro hc
    have := h1 hc
    omega

/-- C4 (witness): the call of the counterexample returns, with two motor
invocations; with occupancy control disabled the same world gives one. -/
theorem executeControlLogic_motor_calls_bound_witness :
    (∃ s1, executeControlLogic twoTransitWorld 1 userJustLeft = some s1
        ∧ motorCalls s1.log ≤ motorCalls userJustLeft.log + 2)
      ∧ (∃ s1, executeControlLogic twoTransitWorld 1 rainWhileExtended = some s1
        ∧ motorCalls s1.log ≤ motorCalls rainWhileExtended.log + 1) := by
  have h1 : (executeControlLogic twoTransitWorld 1 userJustLeft).isSome = true := by decide!
  have h2 : (executeControlLogic twoTransitWorld 1 rainWhileExtended).isSome = true := by decide!
  obtain ⟨a, ha⟩ := Option.isSome_iff_exists.mp h1
  obtain ⟨b, hb⟩ := Option.isSome_iff_exists.mp h2
  exact ⟨⟨a, ha, (executeControlLogic_motor_calls_bound _ _ _ _ ha).1⟩,
    ⟨b, hb, (executeControlLogic_motor_calls_bound _ _ _ _ hb).2 (Or.inl rfl)⟩⟩

/-! ## Remote configuration synchronisation -/

theorem CfgOther.unchanged (p : State × Bool) : CfgOther p p :=
  ⟨p.1.sysConfig, rfl, rfl, rfl⟩

theorem CfgOther.chain {p q r : State × Bool} (h1 : CfgOther p q) (h2 : CfgOther q r) :
    CfgOther p r := by
  obtain ⟨c1, e1, a1, r1⟩ := h1
  obtain ⟨c2, e2, a2, r2⟩ := h2
  refine ⟨c2, ?_, ?_, ?_⟩
  · rw [e2, e1]
  · rw [a2, e1]; exact a1
  · rw [r2, e1]; exact r1

theorem cfgMotorTimeout_other (json : FirebaseJson) (p : State × Bool) :
    CfgOther p (cfgMotorTimeout json p) := by
  unfold cfgMotorTimeout
  split
  · dsimp only
    split
    · exact ⟨_, rfl, rfl, rfl⟩
    · exact CfgOther.unchanged p
  · exact CfgOther.unchanged p

theorem cfgSensorReadInterval_other (json : FirebaseJson) (p : State × Bool) :
    CfgOther p (cfgSensorReadInterval json p) := by
  unfold cfgSensorReadInterval
  split
  · dsimp only
    split
    · exact ⟨_, rfl, rfl, rfl⟩
    · exact CfgOther.unchanged p
  · exact CfgOther.unchanged p

theorem cfgDistanceExtended_other (json : FirebaseJson) (p : State × Bool) :
    CfgOther p (cfgDistanceExtended json p) := by
  unfold cfgDistanceExtended
  split
  · dsimp only
    split
    · exact ⟨_, rfl, rfl, rfl⟩
    · exact CfgOther.unchanged p
  · exact CfgOther.unchanged p

theorem cfgDistanceRetracted_other (json : FirebaseJson) (p : State × Bool) :
    CfgOther p (cfgDistanceRetracted json p) := by
  unfold cfgDistanceRetracted
  split
  · dsimp only
    split
    · exact ⟨_, rfl, rfl, rfl⟩
    · exact CfgOther.unchanged p
  · exact CfgOther.unchanged p

theorem cfgDistanceTolerance_other (json : FirebaseJson) (p : State × Bool) :
    CfgOther p (cfgDistanceTolerance json p) := by
  unfold cfgDistanceTolerance
  split
  · dsimp only
    split
    · exact ⟨_, rfl, rfl, rfl⟩
    · exact CfgOther.unchanged p
  · exact CfgOther.unchanged p

theorem cfgDeviceName_other (json : FirebaseJson) (p : State × Bool) :
    CfgOther p (cfgDeviceName json p) := by
  unfold cfgDeviceName
  split
  · dsimp only
    split
    · exact ⟨_, rfl, rfl, rfl⟩
    · exact CfgOther.unchanged p
  · exact CfgOther.unchanged p

theorem cfgDeviceLocation_other (json : FirebaseJson) (p : State × Bool) :
    CfgOther p (cfgDeviceLocation json p) := by
  unfold cfgDeviceLocation
  split
  · dsimp only
    split
    · exact ⟨_, rfl, rfl, rfl⟩
    · exact CfgOther.unchanged p
  · exact CfgOther.unchanged p

theorem cfgUseCustomThresholds_other (json : FirebaseJson) (p : State × Bool) :
    CfgOther p (cfgUseCustomThresholds json p) := by
  unfold cfgUseCustomThresholds
  split
  · dsimp only
    split
    · exact ⟨_, rfl, rfl, rfl⟩
    · exact CfgOther.unchanged p
  · exact CfgOther.unchanged p

theorem cfgTempMin_other (json : FirebaseJson) (p : State × Bool) :
    CfgOther p (cfgTempMin json p) := by
  unfold cfgTempMin
  split
  · dsimp only
    split
    · exact ⟨_, rfl, rfl, rfl⟩
    · exact CfgOther.unchanged p
  · exact CfgOther.unchanged p

theorem cfgTempMax_other (json : FirebaseJson) (p : State × Bool) :
    CfgOther p (cfgTempMax json p) := by
  unfold cfgTempMax
  split
  · dsimp only
    split
    · exact ⟨_, rfl, rfl, rfl⟩
    · exact CfgOther.unchanged p
  · exact CfgOther.unchanged p

theorem cfgHumidityMin_other (json : FirebaseJson) (p : State × Bool) :
    CfgOther p (cfgHumidityMin json p) := by
  unfold cfgHumidityMin
  split
  · dsimp only
    split
    · exact ⟨_, rfl, rfl, rfl⟩
    · exact CfgOther.unchanged p
  · exact CfgOther.unchanged p

theorem cfgHumidityMax_other (json : FirebaseJson) (p : State × Bool) :
    CfgOther p (cfgHumidityMax json p) := by
  unfold cfgHumidityMax
  split
  · dsimp only
    split
    · exact ⟨_, rfl, rfl, rfl⟩
    · exact CfgOther.unchanged p
  · exact CfgOther.unchanged p

theorem cfgEnablePirControl_other (json : FirebaseJson) (p : State × Bool) :
    CfgOther p (cfgEnablePirControl json p) := by
  unfold cfgEnablePirControl
  split
  · dsimp only
    split
    · exact ⟨_, rfl, rfl, rfl⟩
    · exact CfgOther.unchanged p
  · exact CfgOther.unchanged p

theorem cfgRetractOnUserPresent_other (json : FirebaseJson) (p : State × Bool) :
    CfgOther p (cfgRetractOnUserPresent json p) := by
  unfold cfgRetractOnUserPresent
  split
  · dsimp only
    split
    · exact ⟨_, rfl, rfl, rfl⟩
    · exact CfgOther.unchanged p
  · exact CfgOther.unchanged p

theorem cfgPirRetractDelay_other (json : FirebaseJson) (p : State × Bool) :
    CfgOther p (cfgPirRetractDelay json p) := by
  unfold cfgPirRetractDelay
  split
  · dsimp only
    split
    · exact ⟨_, rfl, rfl, rfl⟩
    · exact CfgOther.unchanged p
  · exact CfgOther.unchanged p

theorem cfgAutoMode_spec (json : FirebaseJson) (p : State × Bool) :
    ∃ a mm, (cfgAutoMode json p).1
        = { p.1 with sysConfig := { p.1.sysConfig with autoMode := a }, manualMode := mm }
      ∧ ((a = p.1.sysConfig.autoMode ∧ mm = p.1.manualMode)
          ∨ ∃ d, json.autoMode = some d ∧ d.typeNum = JsonType.JSON_BOOL
              ∧ a = d.boolValue ∧ mm = !d.boolValue) := by
  unfold cfgAutoMode
  split
  · rename_i d hd
    split
    · rename_i hc
      simp only [Bool.and_eq_true, decide_eq_true_eq] at hc
      exact ⟨d.boolValue, !d.boolValue, rfl, Or.inr ⟨d, hd, hc.1, rfl, rfl⟩⟩
    · exact ⟨_, _, rfl, Or.inl ⟨rfl, rfl⟩⟩
  · exact ⟨_, _, rfl, Or.inl ⟨rfl, rfl⟩⟩

theorem applyRemoteConfig_spec (json : FirebaseJson) (s : State) :
    ∃ c mm, (applyRemoteConfig json s).1 = { s with sysConfig := c, manualMode := mm }
      ∧ c.requestedState = s.sysConfig.requestedState
      ∧ ((c.autoMode = s.sysConfig.autoMode ∧ mm = s.manualMode)
          ∨ ∃ d, json.autoMode = some d ∧ d.typeNum = JsonType.JSON_BOOL
              ∧ c.autoMode = d.boolValue ∧ mm = !d.boolValue) := by
  have hchain : CfgOther (cfgAutoMode json (s, false)) (applyRemoteConfig json s) := by
    unfold applyRemoteConfig
    exact (((((((((((((((cfgMotorTimeout_other json _).chain
      (cfgSensorReadInterval_other json _)).chain
      (cfgDistanceExtended_other json _)).chain
      (cfgDistanceRetracted_other json _)).chain
      (cfgDistanceTolerance_other json _)).chain
      (cfgDeviceName_other json _)).chain
      (cfgDeviceLocation_other json _)).chain
      (cfgUseCustomThresholds_other json _)).chain
      (cfgTempMin_other json _)).chain
      (cfgTempMax_other json _)).chain
      (cfgHumidityMin_other json _)).chain
      (cfgHumidityMax_other json _)).chain
      (cfgEnablePirControl_other json _)).chain
      (cfgRetractOnUserPresent_other json _)).chain
      (cfgPirRetractDelay_other json _))
  obtain ⟨c, hc, ha, hr⟩ := hchain
  obtain ⟨a, mm, h1, h2⟩ := cfgAutoMode_spec json (s, false)
  refine ⟨c, mm, ?_, ?_, ?_⟩
  · rw [hc, h1]
  · rw [hr, h1]
  · rw [h1] at ha
    rcases h2 with ⟨e1, e2⟩ | ⟨d, hd, ht, e1, e2⟩
    · exact Or.inl ⟨by rw [ha]; exact e1, e2⟩
    · exact Or.inr ⟨d, hd, ht, by rw [ha]; exact e1, e2⟩

/-! ## Remote command reconciliation -/

theorem handleRequestedState_busy (w : World) (fuel : Nat) (json : FirebaseJson)
    (p : State × Bool) (h : p.1.manualCommandInProgress = true) :
    handleRequestedState w fuel json p = some p := by
  unfold handleRequestedState
  split
  · split
    · simp [h]
    · rfl
  · rfl

theorem handleRequestedState_cases (w : World) (fuel : Nat) (json : FirebaseJson)
    (p q : State × Bool) (h : handleRequestedState w fuel json p = some q) :
    q = p
      ∨ (p.1.manualCommandInProgress = false ∧ ∃ m,
          extendHanger w fuel (beginManualCommand "extend" HangerState.EXTENDED p.1) = some m
            ∧ q = (m, true))
      ∨ (p.1.manualCommandInProgress = false ∧ ∃ m,
          retractHanger w fuel (beginManualCommand "retract" HangerState.RETRACTED p.1) = some m
            ∧ q = (m, true)) := by
  unfold handleRequestedState at h
  split at h
  · split at h
    · dsimp only at h
      split at h
      · rename_i hc
        simp only [Bool.and_eq_true, Bool.not_eq_true', decide_eq_true_eq] at hc
        split at h
        · obtain ⟨m, hm, rfl⟩ := Option.map_eq_some'.mp h
          exact Or.inr (Or.inl ⟨hc.1.1, m, hm, rfl⟩)
        · split at h
          · obtain ⟨m, hm, rfl⟩ := Option.map_eq_some'.mp h
            exact Or.inr (Or.inr ⟨hc.1.1, m, hm, rfl⟩)
          · simp only [Option.some.injEq] at h
            exact Or.inl h.symm
      · simp only [Option.some.injEq] at h
        exact Or.inl h.symm
    · simp only [Option.some.injEq] at h
      exact Or.inl h.symm
  · simp only [Option.some.injEq] at h
    exact Or.inl h.symm

theorem saveIfChanged_effect (w : World) (p : State × Bool) :
    MotorEffect 0 0 p.1 (saveIfChanged w p)
      ∧ (saveIfChanged w p).currentState = p.1.currentState
      ∧ (saveIfChanged w p).relay = p.1.relay
      ∧ relayEngagements (saveIfChanged w p).log = relayEngagements p.1.log := by
  obtain ⟨s, b⟩ := p
  cases b with
  | false => exact ⟨MotorEffect.none _, rfl, rfl, rfl⟩
  | true =>
    cases hm : s.manualCommandInProgress with
    | false =>
      have e : saveIfChanged w (s, true) = sendAlertToFirebase w "INFO" (saveConfig s) := by
        simp [saveIfChanged, saveConfig, State.emit, hm]
      rw [e]
      refine ⟨⟨⟨rfl, rfl, rfl, rfl, rfl, rfl, rfl, rfl, rfl, rfl⟩, ?_, ?_⟩, rfl, rfl, ?_⟩ <;>
        simp [relayEngagements, sendAlertToFirebase, saveConfig, State.emit, isFirebaseConnected]
    | true =>
      have e : saveIfChanged w (s, true) = saveConfig s := by
        simp [saveIfChanged, saveConfig, State.emit, hm]
      rw [e]
      refine ⟨⟨⟨rfl, rfl, rfl, rfl, rfl, rfl, rfl, rfl, rfl, rfl⟩, ?_, ?_⟩, rfl, rfl, ?_⟩ <;>
        simp [relayEngagements, saveConfig, State.emit]

/-! ## C5 -/

/-- C5 (counterexample): a manual command is in progress with
`autoMode = false` locally; the remote record carries `autoMode = true`. After
`listenForFirebaseConfigChanges` the command is still in progress and
`autoMode` is true. -/
theorem listen_enables_auto_during_manual_command :
    commandPending.manualCommandInProgress = true
      ∧ commandPending.sysConfig.autoMode = false
      ∧ (listenForFirebaseConfigChanges (steadyWorld 1176) 1 commandPending).map
          (fun s1 => (s1.manualCommandInProgress, s1.sysConfig.autoMode)) = some (true, true) := by
  decide!

/-- C5 (amended): from a state in which `manualCommandInProgress` implies
`autoMode = false`, the implication still holds after
`checkManualCommandCompletion`, after `executeControlLogic`, and after
`listenForFirebaseConfigChanges` provided that no command was in progress
before the call or the remote record does not carry `autoMode = true`. -/
theorem manual_command_implies_not_auto (w : World) (fuel : Nat) (s : State)
    (hinv : s.manualCommandInProgress = true → s.sysConfig.autoMode = false) :
    ((checkManualCommandCompletion s).manualCommandInProgress = true
        → (checkManualCommandCompletion s).sysConfig.autoMode = false)
      ∧ (∀ s1, executeControlLogic w fuel s = some s1 →
          s1.manualCommandInProgress = true → s1.sysConfig.autoMode = false)
      ∧ (∀ s1, listenForFirebaseConfigChanges w fuel s = some s1 →
          (s.manualCommandInProgress = false ∨ ¬ remoteEnablesAuto s) →
          s1.manualCommandInProgress = true → s1.sysConfig.autoMode = false) := by
  refine ⟨?_, ?_, ?_⟩
  · unfold checkManualCommandCompletion
    split
    · rename_i hm
      split
      · intro hc
        simp [saveConfig, State.emit] at hc
      · intro _
        exact hinv hm
    · exact hinv
  · intro s1 h hm
    obtain ⟨_, _, _, hE, _⟩ := executeControlLogic_effect w fuel s s1 h
    rw [hE.1.1]
    rw [hE.1.2.2.1] at hm
    exact hinv hm
  · intro s1 h hcond hm
    unfold listenForFirebaseConfigChanges at h
    dsimp only at h
    split at h
    · simp only [Option.some.injEq] at h
      subst h
      exact hinv hm
    · split at h
      · obtain ⟨q, hq, rfl⟩ := Option.map_eq_some'.mp h
        obtain ⟨c, mm, hp, hr, hauto⟩ := applyRemoteConfig_spec
          ({ (isFirebaseConnected w s).2 with
              fbGetIdx := (isFirebaseConnected w s).2.fbGetIdx + 1 }).remote
          { (isFirebaseConnected w s).2 with
              fbGetIdx := (isFirebaseConnected w s).2.fbGetIdx + 1 }
        obtain ⟨⟨hsc, _, _⟩, _, _, _⟩ := saveIfChanged_effect w q
        rw [hsc.1]
        rw [hsc.2.2.1] at hm
        rcases handleRequestedState_cases w fuel _ _ q hq with rfl | ⟨_, m, hx, rfl⟩ | ⟨_, m, hx, rfl⟩
        · rw [hp] at hm ⊢
          have hm0 : s.manualCommandInProgress = true := hm
          show c.autoMode = false
          rcases hauto with ⟨ha, _⟩ | ⟨d, hd, ht, ha, _⟩
          · rw [ha]; exact hinv hm0
          · rcases hcond with hf | hn
            · rw [hf] at hm0; exact absurd hm0 (by simp)
            · rw [ha]
              cases hb : d.boolValue with
              | false => rfl
              | true => exact absurd ⟨d, hd, ht, hb⟩ hn
        · obtain ⟨⟨hsm, _, _⟩, _⟩ := extendHanger_effect w fuel _ m hx
          show m.sysConfig.autoMode = false
          rw [hsm.1]
          rfl
        · obtain ⟨⟨hsm, _, _⟩, _⟩ := retractHanger_effect w fuel _ m hx
          show m.sysConfig.autoMode = false
          rw [hsm.1]
          rfl
      · simp only [Option.some.injEq] at h
        subst h
        exact hinv hm

/-- C5 (witness): a command in progress with `autoMode = false` and a remote
record without `autoMode`; the command is still in progress after the call. -/
theorem manual_command_implies_not_auto_witness :
    ∃ s1, listenForFirebaseConfigChanges (steadyWorld 1176) 1 commandPendingQuiet = some s1
      ∧ s1.manualCommandInProgress = true ∧ s1.sysConfig.autoMode = false := by
  have h : (listenForFirebaseConfigChanges (steadyWorld 1176) 1 commandPendingQuiet).map
      (fun s1 => s1.manualCommandInProgress) = some true := by decide!
  obtain ⟨a, ha, hm⟩ := Option.map_eq_some'.mp h
  exact ⟨a, ha, hm, (manual_command_implies_not_auto (steadyWorld 1176) 1 commandPendingQuiet
    (fun _ => rfl)).2.2 a ha (Or.inr (by rintro ⟨d, hd, _⟩; exact Option.noConfusion hd)) hm⟩

/-! ## C6 -/

/-- C6: while a manual command is in progress, `listenForFirebaseConfigChanges`
returns (for every world, remote record and fuel) having called neither
`extendHanger` nor `retractHanger` nor switched the relay on, and with
`manualCommandInProgress`, `targetState`, the local `requestedState`, Position
and the relay level unchanged. -/
theorem listen_ignores_requests_while_in_progress (w : World) (fuel : Nat) (s : State)
    (h : s.manualCommandInProgress = true) :
    ∃ s1, listenForFirebaseConfigChanges w fuel s = some s1
      ∧ s1.log.count Event.extendCall = s.log.count Event.extendCall
      ∧ s1.log.count Event.retractCall = s.log.count Event.retractCall
      ∧ relayEngagements s1.log = relayEngagements s.log
      ∧ s1.manualCommandInProgress = true
      ∧ s1.targetState = s.targetState
      ∧ s1.sysConfig.requestedState = s.sysConfig.requestedState
      ∧ s1.currentState = s.currentState
      ∧ s1.relay = s.relay := by
  unfold listenForFirebaseConfigChanges
  dsimp only
  split
  · exact ⟨_, rfl, rfl, rfl, rfl, h, rfl, rfl, rfl, rfl⟩
  · split
    · obtain ⟨c, mm, hp, hr, _⟩ := applyRemoteConfig_spec
        ({ (isFirebaseConnected w s).2 with
            fbGetIdx := (isFirebaseConnected w s).2.fbGetIdx + 1 }).remote
        { (isFirebaseConnected w s).2 with
            fbGetIdx := (isFirebaseConnected w s).2.fbGetIdx + 1 }
      have hb : (applyRemoteConfig
          ({ (isFirebaseConnected w s).2 with
            fbGetIdx := (isFirebaseConnected w s).2.fbGetIdx + 1 }).remote
          { (isFirebaseConnected w s).2 with
            fbGetIdx := (isFirebaseConnected w s).2.fbGetIdx + 1 }).1.manualCommandInProgress
            = true := by
        rw [hp]; exact h
      rw [handleRequestedState_busy w fuel _ _ hb]
      obtain ⟨⟨hsc, he, hrc⟩, hcs, hrl, hre⟩ := saveIfChanged_effect w
        (applyRemoteConfig
          ({ (isFirebaseConnected w s).2 with
            fbGetIdx := (isFirebaseConnected w s).2.fbGetIdx + 1 }).remote
          { (isFirebaseConnected w s).2 with
            fbGetIdx := (isFirebaseConnected w s).2.fbGetIdx + 1 })
      refine ⟨_, rfl, ?_, ?_, ?_, ?_, ?_, ?_, ?_, ?_⟩
      · rw [he, hp]; rfl
      · rw [hrc, hp]; rfl
      · rw [hre, hp]; rfl
      · rw [hsc.2.2.1, hp]; exact h
      · rw [hsc.2.2.2.1, hp]; rfl
      · rw [hsc.1, hp]; exact hr
      · rw [hcs, hp]; rfl
      · rw [hrl, hp]; rfl
    · exact ⟨_, rfl, rfl, rfl, rfl, h, rfl, rfl, rfl, rfl⟩

/-- C6 (witness): the pending command of `commandPending`, with the remote
record asking for "retract". -/
theorem listen_ignores_requests_while_in_progress_witness :
    ∃ s1, listenForFirebaseConfigChanges (steadyWorld 1176) 1 commandPending = some s1
      ∧ s1.log.count Event.retractCall = 0 ∧ s1.log.count Event.extendCall = 0
      ∧ s1.targetState = HangerState.EXTENDED ∧ s1.sysConfig.requestedState = "extend" := by
  obtain ⟨s1, h0, h1, h2, _, _, h5, h6, _, _⟩ :=
    listen_ignores_requests_while_in_progress (steadyWorld 1176) 1 commandPending rfl
  exact ⟨s1, h0, h2, h1, h5, h6⟩

/-! ## C7 -/

/-- C7: after `checkManualCommandCompletion` the flag
`manualCommandInProgress` is false exactly when it was false before or
Position equals `targetState`; equivalently, it is still true exactly when a
command was in progress and Position differs from its target. -/
theorem checkManualCommandCompletion_clears_iff (s : State) :
    ((checkManualCommandCompletion s).manualCommandInProgress = false
        ↔ (s.manualCommandInProgress = false ∨ s.currentState = s.targetState))
      ∧ ((checkManualCommandCompletion s).manualCommandInProgress = true
        ↔ (s.manualCommandInProgress = true ∧ s.currentState ≠ s.targetState)) := by
  unfold checkManualCommandCompletion
  by_cases hm : s.manualCommandInProgress = true
  · by_cases hc : s.currentState = s.targetState
    · simp [hm, hc, saveConfig, State.emit]
    · simp [hm, hc]
  · simp only [Bool.not_eq_true] at hm
    simp [hm]

/-! ## C8 -/

theorem readDHT11_keeps (w : World) (s : State) :
    (readDHT11 w s).manualCommandInProgress = s.manualCommandInProgress
      ∧ (readDHT11 w s).needToClearFirebaseState = s.needToClearFirebaseState
      ∧ (readDHT11 w s).sysConfig = s.sysConfig := by
  unfold readDHT11
  dsimp only
  split <;> exact ⟨rfl, rfl, rfl⟩

theorem readPIR_keeps (w : World) (s : State) :
    (readPIR w s).manualCommandInProgress = s.manualCommandInProgress
      ∧ (readPIR w s).needToClearFirebaseState = s.needToClearFirebaseState
      ∧ (readPIR w s).sysConfig = s.sysConfig := by
  unfold readPIR
  dsimp only
  split
  · exact ⟨rfl, rfl, rfl⟩
  · split <;> exact ⟨rfl, rfl, rfl⟩

theorem readSensors_keeps (w : World) (s : State) :
    (readSensors w s).manualCommandInProgress = s.manualCommandInProgress
      ∧ (readSensors w s).needToClearFirebaseState = s.needToClearFirebaseState
      ∧ (readSensors w s).sysConfig = s.sysConfig := by
  obtain ⟨a1, a2, a3⟩ := readDHT11_keeps w s
  obtain ⟨b1, b2, b3⟩ := readPIR_keeps w (readDHT11 w s)
  unfold readSensors
  simp only [readUltrasonicDistance_snd, readRainSensor]
  exact ⟨b1.trans a1, b2.trans a2, b3.trans a3⟩

/-- C8: when a command is in progress and Position equals the target,
`checkManualCommandCompletion` sets the local `requestedState` to "none",
raises `needToClearFirebaseState`, clears the flag, persists the
configuration, and changes nothing else; in every other case the state is
returned unchanged. The function reads no oracle, and `handleSystemTasks`
runs it first in every cycle whatever the connectivity. -/
theorem checkManualCommandCompletion_effect (s : State) :
    ((s.manualCommandInProgress = true ∧ s.currentState = s.targetState) →
        checkManualCommandCompletion s
          = { s with sysConfig := { s.sysConfig with requestedState := "none" },
                     manualCommandInProgress := false,
                     needToClearFirebaseState := true,
                     log := s.log ++ [Event.saveConfig] })
      ∧ (¬ (s.manualCommandInProgress = true ∧ s.currentState = s.targetState) →
        checkManualCommandCompletion s = s)
      ∧ (∀ (w : World) (s1 : State), handleSystemTasks w s = some s1 →
          s1.manualCommandInProgress = (checkManualCommandCompletion s).manualCommandInProgress
            ∧ s1.needToClearFirebaseState
                = (checkManualCommandCompletion s).needToClearFirebaseState
            ∧ s1.sysConfig = (checkManualCommandCompletion s).sysConfig) := by
  refine ⟨?_, ?_, ?_⟩
  · rintro ⟨hm, hc⟩
    simp [checkManualCommandCompletion, hm, hc, saveConfig, State.emit]
  · intro hn
    unfold checkManualCommandCompletion
    by_cases hm : s.manualCommandInProgress = true
    · have hc : ¬ s.currentState = s.targetState := fun hc => hn ⟨hm, hc⟩
      simp [hm, hc]
    · simp [hm]
  · intro w s1 h
    unfold handleSystemTasks at h
    dsimp only at h
    split at h
    · simp at h
    · simp only [Option.some.injEq] at h
      subst h
      exact readSensors_keeps w _

/-- C8 (witness): the completed command of `commandPending`, and the boot
state in which no command is in progress. -/
theorem checkManualCommandCompletion_effect_witness :
    (checkManualCommandCompletion commandPending).sysConfig.requestedState = "none"
      ∧ (checkManualCommandCompletion commandPending).needToClearFirebaseState = true
      ∧ checkManualCommandCompletion bootState = bootState := by
  have h1 := (checkManualCommandCompletion_effect commandPending).1 ⟨rfl, rfl⟩
  have h2 := (checkManualCommandCompletion_effect bootState).2.1
    (fun h => absurd h.1 (by decide))
  rw [h1]
  exact ⟨rfl, rfl, h2⟩

/-! ## C9 -/

/-- C9 (code bug, evaluated): with `needToClearFirebaseState` raised and the
remote `requestedState` still "extend", a run of `handleFirebaseOperations`
in which the write of "none" fails, or in which the cloud is no longer ready
when `clearFirebaseRequestedState` checks it, lowers the flag although the
remote record still holds "extend". -/
theorem handleFirebaseOperations_lowers_flag_without_clearing :
    clearPending.needToClearFirebaseState = true
      ∧ (handleFirebaseOperations failingWriteWorld 1 clearPending).map
          (fun s1 => (s1.needToClearFirebaseState, s1.remote.requestedState, s1.log))
        = some (false, some (jsonString "extend"), [Event.remoteClear false])
      ∧ (handleFirebaseOperations droppingWorld 1 clearPending).map
          (fun s1 => (s1.needToClearFirebaseState, s1.remote.requestedState, s1.log))
        = some (false, some (jsonString "extend"), []) := by
  decide!

/-! ## C10 -/

theorem handleRequestedState_retract (w : World) (fuel : Nat) (json : FirebaseJson)
    (p : State × Bool) (d : FirebaseJsonData) (hidle : p.1.manualCommandInProgress = false)
    (hreq : json.requestedState = some d) (hty : d.typeNum = JsonType.JSON_STRING)
    (hval : d.stringValue = "retract") :
    handleRequestedState w fuel json p
      = (retractHanger w fuel (beginManualCommand "retract" HangerState.RETRACTED p.1)).map
          fun s1 => (s1, true) := by
  unfold handleRequestedState
  rw [hreq]
  simp only [hty, hval, hidle, if_true]
  rw [if_pos (by decide), if_neg (by decide), if_pos (by decide)]

theorem handleRequestedState_extend (w : World) (fuel : Nat) (json : FirebaseJson)
    (p : State × Bool) (d : FirebaseJsonData) (hidle : p.1.manualCommandInProgress = false)
    (hreq : json.requestedState = some d) (hty : d.typeNum = JsonType.JSON_STRING)
    (hval : d.stringValue = "extend") :
    handleRequestedState w fuel json p
      = (extendHanger w fuel (beginManualCommand "extend" HangerState.EXTENDED p.1)).map
          fun s1 => (s1, true) := by
  unfold handleRequestedState
  rw [hreq]
  simp only [hty, hval, hidle, if_true]
  rw [if_pos (by decide), if_pos (by decide)]

theorem checkManualCommandCompletion_done (s : State)
    (hm : s.manualCommandInProgress = true) (hc : s.currentState = s.targetState) :
    (checkManualCommandCompletion s).manualCommandInProgress = false
      ∧ (checkManualCommandCompletion s).needToClearFirebaseState = true
      ∧ (checkManualCommandCompletion s).sysConfig.requestedState = "none" := by
  simp [checkManualCommandCompletion, hm, hc, saveConfig, State.emit]

theorem listen_connected (w : World) (fuel : Nat) (s : State)
    (hready : w.fbReady s.fbReadyIdx = true) (hget : w.fbGet s.fbGetIdx = true) :
    listenForFirebaseConfigChanges w fuel s
      = (handleRequestedState w fuel s.remote
          (applyRemoteConfig s.remote
            { s with fbReadyIdx := s.fbReadyIdx + 1, fbGetIdx := s.fbGetIdx + 1 })).map
          (saveIfChanged w) := by
  unfold listenForFirebaseConfigChanges
  simp only [isFirebaseConnected, hready, hget]
  rfl

/-- C10: when the cloud is ready and the remote record is read, no command
is in progress and the remote `requestedState` is the string "retract" (resp.
"extend"), `listenForFirebaseConfigChanges` returns as soon as the transit it
starts returns, with `manualCommandInProgress = true`, `autoMode = false`,
`targetState = RETRACTED` (resp. `EXTENDED`), exactly one more call of
`retractHanger` (resp. `extendHanger`) and none of the other motor function,
and Position at the target; a following `checkManualCommandCompletion` then
clears the flag, raises `needToClearFirebaseState` and resets the local
`requestedState` to "none". -/
theorem remote_request_starts_manual_command (w : World) (fuel : Nat) (s : State)
    (d : FirebaseJsonData)
    (hready : w.fbReady s.fbReadyIdx = true) (hget : w.fbGet s.fbGetIdx = true)
    (hidle : s.manualCommandInProgress = false)
    (hreq : s.remote.requestedState = some d) (hty : d.typeNum = JsonType.JSON_STRING) :
    (d.stringValue = "retract" →
      (retractHanger w fuel
        (beginManualCommand "retract" HangerState.RETRACTED (afterConfigSync s))).isSome = true →
      ∃ s1, listenForFirebaseConfigChanges w fuel s = some s1
        ∧ CommandStarted HangerState.RETRACTED Event.retractCall Event.extendCall s s1)
    ∧ (d.stringValue = "extend" →
      (extendHanger w fuel
        (beginManualCommand "extend" HangerState.EXTENDED (afterConfigSync s))).isSome = true →
      ∃ s1, listenForFirebaseConfigChanges w fuel s = some s1
        ∧ CommandStarted HangerState.EXTENDED Event.extendCall Event.retractCall s s1) := by
  obtain ⟨c, mm, hp, _, _⟩ := applyRemoteConfig_spec s.remote
    { s with fbReadyIdx := s.fbReadyIdx + 1, fbGetIdx := s.fbGetIdx + 1 }
  have hidle2 : (applyRemoteConfig s.remote
      { s with fbReadyIdx := s.fbReadyIdx + 1, fbGetIdx := s.fbGetIdx + 1 }).1.manualCommandInProgress
        = false := by
    rw [hp]; exact hidle
  have hlog : (afterConfigSync s).log = s.log := by
    unfold afterConfigSync
    rw [hp]
  constructor
  · intro hval hret
    obtain ⟨m, hm⟩ := Option.isSome_iff_exists.mp hret
    obtain ⟨⟨hsm, he, hr⟩, hcs⟩ := retractHanger_effect w fuel _ m hm
    obtain ⟨⟨hsc, he2, hr2⟩, hcs2, _, _⟩ := saveIfChanged_effect w (m, true)
    have hmc : (saveIfChanged w (m, true)).manualCommandInProgress = true := by
      rw [hsc.2.2.1, hsm.2.2.1]; rfl
    have htg : (saveIfChanged w (m, true)).targetState = HangerState.RETRACTED := by
      rw [hsc.2.2.2.1, hsm.2.2.2.1]; rfl
    have hcur : (saveIfChanged w (m, true)).currentState = HangerState.RETRACTED := by
      rw [hcs2]; exact hcs
    refine ⟨saveIfChanged w (m, true), ?_, hmc, ?_, htg, ?_, ?_, hcur,
      checkManualCommandCompletion_done _ hmc (by rw [hcur, htg])⟩
    · rw [listen_connected w fuel s hready hget,
        handleRequestedState_retract w fuel _ _ d hidle2 hreq hty hval]
      unfold afterConfigSync at hm
      rw [hm]
      rfl
    · rw [hsc.1, hsm.1]; rfl
    · rw [hr2, hr, ← hlog]; rfl
    · rw [he2, he, ← hlog]; rfl
  · intro hval hret
    obtain ⟨m, hm⟩ := Option.isSome_iff_exists.mp hret
    obtain ⟨⟨hsm, he, hr⟩, hcs⟩ := extendHanger_effect w fuel _ m hm
    obtain ⟨⟨hsc, he2, hr2⟩, hcs2, _, _⟩ := saveIfChanged_effect w (m, true)
    have hmc : (saveIfChanged w (m, true)).manualCommandInProgress = true := by
      rw [hsc.2.2.1, hsm.2.2.1]; rfl
    have htg : (saveIfChanged w (m, true)).targetState = HangerState.EXTENDED := by
      rw [hsc.2.2.2.1, hsm.2.2.2.1]; rfl
    have hcur : (saveIfChanged w (m, true)).currentState = HangerState.EXTENDED := by
      rw [hcs2]; exact hcs
    refine ⟨saveIfChanged w (m, true), ?_, hmc, ?_, htg, ?_, ?_, hcur,
      checkManualCommandCompletion_done _ hmc (by rw [hcur, htg])⟩
    · rw [listen_connected w fuel s hready hget,
        handleRequestedState_extend w fuel _ _ d hidle2 hreq hty hval]
      unfold afterConfigSync at hm
      rw [hm]
      rfl
    · rw [hsc.1, hsm.1]; rfl
    · rw [he2, he, ← hlog]; rfl
    · rw [hr2, hr, ← hlog]; rfl

/-- C10 (witness): the spec scenario (Position Extended, remote "retract",
the retract transit reaches its band at the first poll), and an "extend"
request from the boot state. -/
theorem remote_request_starts_manual_command_witness :
    (∃ s1, listenForFirebaseConfigChanges (steadyWorld 1176) 1 retractRequested = some s1
        ∧ CommandStarted HangerState.RETRACTED Event.retractCall Event.extendCall
            retractRequested s1)
      ∧ (∃ s1, listenForFirebaseConfigChanges (steadyWorld 2941) 1 extendRequested = some s1
        ∧ CommandStarted HangerState.EXTENDED Event.extendCall Event.retractCall
            extendRequested s1) := by
  exact ⟨(remote_request_starts_manual_command (steadyWorld 1176) 1 retractRequested
      (jsonString "retract") rfl rfl rfl rfl rfl).1 rfl (by decide!),
    (remote_request_starts_manual_command (steadyWorld 2941) 1 extendRequested
      (jsonString "extend") rfl rfl rfl rfl rfl).2 rfl (by decide!)⟩

/-! ## C14 -/

/-- C14: `isGoodDryingConditions` is true exactly when the temperature lies
strictly between the two temperature thresholds, the humidity lies strictly
between the two humidity thresholds and no rain is detected (a value equal to
a threshold is not good); two states that agree on these seven values give the
same result. The function returns a boolean only, so it changes no state. -/
theorem isGoodDryingConditions_iff (s : State) :
    (isGoodDryingConditions s = true ↔
        (s.sysConfig.tempMinThreshold < s.temperature
          ∧ s.temperature < s.sysConfig.tempMaxThreshold
          ∧ s.sysConfig.humidityMinThreshold < s.humidity
          ∧ s.humidity < s.sysConfig.humidityMaxThreshold
          ∧ s.rainDetected = false))
      ∧ ((s.temperature = s.sysConfig.tempMinThreshold
            ∨ s.temperature = s.sysConfig.tempMaxThreshold
            ∨ s.humidity = s.sysConfig.humidityMinThreshold
            ∨ s.humidity = s.sysConfig.humidityMaxThreshold) →
          isGoodDryingConditions s = false)
      ∧ (∀ t : State,
          t.sysConfig.tempMinThreshold = s.sysConfig.tempMinThreshold →
          t.sysConfig.tempMaxThreshold = s.sysConfig.tempMaxThreshold →
          t.sysConfig.humidityMinThreshold = s.sysConfig.humidityMinThreshold →
          t.sysConfig.humidityMaxThreshold = s.sysConfig.humidityMaxThreshold →
          t.temperature = s.temperature → t.humidity = s.humidity →
          t.rainDetected = s.rainDetected →
          isGoodDryingConditions t = isGoodDryingConditions s) := by
  have hiff : isGoodDryingConditions s = true ↔
        (s.sysConfig.tempMinThreshold < s.temperature
          ∧ s.temperature < s.sysConfig.tempMaxThreshold
          ∧ s.sysConfig.humidityMinThreshold < s.humidity
          ∧ s.humidity < s.sysConfig.humidityMaxThreshold
          ∧ s.rainDetected = false) := by
    simp only [isGoodDryingConditions, Bool.and_eq_true, decide_eq_true_eq, gt_iff_lt,
      Bool.not_eq_true']
    tauto
  refine ⟨hiff, ?_, ?_⟩
  · intro hb
    cases hg : isGoodDryingConditions s with
    | false => rfl
    | true =>
      obtain ⟨h1, h2, h3, h4, _⟩ := hiff.mp hg
      rcases hb with h | h | h | h
      · rw [h] at h1; exact absurd h1 (lt_irrefl _)
      · rw [h] at h2; exact absurd h2 (lt_irrefl _)
      · rw [h] at h3; exact absurd h3 (lt_irrefl _)
      · rw [h] at h4; exact absurd h4 (lt_irrefl _)
  · intro t h1 h2 h3 h4 h5 h6 h7
    simp only [isGoodDryingConditions, h1, h2, h3, h4, h5, h6, h7]

/-- C14 (witness): 25 degrees on a 25 degree lower threshold is not good,
30 degrees is. -/
theorem isGoodDryingConditions_iff_witness :
    isGoodDryingConditions onThreshold = false
      ∧ isGoodDryingConditions pleasantDay = true
      ∧ isGoodDryingConditions { pleasantDay with currentState := HangerState.EXTENDED }
          = isGoodDryingConditions pleasantDay := by
  refine ⟨(isGoodDryingConditions_iff onThreshold).2.1 (Or.inl rfl), ?_, ?_⟩
  · exact (isGoodDryingConditions_iff pleasantDay).1.mpr (by decide!)
  · exact (isGoodDryingConditions_iff pleasantDay).2.2 _ rfl rfl rfl rfl rfl rfl rfl

/-! ## C15 -/

theorem executeControlLogic_eq (w : World) (fuel : Nat) (s : State)
    (hpir : s.sysConfig.enablePirControl = false) :
    executeControlLogic w fuel s =
      match priorityRule s with
      | MotorAction.retract =>
        (retractHanger w fuel s).map
          (sendAlertToFirebase w (if s.rainDetected = true then "EMERGENCY" else "WARNING"))
      | MotorAction.extend => (extendHanger w fuel s).map (sendAlertToFirebase w "INFO")
      | MotorAction.noAction => some s := by
  cases hr : s.rainDetected <;> cases hm : s.manualMode <;>
    cases hc : s.currentState <;> cases hg : isGoodDryingConditions s <;>
    simp [executeControlLogic, handleEmergencyRetraction, weatherRules, priorityRule, hpir, hr,
      hm, hc, hg]

theorem priorityRule_position (s : State) :
    (priorityRule s = MotorAction.retract → s.currentState = HangerState.EXTENDED)
      ∧ (priorityRule s = MotorAction.extend → s.currentState = HangerState.RETRACTED) := by
  cases hr : s.rainDetected <;> cases hm : s.manualMode <;>
    cases hc : s.currentState <;> cases hg : isGoodDryingConditions s <;>
    simp [priorityRule, hr, hm, hc, hg]

/-- C15: with occupancy control disabled, `executeControlLogic` performs the
action of the first matching rule of the priority list (rain emergency,
manual hold, auto-extend, auto-retract, nothing): a retract is one
`retractHanger` from Extended followed by an alert (EMERGENCY for the rain
rule, WARNING for auto-retract), an extend is one `extendHanger` from
Retracted followed by an INFO alert, and no action returns the state
unchanged. With occupancy control enabled and the user present, the weather
rules never call `extendHanger`: from Retracted with good conditions they
return the state unchanged. -/
theorem executeControlLogic_follows_priority (w : World) (fuel : Nat) (s : State) :
    (s.sysConfig.enablePirControl = false →
        (priorityRule s = MotorAction.retract →
            s.currentState = HangerState.EXTENDED
              ∧ executeControlLogic w fuel s
                = (retractHanger w fuel s).map
                    (sendAlertToFirebase w
                      (if s.rainDetected = true then "EMERGENCY" else "WARNING")))
          ∧ (priorityRule s = MotorAction.extend →
            s.currentState = HangerState.RETRACTED
              ∧ executeControlLogic w fuel s
                = (extendHanger w fuel s).map (sendAlertToFirebase w "INFO"))
          ∧ (priorityRule s = MotorAction.noAction → executeControlLogic w fuel s = some s))
      ∧ (s.sysConfig.enablePirControl = true → s.userPresent = true →
          (s.currentState = HangerState.RETRACTED → isGoodDryingConditions s = true →
              weatherRules w fuel s = some s)
            ∧ ∀ s1, weatherRules w fuel s = some s1 →
                s1.log.count Event.extendCall = s.log.count Event.extendCall) := by
  constructor
  · intro hpir
    have heq := executeControlLogic_eq w fuel s hpir
    refine ⟨?_, ?_, ?_⟩
    · intro h
      rw [h] at heq
      exact ⟨(priorityRule_position s).1 h, heq⟩
    · intro h
      rw [h] at heq
      exact ⟨(priorityRule_position s).2 h, heq⟩
    · intro h
      rw [h] at heq
      exact heq
  · intro hpir hu
    constructor
    · intro hc hg
      simp [weatherRules, hpir, hu, hc, hg]
    · intro s1 h
      unfold weatherRules at h
      split at h
      · simp only [hpir, hu, Bool.and_self, if_true, Option.some.injEq] at h
        rw [← h]
      · split at h
        · obtain ⟨m, hm, rfl⟩ := Option.map_eq_some'.mp h
          have := ((retractHanger_effect w fuel s m hm).1.seq
            (sendAlertToFirebase_effect w "WARNING" m).1).2.1
          simpa using this
        · simp only [Option.some.injEq] at h
          rw [← h]

/-- C15 (witness): occupancy control disabled, Retracted on a pleasant day:
the list says extend; with the temperature on the threshold it says nothing;
with occupancy control enabled and the user present nothing is extended. -/
theorem executeControlLogic_follows_priority_witness :
    executeControlLogic (steadyWorld 2941) 1 pleasantDay
        = (extendHanger (steadyWorld 2941) 1 pleasantDay).map
            (sendAlertToFirebase (steadyWorld 2941) "INFO")
      ∧ executeControlLogic (steadyWorld 2941) 1 onThreshold = some onThreshold
      ∧ weatherRules (steadyWorld 2941) 1 presentOnPleasantDay = some presentOnPleasantDay := by
  exact ⟨(((executeControlLogic_follows_priority (steadyWorld 2941) 1 pleasantDay).1 rfl).2.1
      (by decide!)).2,
    ((executeControlLogic_follows_priority (steadyWorld 2941) 1 onThreshold).1 rfl).2.2
      (by decide!),
    ((executeControlLogic_follows_priority (steadyWorld 2941) 1 presentOnPleasantDay).2 rfl
      rfl).1 rfl (by decide!)⟩

/-! ## C16 -/

theorem executePirAction_eq (w : World) (fuel : Nat) (s : State) :
    executePirAction w fuel s =
      match occupancyPolicy s with
      | MotorAction.retract => (retractHanger w fuel s).map (sendAlertToFirebase w "INFO")
      | MotorAction.extend => (extendHanger w fuel s).map (sendAlertToFirebase w "INFO")
      | MotorAction.noAction => some s := by
  cases hp : s.sysConfig.retractOnUserPresent <;> cases hu : s.userPresent <;>
    cases hc : s.currentState <;> cases hg : isGoodDryingConditions s <;>
    simp [executePirAction, occupancyPolicy, hp, hu, hc, hg]

theorem occupancyPolicy_position (s : State) :
    (occupancyPolicy s = MotorAction.retract → s.currentState = HangerState.EXTENDED)
      ∧ (occupancyPolicy s = MotorAction.extend → s.currentState = HangerState.RETRACTED) := by
  cases hp : s.sysConfig.retractOnUserPresent <;> cases hu : s.userPresent <;>
    cases hc : s.currentState <;> cases hg : isGoodDryingConditions s <;>
    simp [occupancyPolicy, hp, hu, hc, hg]

/-- C16: `executePirAction` does what the occupancy policy table says. When
the table says retract (privacy: present and Extended; access: absent and
Extended) it is one `retractHanger` from Extended followed by an INFO alert;
when it says extend (privacy: absent, Retracted, good conditions; access:
present, Retracted, good conditions) it is one `extendHanger` from Retracted
followed by an INFO alert; in every other case it returns the state unchanged.
Whenever it returns, the log has gained one `retractHanger` call exactly in the
retract case and one `extendHanger` call exactly in the extend case. -/
theorem executePirAction_follows_policy (w : World) (fuel : Nat) (s : State) :
    (occupancyPolicy s = MotorAction.retract →
        s.currentState = HangerState.EXTENDED
          ∧ executePirAction w fuel s
              = (retractHanger w fuel s).map (sendAlertToFirebase w "INFO"))
      ∧ (occupancyPolicy s = MotorAction.extend →
        s.currentState = HangerState.RETRACTED
          ∧ executePirAction w fuel s
              = (extendHanger w fuel s).map (sendAlertToFirebase w "INFO"))
      ∧ (occupancyPolicy s = MotorAction.noAction → executePirAction w fuel s = some s)
      ∧ (∀ s1, executePirAction w fuel s = some s1 →
          (s1.log.count Event.retractCall = s.log.count Event.retractCall + 1
              ↔ occupancyPolicy s = MotorAction.retract)
            ∧ (s1.log.count Event.extendCall = s.log.count Event.extendCall + 1
              ↔ occupancyPolicy s = MotorAction.extend)
            ∧ (s1.log.count Event.retractCall = s.log.count Event.retractCall
              ↔ occupancyPolicy s ≠ MotorAction.retract)
            ∧ (s1.log.count Event.extendCall = s.log.count Event.extendCall
              ↔ occupancyPolicy s ≠ MotorAction.extend)) := by
  have heq := executePirAction_eq w fuel s
  refine ⟨?_, ?_, ?_, ?_⟩
  · intro h
    rw [h] at heq
    exact ⟨(occupancyPolicy_position s).1 h, heq⟩
  · intro h
    rw [h] at heq
    exact ⟨(occupancyPolicy_position s).2 h, heq⟩
  · intro h
    rw [h] at heq
    exact heq
  · intro s1 h1
    rw [h1] at heq
    cases hpol : occupancyPolicy s with
    | noAction =>
      rw [hpol] at heq
      simp only [Option.some.injEq] at heq
      subst heq
      simp
    | extend =>
      rw [hpol] at heq
      obtain ⟨m, hm, rfl⟩ := Option.map_eq_some'.mp heq.symm
      obtain ⟨_, he, hr⟩ := (extendHanger_effect w fuel s m hm).1.seq
        (sendAlertToFirebase_effect w "INFO" m).1
      simp only [Nat.add_zero] at he hr
      rw [he, hr]
      simp
    | retract =>
      rw [hpol] at heq
      obtain ⟨m, hm, rfl⟩ := Option.map_eq_some'.mp heq.symm
      obtain ⟨_, he, hr⟩ := (retractHanger_effect w fuel s m hm).1.seq
        (sendAlertToFirebase_effect w "INFO" m).1
      simp only [Nat.add_zero] at he hr
      rw [he, hr]
      simp

/-- C16 (witness): privacy policy, user present, Position Extended: the table
says retract, and the call is one `retractHanger`; in the boot state the table
says nothing and the state is returned unchanged. -/
theorem executePirAction_follows_policy_witness :
    executePirAction (steadyWorld 1176) 1 presentWhileExtended
      = (retractHanger (steadyWorld 1176) 1 presentWhileExtended).map
          (sendAlertToFirebase (steadyWorld 1176) "INFO")
      ∧ executePirAction (steadyWorld 1176) 1 bootState = some bootState := by
  exact ⟨((executePirAction_follows_policy (steadyWorld 1176) 1 presentWhileExtended).1
      (by decide!)).2,
    (executePirAction_follows_policy (steadyWorld 1176) 1 bootState).2.2.1 (by decide!)⟩

/-! ## C19 -/

/-- C19 (counterexample): no impulse has ever occurred (`motionDetectedTime`
still has its initial value 0) and `readPIR` runs with no impulse 3000 ms
after start: `userPresent` becomes true. -/
theorem readPIR_present_without_any_impulse :
    bootState.motionDetectedTime = 0 ∧ bootState.userPresent = false
      ∧ earlyWorld.pir bootState.pirIdx = false
      ∧ (readPIR earlyWorld bootState).userPresent = true := by
  decide!

/-- C19 (amended): with a true impulse `readPIR` sets `userPresent = true` and
restarts the hold window at the current clock value; with no impulse it leaves
`motionDetectedTime` untouched and sets `userPresent` to true when the elapsed
time since `motionDetectedTime` (32-bit difference) is at most 10000 ms and to
false when it is more. When no impulse has ever occurred the window starts at
0, so `userPresent` is false exactly when the clock reads more than 10000. -/
theorem readPIR_hold_window (w : World) (s : State) :
    (w.pir s.pirIdx = true →
        (readPIR w s).userPresent = true
          ∧ (readPIR w s).motionDetectedTime = w.clock s.clockIdx % ULONG_MOD)
      ∧ (w.pir s.pirIdx = false →
        (readPIR w s).motionDetectedTime = s.motionDetectedTime
          ∧ ((readPIR w s).userPresent = true
              ↔ usub (w.clock s.clockIdx % ULONG_MOD) s.motionDetectedTime ≤ 10000)
          ∧ ((readPIR w s).userPresent = false
              ↔ usub (w.clock s.clockIdx % ULONG_MOD) s.motionDetectedTime > 10000))
      ∧ (w.pir s.pirIdx = false → s.motionDetectedTime = 0 →
        ((readPIR w s).userPresent = false ↔ w.clock s.clockIdx % ULONG_MOD > 10000)) := by
  refine ⟨?_, ?_, ?_⟩
  · intro hp
    simp [readPIR, hp, millis]
  · intro hp
    by_cases hw : usub (w.clock s.clockIdx % ULONG_MOD) s.motionDetectedTime > MOTION_TIMEOUT
    · have hw2 := hw
      unfold MOTION_TIMEOUT at hw2
      simp [readPIR, hp, millis, hw]
      omega
    · have hw2 := hw
      unfold MOTION_TIMEOUT at hw2
      simp [readPIR, hp, millis, hw]
      omega
  · intro hp h0
    by_cases hw : usub (w.clock s.clockIdx % ULONG_MOD) s.motionDetectedTime > MOTION_TIMEOUT
    · have hw2 := hw
      rw [h0, usub_zero, Nat.mod_mod] at hw2
      unfold MOTION_TIMEOUT at hw2
      simp [readPIR, hp, millis, hw]
      exact hw2
    · have hw2 := hw
      rw [h0, usub_zero, Nat.mod_mod] at hw2
      unfold MOTION_TIMEOUT at hw2
      simp [readPIR, hp, millis, hw]
      omega

/-- C19 (witness): an impulse at the first clock read; no impulse 3000 ms
after start. -/
theorem readPIR_hold_window_witness :
    (readPIR motionWorld bootState).userPresent = true
      ∧ (readPIR motionWorld bootState).motionDetectedTime = 3000
      ∧ (readPIR earlyWorld bootState).motionDetectedTime = 0 := by
  exact ⟨((readPIR_hold_window motionWorld bootState).1 rfl).1,
    ((readPIR_hold_window motionWorld bootState).1 rfl).2,
    ((readPIR_hold_window earlyWorld bootState).2.1 rfl).1⟩

/-! ## Validation of the remote numeric fields -/

theorem toULong_of_int (i : Int) (hr : -2147483648 ≤ i ∧ i < 2147483648)
    (hle : toULong i ≤ 300000) : (toULong i : Int) = i := by
  unfold toULong ULONG_MOD at *
  omega

theorem IntSynced.start (json : FirebaseJson) (c : SystemConfig) : IntSynced json c c :=
  ⟨Or.inl rfl, Or.inl rfl, Or.inl rfl⟩

theorem FloatSynced.begin (json : FirebaseJson) (c : SystemConfig) : FloatSynced json c c :=
  ⟨Or.inl rfl, Or.inl rfl, Or.inl rfl, Or.inl rfl, Or.inl rfl, Or.inl rfl, Or.inl rfl⟩

theorem cfgAutoMode_float (json : FirebaseJson) (c0 : SystemConfig) (p : State × Bool)
    (h : FloatSynced json c0 p.1.sysConfig) :
    FloatSynced json c0 (cfgAutoMode json p).1.sysConfig := by
  unfold cfgAutoMode
  split
  · try dsimp only
    split
    · exact h
    · exact h
  · exact h

theorem cfgAutoMode_int (json : FirebaseJson) (c0 : SystemConfig) (p : State × Bool)
    (h : IntSynced json c0 p.1.sysConfig) :
    IntSynced json c0 (cfgAutoMode json p).1.sysConfig := by
  unfold cfgAutoMode
  split
  · try dsimp only
    split
    · exact h
    · exact h
  · exact h

theorem cfgMotorTimeout_float (json : FirebaseJson) (c0 : SystemConfig) (p : State × Bool)
    (h : FloatSynced json c0 p.1.sysConfig) :
    FloatSynced json c0 (cfgMotorTimeout json p).1.sysConfig := by
  unfold cfgMotorTimeout
  split
  · try dsimp only
    split
    · exact h
    · exact h
  · exact h

theorem cfgMotorTimeout_int (json : FirebaseJson) (c0 : SystemConfig) (p : State × Bool)
    (hr : IntViewsInRange json) (h : IntSynced json c0 p.1.sysConfig) :
    IntSynced json c0 (cfgMotorTimeout json p).1.sysConfig := by
  unfold cfgMotorTimeout
  split
  · rename_i d hd
    dsimp only
    split
    · rename_i hc
      simp only [Bool.and_eq_true, decide_eq_true_eq, ge_iff_le, gt_iff_lt] at hc
      have hv : (toULong d.intValue : Int) = d.intValue :=
        toULong_of_int d.intValue (hr.1 d hd) (by omega)
      obtain ⟨h1, h2, h3⟩ := h
      refine ⟨?_, ?_, ?_⟩ <;>
        first
          | assumption
          | exact Or.inr ⟨d, hd, hc.1.1.1, hv, by omega, by omega⟩
    · exact h
  · exact h

theorem cfgSensorReadInterval_float (json : FirebaseJson) (c0 : SystemConfig) (p : State × Bool)
    (h : FloatSynced json c0 p.1.sysConfig) :
    FloatSynced json c0 (cfgSensorReadInterval json p).1.sysConfig := by
  unfold cfgSensorReadInterval
  split
  · try dsimp only
    split
    · exact h
    · exact h
  · exact h

theorem cfgSensorReadInterval_int (json : FirebaseJson) (c0 : SystemConfig) (p : State × Bool)
    (hr : IntViewsInRange json) (h : IntSynced json c0 p.1.sysConfig) :
    IntSynced json c0 (cfgSensorReadInterval json p).1.sysConfig := by
  unfold cfgSensorReadInterval
  split
  · rename_i d hd
    dsimp only
    split
    · rename_i hc
      simp only [Bool.and_eq_true, decide_eq_true_eq, ge_iff_le, gt_iff_lt] at hc
      have hv : (toULong d.intValue : Int) = d.intValue :=
        toULong_of_int d.intValue (hr.2.1 d hd) (by omega)
      obtain ⟨h1, h2, h3⟩ := h
      refine ⟨?_, ?_, ?_⟩ <;>
        first
          | assumption
          | exact Or.inr ⟨d, hd, hc.1.1.1, hv, by omega, by omega⟩
    · exact h
  · exact h

theorem cfgDistanceExtended_float (json : FirebaseJson) (c0 : SystemConfig) (p : State × Bool)
    (h : FloatSynced json c0 p.1.sysConfig) :
    FloatSynced json c0 (cfgDistanceExtended json p).1.sysConfig := by
  unfold cfgDistanceExtended
  split
  · rename_i d hd
    dsimp only
    split
    · rename_i hc
      simp only [Bool.and_eq_true, decide_eq_true_eq, ge_iff_le] at hc
      obtain ⟨h1, h2, h3, h4, h5, h6, h7⟩ := h
      refine ⟨?_, ?_, ?_, ?_, ?_, ?_, ?_⟩ <;>
        first
          | assumption
          | exact Or.inr ⟨d, hd, hc.1.1.1, rfl, hc.1.2, hc.2⟩
    · exact h
  · exact h

theorem cfgDistanceExtended_int (json : FirebaseJson) (c0 : SystemConfig) (p : State × Bool)
    (h : IntSynced json c0 p.1.sysConfig) :
    IntSynced json c0 (cfgDistanceExtended json p).1.sysConfig := by
  unfold cfgDistanceExtended
  split
  · try dsimp only
    split
    · exact h
    · exact h
  · exact h

theorem cfgDistanceRetracted_float (json : FirebaseJson) (c0 : SystemConfig) (p : State × Bool)
    (h : FloatSynced json c0 p.1.sysConfig) :
    FloatSynced json c0 (cfgDistanceRetracted json p).1.sysConfig := by
  unfold cfgDistanceRetracted
  split
  · rename_i d hd
    dsimp only
    split
    · rename_i hc
      simp only [Bool.and_eq_true, decide_eq_true_eq, ge_iff_le] at hc
      obtain ⟨h1, h2, h3, h4, h5, h6, h7⟩ := h
      refine ⟨?_, ?_, ?_, ?_, ?_, ?_, ?_⟩ <;>
        first
          | assumption
          | exact Or.inr ⟨d, hd, hc.1.1.1, rfl, hc.1.2, hc.2⟩
    · exact h
  · exact h

theorem cfgDistanceRetracted_int (json : FirebaseJson) (c0 : SystemConfig) (p : State × Bool)
    (h : IntSynced json c0 p.1.sysConfig) :
    IntSynced json c0 (cfgDistanceRetracted json p).1.sysConfig := by
  unfold cfgDistanceRetracted
  split
  · try dsimp only
    split
    · exact h
    · exact h
  · exact h

theorem cfgDistanceTolerance_float (json : FirebaseJson) (c0 : SystemConfig) (p : State × Bool)
    (h : FloatSynced json c0 p.1.sysConfig) :
    FloatSynced json c0 (cfgDistanceTolerance json p).1.sysConfig := by
  unfold cfgDistanceTolerance
  split
  · rename_i d hd
    dsimp only
    split
    · rename_i hc
      simp only [Bool.and_eq_true, decide_eq_true_eq, ge_iff_le] at hc
      obtain ⟨h1, h2, h3, h4, h5, h6, h7⟩ := h
      refine ⟨?_, ?_, ?_, ?_, ?_, ?_, ?_⟩ <;>
        first
          | assumption
          | exact Or.inr ⟨d, hd, hc.1.1.1, rfl, hc.1.2, hc.2⟩
    · exact h
  · exact h

theorem cfgDistanceTolerance_int (json : FirebaseJson) (c0 : SystemConfig) (p : State × Bool)
    (h : IntSynced json c0 p.1.sysConfig) :
    IntSynced json c0 (cfgDistanceTolerance json p).1.sysConfig := by
  unfold cfgDistanceTolerance
  split
  · try dsimp only
    split
    · exact h
    · exact h
  · exact h

theorem cfgDeviceName_float (json : FirebaseJson) (c0 : SystemConfig) (p : State × Bool)
    (h : FloatSynced json c0 p.1.sysConfig) :
    FloatSynced json c0 (cfgDeviceName json p).1.sysConfig := by
  unfold cfgDeviceName
  split
  · try dsimp only
    split
    · exact h
    · exact h
  · exact h

theorem cfgDeviceName_int (json : FirebaseJson) (c0 : SystemConfig) (p : State × Bool)
    (h : IntSynced json c0 p.1.sysConfig) :
    IntSynced json c0 (cfgDeviceName json p).1.sysConfig := by
  unfold cfgDeviceName
  split
  · try dsimp only
    split
    · exact h
    · exact h
  · exact h

theorem cfgDeviceLocation_float (json : FirebaseJson) (c0 : SystemConfig) (p : State × Bool)
    (h : FloatSynced json c0 p.1.sysConfig) :
    FloatSynced json c0 (cfgDeviceLocation json p).1.sysConfig := by
  unfold cfgDeviceLocation
  split
  · try dsimp only
    split
    · exact h
    · exact h
  · exact h

theorem cfgDeviceLocation_int (json : FirebaseJson) (c0 : SystemConfig) (p : State × Bool)
    (h : IntSynced json c0 p.1.sysConfig) :
    IntSynced json c0 (cfgDeviceLocation json p).1.sysConfig := by
  unfold cfgDeviceLocation
  split
  · try dsimp only
    split
    · exact h
    · exact h
  · exact h

theorem cfgUseCustomThresholds_float (json : FirebaseJson) (c0 : SystemConfig) (p : State × Bool)
    (h : FloatSynced json c0 p.1.sysConfig) :
    FloatSynced json c0 (cfgUseCustomThresholds json p).1.sysConfig := by
  unfold cfgUseCustomThresholds
  split
  · try dsimp only
    split
    · exact h
    · exact h
  · exact h

theorem cfgUseCustomThresholds_int (json : FirebaseJson) (c0 : SystemConfig) (p : State × Bool)
    (h : IntSynced json c0 p.1.sysConfig) :
    IntSynced json c0 (cfgUseCustomThresholds json p).1.sysConfig := by
  unfold cfgUseCustomThresholds
  split
  · try dsimp only
    split
    · exact h
    · exact h
  · exact h

theorem cfgTempMin_float (json : FirebaseJson) (c0 : SystemConfig) (p : State × Bool)
    (h : FloatSynced json c0 p.1.sysConfig) :
    FloatSynced json c0 (cfgTempMin json p).1.sysConfig := by
  unfold cfgTempMin
  split
  · rename_i d hd
    dsimp only
    split
    · rename_i hc
      simp only [Bool.and_eq_true, decide_eq_true_eq, ge_iff_le] at hc
      obtain ⟨h1, h2, h3, h4, h5, h6, h7⟩ := h
      refine ⟨?_, ?_, ?_, ?_, ?_, ?_, ?_⟩ <;>
        first
          | assumption
          | exact Or.inr ⟨d, hd, hc.1.1.1, rfl, hc.1.2, hc.2⟩
    · exact h
  · exact h

theorem cfgTempMin_int (json : FirebaseJson) (c0 : SystemConfig) (p : State × Bool)
    (h : IntSynced json c0 p.1.sysConfig) :
    IntSynced json c0 (cfgTempMin json p).1.sysConfig := by
  unfold cfgTempMin
  split
  · try dsimp only
    split
    · exact h
    · exact h
  · exact h

theorem cfgTempMax_float (json : FirebaseJson) (c0 : SystemConfig) (p : State × Bool)
    (h : FloatSynced json c0 p.1.sysConfig) :
    FloatSynced json c0 (cfgTempMax json p).1.sysConfig := by
  unfold cfgTempMax
  split
  · rename_i d hd
    dsimp only
    split
    · rename_i hc
      simp only [Bool.and_eq_true, decide_eq_true_eq, ge_iff_le] at hc
      obtain ⟨h1, h2, h3, h4, h5, h6, h7⟩ := h
      refine ⟨?_, ?_, ?_, ?_, ?_, ?_, ?_⟩ <;>
        first
          | assumption
          | exact Or.inr ⟨d, hd, hc.1.1.1, rfl, hc.1.2, hc.2⟩
    · exact h
  · exact h

theorem cfgTempMax_int (json : FirebaseJson) (c0 : SystemConfig) (p : State × Bool)
    (h : IntSynced json c0 p.1.sysConfig) :
    IntSynced json c0 (cfgTempMax json p).1.sysConfig := by
  unfold cfgTempMax
  split
  · try dsimp only
    split
    · exact h
    · exact h
  · exact h

theorem cfgHumidityMin_float (json : FirebaseJson) (c0 : SystemConfig) (p : State × Bool)
    (h : FloatSynced json c0 p.1.sysConfig) :
    FloatSynced json c0 (cfgHumidityMin json p).1.sysConfig := by
  unfold cfgHumidityMin
  split
  · rename_i d hd
    dsimp only
    split
    · rename_i hc
      simp only [Bool.and_eq_true, decide_eq_true_eq, ge_iff_le] at hc
      obtain ⟨h1, h2, h3, h4, h5, h6, h7⟩ := h
      refine ⟨?_, ?_, ?_, ?_, ?_, ?_, ?_⟩ <;>
        first
          | assumption
          | exact Or.inr ⟨d, hd, hc.1.1.1, rfl, hc.1.2, hc.2⟩
    · exact h
  · exact h

theorem cfgHumidityMin_int (json : FirebaseJson) (c0 : SystemConfig) (p : State × Bool)
    (h : IntSynced json c0 p.1.sysConfig) :
    IntSynced json c0 (cfgHumidityMin json p).1.sysConfig := by
  unfold cfgHumidityMin
  split
  · try dsimp only
    split
    · exact h
    · exact h
  · exact h

theorem cfgHumidityMax_float (json : FirebaseJson) (c0 : SystemConfig) (p : State × Bool)
    (h : FloatSynced json c0 p.1.sysConfig) :
    FloatSynced json c0 (cfgHumidityMax json p).1.sysConfig := by
  unfold cfgHumidityMax
  split
  · rename_i d hd
    dsimp only
    split
    · rename_i hc
      simp only [Bool.and_eq_true, decide_eq_true_eq, ge_iff_le] at hc
      obtain ⟨h1, h2, h3, h4, h5, h6, h7⟩ := h
      refine ⟨?_, ?_, ?_, ?_, ?_, ?_, ?_⟩ <;>
        first
          | assumption
          | exact Or.inr ⟨d, hd, hc.1.1.1, rfl, hc.1.2, hc.2⟩
    · exact h
  · exact h

theorem cfgHumidityMax_int (json : FirebaseJson) (c0 : SystemConfig) (p : State × Bool)
    (h : IntSynced json c0 p.1.sysConfig) :
    IntSynced json c0 (cfgHumidityMax json p).1.sysConfig := by
  unfold cfgHumidityMax
  split
  · try dsimp only
    split
    · exact h
    · exact h
  · exact h

theorem cfgEnablePirControl_float (json : FirebaseJson) (c0 : SystemConfig) (p : State × Bool)
    (h : FloatSynced json c0 p.1.sysConfig) :
    FloatSynced json c0 (cfgEnablePirControl json p).1.sysConfig := by
  unfold cfgEnablePirControl
  split
  · try dsimp only
    split
    · exact h
    · exact h
  · exact h

theorem cfgEnablePirControl_int (json : FirebaseJson) (c0 : SystemConfig) (p : State × Bool)
    (h : IntSynced json c0 p.1.sysConfig) :
    IntSynced json c0 (cfgEnablePirControl json p).1.sysConfig := by
  unfold cfgEnablePirControl
  split
  · try dsimp only
    split
    · exact h
    · exact h
  · exact h

theorem cfgRetractOnUserPresent_float (json : FirebaseJson) (c0 : SystemConfig) (p : State × Bool)
    (h : FloatSynced json c0 p.1.sysConfig) :
    FloatSynced json c0 (cfgRetractOnUserPresent json p).1.sysConfig := by
  unfold cfgRetractOnUserPresent
  split
  · try dsimp only
    split
    · exact h
    · exact h
  · exact h

theorem cfgRetractOnUserPresent_int (json : FirebaseJson) (c0 : SystemConfig) (p : State × Bool)
    (h : IntSynced json c0 p.1.sysConfig) :
    IntSynced json c0 (cfgRetractOnUserPresent json p).1.sysConfig := by
  unfold cfgRetractOnUserPresent
  split
  · try dsimp only
    split
    · exact h
    · exact h
  · exact h

theorem cfgPirRetractDelay_float (json : FirebaseJson) (c0 : SystemConfig) (p : State × Bool)
    (h : FloatSynced json c0 p.1.sysConfig) :
    FloatSynced json c0 (cfgPirRetractDelay json p).1.sysConfig := by
  unfold cfgPirRetractDelay
  split
  · try dsimp only
    split
    · exact h
    · exact h
  · exact h

theorem cfgPirRetractDelay_int (json : FirebaseJson) (c0 : SystemConfig) (p : State × Bool)
    (hr : IntViewsInRange json) (h : IntSynced json c0 p.1.sysConfig) :
    IntSynced json c0 (cfgPirRetractDelay json p).1.sysConfig := by
  unfold cfgPirRetractDelay
  split
  · rename_i d hd
    dsimp only
    split
    · rename_i hc
      simp only [Bool.and_eq_true, decide_eq_true_eq, ge_iff_le, gt_iff_lt] at hc
      have hv : (toULong d.intValue : Int) = d.intValue :=
        toULong_of_int d.intValue (hr.2.2 d hd) (by omega)
      obtain ⟨h1, h2, h3⟩ := h
      refine ⟨?_, ?_, ?_⟩ <;>
        first
          | assumption
          | exact Or.inr ⟨d, hd, hc.1.1.1, hv, by omega, by omega⟩
    · exact h
  · exact h

theorem applyRemoteConfig_float (json : FirebaseJson) (s : State) :
    FloatSynced json s.sysConfig (applyRemoteConfig json s).1.sysConfig := by
  unfold applyRemoteConfig
  have h0 := cfgAutoMode_float json s.sysConfig (s, false) (FloatSynced.begin json s.sysConfig)
  have h1 := cfgMotorTimeout_float json s.sysConfig _ h0
  have h2 := cfgSensorReadInterval_float json s.sysConfig _ h1
  have h3 := cfgDistanceExtended_float json s.sysConfig _ h2
  have h4 := cfgDistanceRetracted_float json s.sysConfig _ h3
  have h5 := cfgDistanceTolerance_float json s.sysConfig _ h4
  have h6 := cfgDeviceName_float json s.sysConfig _ h5
  have h7 := cfgDeviceLocation_float json s.sysConfig _ h6
  have h8 := cfgUseCustomThresholds_float json s.sysConfig _ h7
  have h9 := cfgTempMin_float json s.sysConfig _ h8
  have h10 := cfgTempMax_float json s.sysConfig _ h9
  have h11 := cfgHumidityMin_float json s.sysConfig _ h10
  have h12 := cfgHumidityMax_float json s.sysConfig _ h11
  have h13 := cfgEnablePirControl_float json s.sysConfig _ h12
  have h14 := cfgRetractOnUserPresent_float json s.sysConfig _ h13
  have h15 := cfgPirRetractDelay_float json s.sysConfig _ h14
  exact h15

theorem applyRemoteConfig_int (json : FirebaseJson) (s : State)
    (hr : IntViewsInRange json) :
    IntSynced json s.sysConfig (applyRemoteConfig json s).1.sysConfig := by
  unfold applyRemoteConfig
  have h0 := cfgAutoMode_int json s.sysConfig (s, false) (IntSynced.start json s.sysConfig)
  have h1 := cfgMotorTimeout_int json s.sysConfig _ hr h0
  have h2 := cfgSensorReadInterval_int json s.sysConfig _ hr h1
  have h3 := cfgDistanceExtended_int json s.sysConfig _ h2
  have h4 := cfgDistanceRetracted_int json s.sysConfig _ h3
  have h5 := cfgDistanceTolerance_int json s.sysConfig _ h4
  have h6 := cfgDeviceName_int json s.sysConfig _ h5
  have h7 := cfgDeviceLocation_int json s.sysConfig _ h6
  have h8 := cfgUseCustomThresholds_int json s.sysConfig _ h7
  have h9 := cfgTempMin_int json s.sysConfig _ h8
  have h10 := cfgTempMax_int json s.sysConfig _ h9
  have h11 := cfgHumidityMin_int json s.sysConfig _ h10
  have h12 := cfgHumidityMax_int json s.sysConfig _ h11
  have h13 := cfgEnablePirControl_int json s.sysConfig _ h12
  have h14 := cfgRetractOnUserPresent_int json s.sysConfig _ h13
  have h15 := cfgPirRetractDelay_int json s.sysConfig _ hr h14
  exact h15

theorem listen_config_inv (P : SystemConfig → Prop) (w : World) (fuel : Nat) (s s1 : State)
    (hP : ∀ (c : SystemConfig) (name : String),
      P c → P { c with requestedState := name, autoMode := false })
    (h0 : P s.sysConfig) (h1 : P (afterConfigSync s).sysConfig)
    (h : listenForFirebaseConfigChanges w fuel s = some s1) : P s1.sysConfig := by
  unfold listenForFirebaseConfigChanges at h
  dsimp only at h
  split at h
  · simp only [Option.some.injEq] at h
    subst h
    exact h0
  · split at h
    · obtain ⟨q, hq, rfl⟩ := Option.map_eq_some'.mp h
      obtain ⟨⟨hsc, _, _⟩, _, _, _⟩ := saveIfChanged_effect w q
      rw [hsc.1]
      rcases handleRequestedState_cases w fuel _ _ q hq with rfl | ⟨_, m, hx, rfl⟩ | ⟨_, m, hx, rfl⟩
      · exact h1
      · obtain ⟨⟨hsm, _, _⟩, _⟩ := extendHanger_effect w fuel _ m hx
        show P m.sysConfig
        rw [hsm.1]
        exact hP _ _ h1
      · obtain ⟨⟨hsm, _, _⟩, _⟩ := retractHanger_effect w fuel _ m hx
        show P m.sysConfig
        rw [hsm.1]
        exact hP _ _ h1
    · simp only [Option.some.injEq] at h
      subst h
      exact h0

theorem listen_float (w : World) (fuel : Nat) (s s1 : State)
    (h : listenForFirebaseConfigChanges w fuel s = some s1) :
    FloatSynced s.remote s.sysConfig s1.sysConfig := by
  have h1 : FloatSynced s.remote s.sysConfig (afterConfigSync s).sysConfig := by
    unfold afterConfigSync
    exact applyRemoteConfig_float s.remote
      { s with fbReadyIdx := s.fbReadyIdx + 1, fbGetIdx := s.fbGetIdx + 1 }
  exact listen_config_inv (FloatSynced s.remote s.sysConfig) w fuel s s1 (fun _ _ hc => hc)
    (FloatSynced.begin _ _) h1 h

theorem listen_int (w : World) (fuel : Nat) (s s1 : State) (hr : IntViewsInRange s.remote)
    (h : listenForFirebaseConfigChanges w fuel s = some s1) :
    IntSynced s.remote s.sysConfig s1.sysConfig := by
  have h1 : IntSynced s.remote s.sysConfig (afterConfigSync s).sysConfig := by
    unfold afterConfigSync
    exact applyRemoteConfig_int s.remote
      { s with fbReadyIdx := s.fbReadyIdx + 1, fbGetIdx := s.fbGetIdx + 1 } hr
  exact listen_config_inv (IntSynced s.remote s.sysConfig) w fuel s s1 (fun _ _ hc => hc)
    (IntSynced.start _ _) h1 h

theorem KeptOrRemoteInt.rejected {old new : Nat} {rd : Option FirebaseJsonData} {lo hi : Int}
    (h : KeptOrRemoteInt old new rd lo hi) (hrej : RejectedInt rd lo hi) : new = old := by
  rcases h with h | ⟨d, hd, hn, _, hlo, hhi⟩
  · exact h
  · rcases hrej d hd with hx | hx | hx
    · rw [hn] at hx; exact absurd hx (by simp)
    · omega
    · omega

theorem KeptOrRemoteFloat.refused {old new : ℚ} {rd : Option FirebaseJsonData} {lo hi : ℚ}
    (h : KeptOrRemoteFloat old new rd lo hi) (hrej : RejectedFloat rd lo hi) : new = old := by
  rcases h with h | ⟨d, hd, hn, _, hlo, hhi⟩
  · exact h
  · rcases hrej d hd with hx | hx | hx
    · rw [hn] at hx; exact absurd hx (by simp)
    · exact absurd hlo (not_le.mpr hx)
    · exact absurd hhi (not_le.mpr hx)

/-! ## C12 -/

/-- C12: after `listenForFirebaseConfigChanges`, each numeric configuration
field is unchanged or equals the remote value, which then lies inside the
field's safe bounds (`motorTimeout` in (0, 300000], `sensorReadInterval` in
[1000, 60000], `distanceExtended` in [10, 200], `distanceRetracted` in
[5, 100], `distanceTolerance` in [1, 20], `tempMinThreshold` in [0, 50],
`tempMaxThreshold` in [0, 60], both humidity thresholds in [0, 100],
`pirRetractDelay` in [0, 60000]); a field whose remote value is absent, not a
JSON number or out of range is unchanged. The integer views of the record are
taken to be values of the C type `int`. -/
theorem listen_validates_numeric_fields (w : World) (fuel : Nat) (s s1 : State)
    (hr : IntViewsInRange s.remote)
    (h : listenForFirebaseConfigChanges w fuel s = some s1) :
    NumericSynced s.remote s.sysConfig s1.sysConfig
      ∧ RejectedKept s.remote s.sysConfig s1.sysConfig := by
  obtain ⟨i1, i2, i3⟩ := listen_int w fuel s s1 hr h
  obtain ⟨f1, f2, f3, f4, f5, f6, f7⟩ := listen_float w fuel s s1 h
  exact ⟨⟨⟨i1, i2, i3⟩, f1, f2, f3, f4, f5, f6, f7⟩,
    i1.rejected, i2.rejected, f1.refused, f2.refused, f3.refused, f4.refused, f5.refused,
    f6.refused, f7.refused, i3.rejected⟩

/-- C12 (witness): a remote record with a motor timeout of 45000 ms, an
out-of-range minimum temperature of 70 and a maximum temperature of 38: the
call returns, the synchronisation property holds and the minimum temperature
is unchanged. -/
theorem listen_validates_numeric_fields_witness :
    ∃ s1, listenForFirebaseConfigChanges (steadyWorld 1176) 1 mixedConfigRequested = some s1
      ∧ NumericSynced mixedConfigRequested.remote mixedConfigRequested.sysConfig s1.sysConfig
      ∧ s1.sysConfig.tempMinThreshold = 25 := by
  have h : (listenForFirebaseConfigChanges (steadyWorld 1176) 1 mixedConfigRequested).isSome
      = true := by decide!
  obtain ⟨a, ha⟩ := Option.isSome_iff_exists.mp h
  have hr : IntViewsInRange mixedConfigRequested.remote :=
    ⟨fun d hd => by
        have hd2 : d = jsonNumber 45000 45000 := (Option.some.inj hd).symm
        rw [hd2]
        decide,
      fun d hd => Option.noConfusion hd, fun d hd => Option.noConfusion hd⟩
  have hthm := listen_validates_numeric_fields (steadyWorld 1176) 1 mixedConfigRequested a hr ha
  refine ⟨a, ha, hthm.1, ?_⟩
  exact hthm.2.2.2.2.2.2.1 (fun d hd => by
    have hd2 : d = jsonNumber 70 70 := (Option.some.inj hd).symm
    rw [hd2]
    right; right
    show (50 : ℚ) < 70
    norm_num)

/-! ## C13 -/

/-- C13 (counterexample): the local thresholds are 25 < 40 and 30 < 70; the
remote record carries `tempMinThreshold = 45`, inside its bounds [0, 50]. After
`listenForFirebaseConfigChanges` the minimum is 45 and the maximum still 40. -/
theorem listen_breaks_threshold_order :
    decide (hotMinimumRequested.sysConfig.tempMinThreshold
        < hotMinimumRequested.sysConfig.tempMaxThreshold) = true
      ∧ decide (hotMinimumRequested.sysConfig.humidityMinThreshold
        < hotMinimumRequested.sysConfig.humidityMaxThreshold) = true
      ∧ (listenForFirebaseConfigChanges (steadyWorld 1176) 1 hotMinimumRequested).map
          (fun s1 => (s1.sysConfig.tempMinThreshold, s1.sysConfig.tempMaxThreshold,
            decide (s1.sysConfig.tempMinThreshold < s1.sysConfig.tempMaxThreshold)))
        = some (45, 40, false) := by
  decide!

/-- C13 (amended): from a configuration with `tempMinThreshold <
tempMaxThreshold` and `humidityMinThreshold < humidityMaxThreshold`, both
orderings still hold after `listenForFirebaseConfigChanges` provided every
numeric threshold of the remote record is ordered against the partner it can
end up next to (a remote minimum below the local maximum and below a numeric
remote maximum, a remote maximum above the local minimum). -/
theorem listen_keeps_threshold_order (w : World) (fuel : Nat) (s s1 : State)
    (ht : s.sysConfig.tempMinThreshold < s.sysConfig.tempMaxThreshold)
    (hh : s.sysConfig.humidityMinThreshold < s.sysConfig.humidityMaxThreshold)
    (hc : ThresholdsCompatible s)
    (h : listenForFirebaseConfigChanges w fuel s = some s1) :
    s1.sysConfig.tempMinThreshold < s1.sysConfig.tempMaxThreshold
      ∧ s1.sysConfig.humidityMinThreshold < s1.sysConfig.humidityMaxThreshold := by
  obtain ⟨_, _, _, f4, f5, f6, f7⟩ := listen_float w fuel s s1 h
  obtain ⟨c1, c2, c3, c4⟩ := hc
  constructor
  · rcases f4 with e4 | ⟨d, hd, hn, e4, _, _⟩ <;> rcases f5 with e5 | ⟨e, he, hm, e5, _, _⟩
    · rw [e4, e5]; exact ht
    · rw [e4, e5]; exact c2 e he hm
    · rw [e4, e5]; exact (c1 d hd hn).1
    · rw [e4, e5]; exact (c1 d hd hn).2 e he hm
  · rcases f6 with e6 | ⟨d, hd, hn, e6, _, _⟩ <;> rcases f7 with e7 | ⟨e, he, hm, e7, _, _⟩
    · rw [e6, e7]; exact hh
    · rw [e6, e7]; exact c4 e he hm
    · rw [e6, e7]; exact (c3 d hd hn).1
    · rw [e6, e7]; exact (c3 d hd hn).2 e he hm

/-- C13 (witness): the remote record narrows the temperature range from
25..40 to 30..38. -/
theorem listen_keeps_threshold_order_witness :
    ∃ s1, listenForFirebaseConfigChanges (steadyWorld 1176) 1 narrowerRangeRequested = some s1
      ∧ s1.sysConfig.tempMinThreshold < s1.sysConfig.tempMaxThreshold
      ∧ s1.sysConfig.humidityMinThreshold < s1.sysConfig.humidityMaxThreshold := by
  have h : (listenForFirebaseConfigChanges (steadyWorld 1176) 1 narrowerRangeRequested).isSome
      = true := by decide!
  obtain ⟨a, ha⟩ := Option.isSome_iff_exists.mp h
  have hc : ThresholdsCompatible narrowerRangeRequested := by
    refine ⟨fun d hd _ => ?_, fun e he _ => ?_, fun d hd _ => Option.noConfusion hd,
      fun e he _ => Option.noConfusion he⟩
    · have hd2 : d = jsonNumber 30 30 := (Option.some.inj hd).symm
      rw [hd2]
      refine ⟨by show (30 : ℚ) < 40; norm_num, fun e he _ => ?_⟩
      have he2 : e = jsonNumber 38 38 := (Option.some.inj he).symm
      rw [he2]
      show (30 : ℚ) < 38
      norm_num
    · have he2 : e = jsonNumber 38 38 := (Option.some.inj he).symm
      rw [he2]
      show (25 : ℚ) < 38
      norm_num
  have hthm := listen_keeps_threshold_order (steadyWorld 1176) 1 narrowerRangeRequested a
    (by show (25 : ℚ) < 40; norm_num) (by show (30 : ℚ) < 70; norm_num) hc ha
  exact ⟨a, ha, hthm.1, hthm.2⟩

/-! ## The occupancy delay, call by call -/

theorem usub_of_le (t t0 : Nat) (h1 : t0 ≤ t) (h2 : t < t0 + ULONG_MOD) :
    usub (t % ULONG_MOD) (t0 % ULONG_MOD) = t - t0 := by
  unfold usub ULONG_MOD at *
  omega

theorem handlePirControl_arm (w : World) (fuel : Nat) (s : State)
    (he : s.sysConfig.enablePirControl = true) (hl : s.lastUserPresence = false)
    (hu : s.userPresent = true) :
    handlePirControl w fuel s
      = some { s with pirDelayActive := true, clockIdx := s.clockIdx + 1,
                      pirDelayStartTime := w.clock s.clockIdx % ULONG_MOD,
                      lastUserPresence := true } := by
  simp [handlePirControl, he, hl, hu, millis]

theorem handlePirControl_wait (w : World) (fuel : Nat) (s : State)
    (he : s.sysConfig.enablePirControl = true) (hl : s.lastUserPresence = s.userPresent)
    (ha : s.pirDelayActive = true)
    (hlt : usub (w.clock s.clockIdx % ULONG_MOD) s.pirDelayStartTime
            < max 5000 s.sysConfig.pirRetractDelay) :
    handlePirControl w fuel s = some { s with clockIdx := s.clockIdx + 1 } := by
  have hn : ¬ (max 5000 s.sysConfig.pirRetractDelay
      ≤ usub (w.clock s.clockIdx % ULONG_MOD) s.pirDelayStartTime) := by omega
  simp only [handlePirControl, he, hl, ha, pirDelayedAction, millis]
  simp [hn]

theorem handlePirControl_expire (w : World) (fuel : Nat) (s : State)
    (he : s.sysConfig.enablePirControl = true) (hl : s.lastUserPresence = s.userPresent)
    (ha : s.pirDelayActive = true)
    (hge : max 5000 s.sysConfig.pirRetractDelay
            ≤ usub (w.clock s.clockIdx % ULONG_MOD) s.pirDelayStartTime) :
    handlePirControl w fuel s
      = (executePirAction w fuel (millis w s).2).map fun s1 =>
          { s1 with pirDelayActive := false, clockIdx := s1.clockIdx + 1,
                    lastPirAction := w.clock s1.clockIdx % ULONG_MOD } := by
  simp only [handlePirControl, he, hl, ha, pirDelayedAction, millis]
  simp [hge]

theorem handlePirControl_idle (w : World) (fuel : Nat) (s : State)
    (hl : s.lastUserPresence = s.userPresent) (ha : s.pirDelayActive = false) :
    handlePirControl w fuel s = some s := by
  cases he : s.sysConfig.enablePirControl <;>
    simp [handlePirControl, he, hl, ha, pirDelayedAction]

/-! ## C18 -/

theorem pirDelayedActionCounted_erase (w : World) (fuel d : Nat) (s : State) :
    (pirDelayedActionCounted w fuel d s).map Prod.fst = pirDelayedAction w fuel d s := by
  unfold pirDelayedActionCounted pirDelayedAction
  split
  · dsimp only
    split
    · rw [Option.map_map]
      rfl
    · rfl
  · rfl

theorem handlePirControlCounted_erase (w : World) (fuel : Nat) (s : State) :
    (handlePirControlCounted w fuel s).map Prod.fst = handlePirControl w fuel s := by
  unfold handlePirControlCounted handlePirControl
  split
  · rfl
  · dsimp only
    split
    · split
      · rfl
      · cases hx : executePirAction w fuel s with
        | none => rfl
        | some s1 =>
          simp only [Option.some_bind, Option.map_map]
          exact pirDelayedActionCounted_erase w fuel _ _
    · exact pirDelayedActionCounted_erase w fuel _ s

theorem pirDelayedActionCounted_le (w : World) (fuel d : Nat) (s : State) (r : State × Nat)
    (h : pirDelayedActionCounted w fuel d s = some r) : r.2 ≤ 1 := by
  unfold pirDelayedActionCounted at h
  split at h
  · dsimp only at h
    split at h
    · obtain ⟨m, _, rfl⟩ := Option.map_eq_some'.mp h
      exact Nat.le_refl 1
    · simp only [Option.some.injEq] at h
      rw [← h]
      exact Nat.zero_le 1
  · simp only [Option.some.injEq] at h
    rw [← h]
    exact Nat.zero_le 1

theorem handlePirControlCounted_le (w : World) (fuel : Nat) (s : State) (r : State × Nat)
    (h : handlePirControlCounted w fuel s = some r) : r.2 ≤ 2 := by
  unfold handlePirControlCounted at h
  split at h
  · simp only [Option.some.injEq] at h
    rw [← h]
    exact Nat.zero_le 2
  · dsimp only at h
    split at h
    · split at h
      · simp only [Option.some.injEq] at h
        rw [← h]
        exact Nat.zero_le 2
      · obtain ⟨m, _, hd⟩ := Option.bind_eq_some.mp h
        obtain ⟨q, hq, rfl⟩ := Option.map_eq_some'.mp hd
        have := pirDelayedActionCounted_le w fuel _ _ q hq
        show q.2 + 1 ≤ 2
        omega
    · have := pirDelayedActionCounted_le w fuel _ s r h
      omega

theorem executePirAction_statics (w : World) (fuel : Nat) (s s1 : State)
    (h : executePirAction w fuel s = some s1) :
    s1.pirDelayActive = s.pirDelayActive ∧ s1.pirDelayStartTime = s.pirDelayStartTime
      ∧ s1.lastUserPresence = s.lastUserPresence ∧ s1.userPresent = s.userPresent := by
  rw [executePirAction_eq] at h
  cases hpol : occupancyPolicy s with
  | noAction =>
    rw [hpol] at h
    simp only [Option.some.injEq] at h
    subst h
    exact ⟨rfl, rfl, rfl, rfl⟩
  | extend =>
    rw [hpol] at h
    obtain ⟨m, hm, rfl⟩ := Option.map_eq_some'.mp h
    rcases extendHanger_frame w fuel s m hm with ⟨_, rfl⟩ | ⟨_, d, e, c, ev, rfl, _⟩ <;>
      exact ⟨rfl, rfl, rfl, rfl⟩
  | retract =>
    rw [hpol] at h
    obtain ⟨m, hm, rfl⟩ := Option.map_eq_some'.mp h
    rcases retractHanger_frame w fuel s m hm with ⟨_, rfl⟩ | ⟨_, d, e, c, ev, rfl, _⟩ <;>
      exact ⟨rfl, rfl, rfl, rfl⟩

/-- C18 (counterexample): a delayed action armed at clock time 0 is still
pending when a call at clock time 30000 observes the flip to Absent: that one
call invokes `executePirAction` twice (once for the flip, once for the expired
delay). -/
theorem handlePirControl_fires_twice_in_one_call :
    staleArmed.pirDelayActive = true ∧ staleArmed.lastUserPresence = true
      ∧ staleArmed.userPresent = false
      ∧ (handlePirControlCounted lateWorld 1 staleArmed).map Prod.snd = some 2 := by
  decide!

/-- C18 (amended): with occupancy control enabled, one `handlePirControl`
call invokes `executePirAction` at most twice. A call that observes a flip to
Absent while nothing is armed fires exactly once, in that call. A call that
observes a flip to Present fires nothing and arms the delayed action at the
current clock value. While the action is armed and no flip is observed, a call
fires nothing before the delay (at least 5000 ms) has elapsed and fires exactly
once, disarming the action, once it has. A call that observes no flip with
nothing armed fires nothing. The ghost counter does not alter the behaviour of
`handlePirControl`. -/
theorem fire_events_per_call (w : World) (fuel : Nat) (s : State)
    (he : s.sysConfig.enablePirControl = true) :
    (handlePirControlCounted w fuel s).map Prod.fst = handlePirControl w fuel s
      ∧ (∀ r, handlePirControlCounted w fuel s = some r → r.2 ≤ 2)
      ∧ (s.lastUserPresence = true → s.userPresent = false → s.pirDelayActive = false →
          (handlePirControlCounted w fuel s).map Prod.snd
              = (executePirAction w fuel s).map (fun _ => 1)
            ∧ ∀ r, handlePirControlCounted w fuel s = some r →
                r.1.lastUserPresence = false ∧ r.1.pirDelayActive = false)
      ∧ (s.lastUserPresence = false → s.userPresent = true →
          handlePirControlCounted w fuel s
            = some ({ s with pirDelayActive := true, clockIdx := s.clockIdx + 1,
                             pirDelayStartTime := w.clock s.clockIdx % ULONG_MOD,
                             lastUserPresence := true }, 0))
      ∧ (s.lastUserPresence = s.userPresent → s.pirDelayActive = true →
          usub (w.clock s.clockIdx % ULONG_MOD) s.pirDelayStartTime
            < max 5000 s.sysConfig.pirRetractDelay →
          handlePirControlCounted w fuel s = some ({ s with clockIdx := s.clockIdx + 1 }, 0))
      ∧ (s.lastUserPresence = s.userPresent → s.pirDelayActive = true →
          max 5000 s.sysConfig.pirRetractDelay
            ≤ usub (w.clock s.clockIdx % ULONG_MOD) s.pirDelayStartTime →
          (handlePirControlCounted w fuel s).map Prod.snd
              = (executePirAction w fuel (millis w s).2).map (fun _ => 1)
            ∧ ∀ r, handlePirControlCounted w fuel s = some r →
                r.1.pirDelayActive = false ∧ r.1.lastUserPresence = s.lastUserPresence)
      ∧ (s.lastUserPresence = s.userPresent → s.pirDelayActive = false →
          handlePirControlCounted w fuel s = some (s, 0)) := by
  refine ⟨handlePirControlCounted_erase w fuel s, handlePirControlCounted_le w fuel s,
    ?_, ?_, ?_, ?_, ?_⟩
  · intro hl hu ha
    have hform : handlePirControlCounted w fuel s
        = (executePirAction w fuel s).map fun s1 =>
            ({ s1 with lastUserPresence := s1.userPresent, clockIdx := s1.clockIdx + 1,
                       lastPirAction := w.clock s1.clockIdx % ULONG_MOD }, 1) := by
      simp only [handlePirControlCounted, he, hl, hu, millis]
      cases hx : executePirAction w fuel s with
      | none => simp
      | some s1 =>
        obtain ⟨h1, _, _, _⟩ := executePirAction_statics w fuel s s1 hx
        simp [pirDelayedActionCounted, h1, ha]
    rw [hform]
    constructor
    · rw [Option.map_map]
      rfl
    · intro r hr
      obtain ⟨s1, hx, rfl⟩ := Option.map_eq_some'.mp hr
      obtain ⟨h1, _, _, h4⟩ := executePirAction_statics w fuel s s1 hx
      exact ⟨by show s1.userPresent = false; rw [h4, hu],
        by show s1.pirDelayActive = false; rw [h1, ha]⟩
  · intro hl hu
    simp [handlePirControlCounted, he, hl, hu, millis]
  · intro hl ha hlt
    have hn : ¬ (max 5000 s.sysConfig.pirRetractDelay
        ≤ usub (w.clock s.clockIdx % ULONG_MOD) s.pirDelayStartTime) := by omega
    simp only [handlePirControlCounted, he, hl, ha, pirDelayedActionCounted, millis]
    simp [hn]
  · intro hl ha hge
    have hform : handlePirControlCounted w fuel s
        = (executePirAction w fuel (millis w s).2).map fun s1 =>
            ({ s1 with pirDelayActive := false, clockIdx := s1.clockIdx + 1,
                       lastPirAction := w.clock s1.clockIdx % ULONG_MOD }, 1) := by
      simp only [handlePirControlCounted, he, hl, ha, pirDelayedActionCounted, millis]
      simp [hge]
    rw [hform]
    constructor
    · rw [Option.map_map]
      rfl
    · intro r hr
      obtain ⟨s1, hx, rfl⟩ := Option.map_eq_some'.mp hr
      obtain ⟨_, _, h3, _⟩ := executePirAction_statics w fuel _ s1 hx
      exact ⟨rfl, h3⟩
  · intro hl ha
    simp [handlePirControlCounted, he, hl, ha, pirDelayedActionCounted]

/-- C18 (witness): the user leaves with nothing armed (one fire), and the
user arrives (no fire, action armed). -/
theorem fire_events_per_call_witness :
    (handlePirControlCounted twoTransitWorld 1 userJustLeft).map Prod.snd
        = (executePirAction twoTransitWorld 1 userJustLeft).map (fun _ => 1)
      ∧ (handlePirControlCounted arrivalWorld 1 userJustArrived).map Prod.snd = some 0 := by
  refine ⟨((fire_events_per_call twoTransitWorld 1 userJustLeft rfl).2.2.1 rfl rfl rfl).1, ?_⟩
  rw [(fire_events_per_call arrivalWorld 1 userJustArrived rfl).2.2.2.1 rfl rfl]
  rfl

/-! ## C11 -/

/-- C11 (code bug, evaluated): the remote record holds a single request
"extend" and the cloud is reachable in every cycle. In the first cycle the
request is accepted (`manualCommandInProgress` false to true, one
`extendHanger`). In the second cycle `handleSystemTasks` completes the command
(flag false again) and `handleFirebaseOperations` reads the remote record,
which still says "extend", before it clears it: the same request is accepted a
second time (flag true again, a second `extendHanger`), and only then does the
remote record become "none". -/
theorem single_request_accepted_twice :
    extendRequested.manualCommandInProgress = false
      ∧ (syncCycle (steadyWorld 2941) 1 extendRequested).map
          (fun s => (s.manualCommandInProgress, s.log.count Event.extendCall,
            s.remote.requestedState))
        = some (true, 1, some (jsonString "extend"))
      ∧ ((syncCycle (steadyWorld 2941) 1 extendRequested).bind
            (handleSystemTasks (steadyWorld 2941))).map
          (fun s => (s.manualCommandInProgress, s.log.count Event.extendCall,
            s.remote.requestedState))
        = some (false, 1, some (jsonString "extend"))
      ∧ ((syncCycle (steadyWorld 2941) 1 extendRequested).bind
            (syncCycle (steadyWorld 2941) 1)).map
          (fun s => (s.manualCommandInProgress, s.log.count Event.extendCall,
            s.remote.requestedState))
        = some (true, 2, some jsonNone) := by
  decide!

/-! ## C20 -/

/-- C20 (code bug, evaluated): automatic mode is on, Position is Retracted,
it is 20 degrees (poor conditions) and the remote record asks for "extend".
After the request has been accepted and carried out and
`checkManualCommandCompletion` has cleared `manualCommandInProgress`,
`manualMode` is still true and `autoMode` still false: `executeControlLogic`
returns at its manual-mode rule with the state unchanged, although Position is
Extended and the conditions are poor, where the weather rules would
retract. -/
theorem manual_hold_outlives_command :
    coldExtendRequested.sysConfig.autoMode = true
      ∧ coldExtendRequested.manualMode = false
      ∧ (listenForFirebaseConfigChanges extendThenRetractWorld 1 coldExtendRequested).map
          (fun s1 => s1.manualCommandInProgress) = some true
      ∧ (listenForFirebaseConfigChanges extendThenRetractWorld 1 coldExtendRequested).map
          (fun s1 =>
            ((checkManualCommandCompletion s1).manualCommandInProgress,
             (checkManualCommandCompletion s1).manualMode,
             (checkManualCommandCompletion s1).sysConfig.autoMode))
        = some (false, true, false)
      ∧ (listenForFirebaseConfigChanges extendThenRetractWorld 1 coldExtendRequested).map
          (fun s1 =>
            ((checkManualCommandCompletion s1).currentState,
             isGoodDryingConditions (checkManualCommandCompletion s1)))
        = some (HangerState.EXTENDED, false)
      ∧ (listenForFirebaseConfigChanges extendThenRetractWorld 1 coldExtendRequested).bind
          (fun s1 => executeControlLogic extendThenRetractWorld 1
            (checkManualCommandCompletion s1))
        = (listenForFirebaseConfigChanges extendThenRetractWorld 1 coldExtendRequested).map
            checkManualCommandCompletion
      ∧ ((listenForFirebaseConfigChanges extendThenRetractWorld 1 coldExtendRequested).bind
            (fun s1 => weatherRules extendThenRetractWorld 1
              (checkManualCommandCompletion s1))).map
          (fun s2 => (s2.log.count Event.retractCall, s2.currentState))
        = some (1, HangerState.RETRACTED) := by
  decide!

/-! ## C22 -/

/-- C22 (counterexample): (1) the incident starts at clock time 1000 and
the next call of `handleSystemError` is made at clock time 31000, exactly 30000
ms later: Position is still Error after that call. (2) The incident starts at
clock time 0: the second call, 200 ms later, raises a second ERROR alert. -/
theorem handleSystemError_boundary_and_sentinel :
    ((handleSystemError boundaryWorld inError).currentState,
        (handleSystemError boundaryWorld inError).errorStartTime,
        boundaryWorld.clock (handleSystemError boundaryWorld inError).clockIdx)
      = (HangerState.HANGER_ERROR, 1000, 31000)
    ∧ (handleSystemError boundaryWorld (handleSystemError boundaryWorld inError)).currentState
      = HangerState.HANGER_ERROR
    ∧ (steadyWorld 1176).clock inError.clockIdx = 0
    ∧ (errorAlerts (handleSystemError (steadyWorld 1176) inError).log,
        errorAlerts (handleSystemError (steadyWorld 1176)
          (handleSystemError (steadyWorld 1176) inError)).log,
        (handleSystemError (steadyWorld 1176)
          (handleSystemError (steadyWorld 1176) inError)).currentState)
      = (1, 2, HangerState.HANGER_ERROR) := by
  decide!

/-- C22 (amended): an incident that starts at a clock time `t0` whose 32-bit
value is not 0. (1) The first call of `handleSystemError` (Position Error,
`errorStartTime` 0) raises one ERROR alert, forces the relay off and opens the
incident. (2) A later call made at most 30000 ms after `t0` forces the relay
off, raises no ERROR alert and leaves Position Error. (3) A later call made
more than 30000 ms (and less than 2^32 ms) after `t0` forces the relay off,
resets Position to Retracted and `errorStartTime` to 0, raises one INFO alert
and no ERROR alert. -/
theorem error_incident_window (w : World) (s : State) (t0 : Nat) :
    (s.currentState = HangerState.HANGER_ERROR → s.errorStartTime = 0 →
        w.clock s.clockIdx = t0 → t0 % ULONG_MOD ≠ 0 →
        t0 ≤ w.clock (s.clockIdx + 1) → w.clock (s.clockIdx + 1) ≤ t0 + 30000 →
        ErrorIncident t0 (handleSystemError w s)
          ∧ errorAlerts (handleSystemError w s).log = errorAlerts s.log + 1
          ∧ (handleSystemError w s).relay = false)
      ∧ (ErrorIncident t0 s → t0 ≤ w.clock s.clockIdx → w.clock s.clockIdx ≤ t0 + 30000 →
        ErrorIncident t0 (handleSystemError w s)
          ∧ errorAlerts (handleSystemError w s).log = errorAlerts s.log
          ∧ (handleSystemError w s).relay = false)
      ∧ (ErrorIncident t0 s → t0 + 30000 < w.clock s.clockIdx →
          w.clock s.clockIdx < t0 + ULONG_MOD →
        (handleSystemError w s).currentState = HangerState.RETRACTED
          ∧ (handleSystemError w s).errorStartTime = 0
          ∧ errorAlerts (handleSystemError w s).log = errorAlerts s.log
          ∧ infoAlerts (handleSystemError w s).log = infoAlerts s.log + 1
          ∧ (handleSystemError w s).relay = false) := by
  refine ⟨?_, ?_, ?_⟩
  · intro hc h0 ht hne h1 h2
    have hu : ¬ usub (w.clock (s.clockIdx + 1) % ULONG_MOD) (w.clock s.clockIdx % ULONG_MOD)
        > 30000 := by
      rw [ht, usub_of_le _ _ h1 (by unfold ULONG_MOD; omega)]
      omega
    have hform : handleSystemError w s
        = { s with errorStartTime := w.clock s.clockIdx % ULONG_MOD,
                   clockIdx := s.clockIdx + 1 + 1, fbReadyIdx := s.fbReadyIdx + 1,
                   relay := false, motorRunning := false,
                   log := s.log ++ [Event.alert "ERROR" (w.fbReady s.fbReadyIdx)]
                            ++ [Event.errorScreen] ++ [Event.relayWrite false] } := by
      simp only [handleSystemError, h0, millis, sendAlertToFirebase, isFirebaseConnected,
        State.emit, digitalWriteRelay]
      simp [hu]
    rw [hform]
    refine ⟨⟨hc, ?_, hne⟩, ?_, rfl⟩
    · show w.clock s.clockIdx % ULONG_MOD = t0 % ULONG_MOD
      rw [ht]
    · cases w.fbReady s.fbReadyIdx <;> simp [errorAlerts, List.count_append] <;> omega
  · rintro ⟨hc, hs, hne⟩ h1 h2
    have hz : ¬ s.errorStartTime = 0 := by rw [hs]; exact hne
    have hu : ¬ usub (w.clock s.clockIdx % ULONG_MOD) s.errorStartTime > 30000 := by
      rw [hs, usub_of_le _ _ h1 (by unfold ULONG_MOD; omega)]
      omega
    have hform : handleSystemError w s
        = { s with clockIdx := s.clockIdx + 1, relay := false, motorRunning := false,
                   log := s.log ++ [Event.errorScreen] ++ [Event.relayWrite false] } := by
      simp only [handleSystemError, hz, millis, State.emit, digitalWriteRelay]
      simp [hu]
    rw [hform]
    refine ⟨⟨hc, hs, hne⟩, ?_, rfl⟩
    simp [errorAlerts, List.count_append]
  · rintro ⟨hc, hs, hne⟩ h1 h2
    have hz : ¬ s.errorStartTime = 0 := by rw [hs]; exact hne
    have hu : usub (w.clock s.clockIdx % ULONG_MOD) s.errorStartTime > 30000 := by
      rw [hs, usub_of_le _ _ (by omega) h2]
      omega
    have hform : handleSystemError w s
        = { s with currentState := HangerState.RETRACTED, errorStartTime := 0,
                   clockIdx := s.clockIdx + 1, fbReadyIdx := s.fbReadyIdx + 1,
                   relay := false, motorRunning := false,
                   log := s.log ++ [Event.errorScreen] ++ [Event.relayWrite false]
                            ++ [Event.alert "INFO" (w.fbReady s.fbReadyIdx)] } := by
      simp only [handleSystemError, hz, millis, State.emit, digitalWriteRelay,
        checkLimitDistances, sendAlertToFirebase, isFirebaseConnected]
      simp [hu]
    rw [hform]
    refine ⟨rfl, rfl, ?_, ?_, rfl⟩
    · simp [errorAlerts, List.count_append]
    · cases w.fbReady s.fbReadyIdx <;> simp [infoAlerts, List.count_append] <;> omega

/-- C22 (witness): the incident opens at clock time 1000; the call made at
clock time 31001 resets Position to Retracted. -/
theorem error_incident_window_witness :
    ErrorIncident 1000 (handleSystemError boundaryWorld inError)
      ∧ (handleSystemError boundaryWorld
          (handleSystemError boundaryWorld
            (handleSystemError boundaryWorld inError))).currentState
        = HangerState.RETRACTED := by
  have h1 := (error_incident_window boundaryWorld inError 1000).1 rfl rfl (by decide!)
    (by decide!) (by decide!) (by decide!)
  have h2 := (error_incident_window boundaryWorld
    (handleSystemError boundaryWorld inError) 1000).2.1 h1.1 (by decide!) (by decide!)
  have h3 := (error_incident_window boundaryWorld
    (handleSystemError boundaryWorld (handleSystemError boundaryWorld inError)) 1000).2.2
    h2.1 (by decide!) (by decide!)
  exact ⟨h1.1, h3.1⟩

/-! ## C23 -/

/-- C23 (counterexample): with Position Error, `extendHanger` and
`retractHanger` run a transit (the relay is engaged once) and overwrite
Position with their target, and so does `listenForFirebaseConfigChanges` when
the remote record asks for "extend". -/
theorem motor_functions_leave_error :
    inError.currentState = HangerState.HANGER_ERROR
      ∧ errorExtendRequested.currentState = HangerState.HANGER_ERROR
      ∧ (extendHanger (steadyWorld 2941) 1 inError).map
          (fun s => (s.currentState, relayEngagements s.log))
        = some (HangerState.EXTENDED, 1)
      ∧ (retractHanger (steadyWorld 1176) 1 inError).map
          (fun s => (s.currentState, relayEngagements s.log))
        = some (HangerState.RETRACTED, 1)
      ∧ (listenForFirebaseConfigChanges (steadyWorld 2941) 1 errorExtendRequested).map
          (fun s => (s.currentState, relayEngagements s.log))
        = some (HangerState.EXTENDED, 1) := by
  decide!

theorem handleRequestedState_quiet (w : World) (fuel : Nat) (json : FirebaseJson)
    (p : State × Bool) (h : p.1.manualCommandInProgress = true ∨ NoValidRequest json) :
    handleRequestedState w fuel json p = some p := by
  rcases h with h | h
  · exact handleRequestedState_busy w fuel json p h
  · unfold handleRequestedState
    cases hr : json.requestedState with
    | none => rfl
    | some d =>
      simp only
      by_cases ht : d.typeNum = JsonType.JSON_STRING
      · have hn := h d hr ht
        simp only [not_or] at hn
        obtain ⟨n1, n2, n3, n4, n5, n6⟩ := hn
        simp [ht, n1, n2, n3, n4, n5, n6]
      · simp [ht]

theorem StillError.here (s : State) (h : s.currentState = HangerState.HANGER_ERROR) :
    StillError s s := ⟨h, rfl, rfl⟩

theorem executePirAction_error (w : World) (fuel : Nat) (s : State)
    (h : s.currentState = HangerState.HANGER_ERROR) : executePirAction w fuel s = some s := by
  cases hp : s.sysConfig.retractOnUserPresent <;> cases hu : s.userPresent <;>
    simp [executePirAction, hp, hu, h]

theorem pirDelayedAction_error (w : World) (fuel : Nat) (d : Nat) (s : State)
    (h : s.currentState = HangerState.HANGER_ERROR) :
    ∃ s1, pirDelayedAction w fuel d s = some s1 ∧ s1.currentState = HangerState.HANGER_ERROR
      ∧ s1.log = s.log := by
  unfold pirDelayedAction
  by_cases ha : s.pirDelayActive = true
  · simp only [ha, if_true]
    by_cases hd : usub (millis w s).1 (millis w s).2.pirDelayStartTime ≥ d
    · rw [if_pos hd, executePirAction_error w fuel (millis w s).2 h]
      exact ⟨_, rfl, h, rfl⟩
    · rw [if_neg hd]
      exact ⟨_, rfl, h, rfl⟩
  · simp only [ha]
    exact ⟨s, rfl, h, rfl⟩

theorem handlePirControl_error (w : World) (fuel : Nat) (s : State)
    (h : s.currentState = HangerState.HANGER_ERROR) :
    ∃ s1, handlePirControl w fuel s = some s1 ∧ s1.currentState = HangerState.HANGER_ERROR
      ∧ s1.log = s.log := by
  unfold handlePirControl
  by_cases he : s.sysConfig.enablePirControl = true
  · simp only [he, Bool.not_true, Bool.false_eq_true, if_false]
    by_cases hf : s.userPresent ≠ s.lastUserPresence
    · rw [if_pos hf]
      by_cases hg : (decide (max 5000 s.sysConfig.pirRetractDelay > 0) && s.userPresent) = true
      · rw [if_pos hg]
        exact ⟨_, rfl, h, rfl⟩
      · rw [if_neg hg, executePirAction_error w fuel s h]
        exact pirDelayedAction_error w fuel _ _ h
    · rw [if_neg hf]
      exact pirDelayedAction_error w fuel _ s h
  · simp only [he]
    exact ⟨s, rfl, h, rfl⟩

theorem weatherRules_error (w : World) (fuel : Nat) (s : State)
    (h : s.currentState = HangerState.HANGER_ERROR) : weatherRules w fuel s = some s := by
  simp [weatherRules, h]

theorem executeControlLogic_error (w : World) (fuel : Nat) (s : State)
    (h : s.currentState = HangerState.HANGER_ERROR) :
    ∃ s1, executeControlLogic w fuel s = some s1 ∧ s1.currentState = HangerState.HANGER_ERROR
      ∧ s1.log = s.log := by
  unfold executeControlLogic
  simp only [h, reduceCtorEq, decide_False, Bool.and_false, Bool.false_eq_true, if_false]
  by_cases hm : s.manualMode = true
  · rw [if_pos hm]
    exact ⟨s, rfl, h, rfl⟩
  · rw [if_neg hm]
    by_cases he : s.sysConfig.enablePirControl = true
    · rw [if_pos he]
      obtain ⟨s1, e1, c1, l1⟩ := handlePirControl_error w fuel s h
      rw [e1, Option.some_bind, weatherRules_error w fuel s1 c1]
      exact ⟨s1, rfl, c1, l1⟩
    · rw [if_neg he, weatherRules_error w fuel s h]
      exact ⟨s, rfl, h, rfl⟩

theorem checkManualCommandCompletion_log (s : State) :
    (checkManualCommandCompletion s).currentState = s.currentState
      ∧ ((checkManualCommandCompletion s).log = s.log
          ∨ (checkManualCommandCompletion s).log = s.log ++ [Event.saveConfig]) := by
  unfold checkManualCommandCompletion
  by_cases h1 : s.manualCommandInProgress = true
  · by_cases h2 : s.currentState = s.targetState
    · simp [h1, h2, saveConfig, State.emit]
    · simp [h1, h2]
  · simp [h1]

/-- C23 (amended): with Position Error, `checkManualCommandCompletion`,
`executeControlLogic` and `handleControlLogic` return, for any fuel, with
Position still Error, no motor function called and the relay not engaged; so
does `listenForFirebaseConfigChanges` when a manual command is marked in
progress or the remote record holds no valid request. `extendHanger` and
`retractHanger` themselves do not look for Error: when they return, Position
is their target and the relay was engaged once. -/
theorem error_sticky_without_transit (w : World) (fuel : Nat) (s : State)
    (he : s.currentState = HangerState.HANGER_ERROR) :
    StillError s (checkManualCommandCompletion s)
      ∧ (∃ s1, executeControlLogic w fuel s = some s1 ∧ StillError s s1)
      ∧ (∃ s1, handleControlLogic w fuel s = some s1 ∧ StillError s s1)
      ∧ ((s.manualCommandInProgress = true ∨ NoValidRequest s.remote) →
          ∃ s1, listenForFirebaseConfigChanges w fuel s = some s1 ∧ StillError s s1)
      ∧ (∀ s1, extendHanger w fuel s = some s1 →
          s1.currentState = HangerState.EXTENDED
            ∧ relayEngagements s1.log = relayEngagements s.log + 1)
      ∧ (∀ s1, retractHanger w fuel s = some s1 →
          s1.currentState = HangerState.RETRACTED
            ∧ relayEngagements s1.log = relayEngagements s.log + 1) := by
  refine ⟨?_, ?_, ?_, ?_, ?_, ?_⟩
  · obtain ⟨hc, hl | hl⟩ := checkManualCommandCompletion_log s
    · exact ⟨hc.trans he, by rw [hl], by rw [hl]⟩
    · refine ⟨hc.trans he, ?_, ?_⟩ <;>
        simp [hl, motorCalls, relayEngagements, List.count_append]
  · obtain ⟨s1, e1, c1, l1⟩ := executeControlLogic_error w fuel s he
    exact ⟨s1, e1, c1, by rw [l1], by rw [l1]⟩
  · unfold handleControlLogic
    by_cases hm : s.manualCommandInProgress = true
    · rw [if_pos hm]
      exact ⟨s, rfl, StillError.here s he⟩
    · rw [if_neg hm]
      obtain ⟨s1, e1, c1, l1⟩ := executeControlLogic_error w fuel s he
      exact ⟨s1, e1, c1, by rw [l1], by rw [l1]⟩
  · intro hq
    unfold listenForFirebaseConfigChanges
    simp only [isFirebaseConnected]
    by_cases hr : w.fbReady s.fbReadyIdx = true
    · simp only [hr, Bool.not_true, Bool.false_eq_true, if_false]
      by_cases hg : w.fbGet s.fbGetIdx = true
      · simp only [hg, if_true]
        obtain ⟨c, mm, hcfg, _, _⟩ := applyRemoteConfig_spec s.remote
          { s with fbReadyIdx := s.fbReadyIdx + 1, fbGetIdx := s.fbGetIdx + 1 }
        have hq2 : (applyRemoteConfig s.remote
            { s with fbReadyIdx := s.fbReadyIdx + 1, fbGetIdx := s.fbGetIdx + 1
              }).1.manualCommandInProgress = true ∨ NoValidRequest s.remote := by
          rcases hq with h | h
          · left; rw [hcfg]; exact h
          · right; exact h
        rw [handleRequestedState_quiet w fuel s.remote _ hq2, Option.map_some']
        obtain ⟨⟨_, e1, e2⟩, e3, _, e5⟩ := saveIfChanged_effect w (applyRemoteConfig s.remote
            { s with fbReadyIdx := s.fbReadyIdx + 1, fbGetIdx := s.fbGetIdx + 1 })
        have hlog : (applyRemoteConfig s.remote
            { s with fbReadyIdx := s.fbReadyIdx + 1, fbGetIdx := s.fbGetIdx + 1 }).1.log
            = s.log := by rw [hcfg]
        have hcur : (applyRemoteConfig s.remote
            { s with fbReadyIdx := s.fbReadyIdx + 1, fbGetIdx := s.fbGetIdx + 1
              }).1.currentState = s.currentState := by rw [hcfg]
        refine ⟨_, rfl, ?_, ?_, ?_⟩
        · rw [e3, hcur]; exact he
        · unfold motorCalls
          rw [e1, e2, hlog]
          rfl
        · rw [e5, hlog]
      · simp only [hg, Bool.false_eq_true, if_false]
        exact ⟨_, rfl, he, rfl, rfl⟩
    · simp only [hr, Bool.not_false, if_true]
      exact ⟨_, rfl, he, rfl, rfl⟩
  · intro s1 h1
    rcases extendHanger_frame w fuel s s1 h1 with ⟨hc, _⟩ | ⟨_, d, e, c, ev, rfl, hev⟩
    · rw [he] at hc; exact absurd hc (by decide)
    · refine ⟨rfl, ?_⟩
      rcases hev with rfl | rfl <;> simp [relayEngagements, List.count_append]
  · intro s1 h1
    rcases retractHanger_frame w fuel s s1 h1 with ⟨hc, _⟩ | ⟨_, d, e, c, ev, rfl, hev⟩
    · rw [he] at hc; exact absurd hc (by decide)
    · refine ⟨rfl, ?_⟩
      rcases hev with rfl | rfl <;> simp [relayEngagements, List.count_append]

/-- C23 (witness): the boot configuration with Position Error:
`checkManualCommandCompletion` and `executeControlLogic`, even with no fuel,
leave Position Error without any motor action. -/
theorem error_sticky_without_transit_witness :
    StillError inError (checkManualCommandCompletion inError)
      ∧ ∃ s1, executeControlLogic (steadyWorld 2941) 0 inError = some s1
          ∧ StillError inError s1 :=
  ⟨(error_sticky_without_transit (steadyWorld 2941) 0 inError rfl).1,
    (error_sticky_without_transit (steadyWorld 2941) 0 inError rfl).2.1⟩

/-! ## Transit loops, poll by poll -/

theorem readUltrasonicDistance_fst (w : World) (s : State) :
    (readUltrasonicDistance w s).1 = nextDistance w s.hangerDistance s.echoIdx := by
  unfold readUltrasonicDistance nextDistance
  by_cases h : 0 < echoDistance (w.echo s.echoIdx) ∧ echoDistance (w.echo s.echoIdx) < 400
  · simp only [h, and_self, if_true]
  · simp only [h, if_false]

theorem polledDistance_shift (w : World) (d0 : ℚ) (e0 : Nat) :
    ∀ j, polledDistance w (nextDistance w d0 e0) (e0 + 1) j = polledDistance w d0 e0 (j + 1) := by
  intro j
  induction j with
  | zero => rfl
  | succ j ih =>
    show nextDistance w (polledDistance w (nextDistance w d0 e0) (e0 + 1) j) (e0 + 1 + (j + 1))
      = nextDistance w (polledDistance w d0 e0 (j + 1)) (e0 + (j + 1 + 1))
    rw [ih]
    congr 1
    omega

theorem extendLoop_step (w : World) (st fuel : Nat) (s : State)
    (hb : inBand s.sysConfig.distanceExtended s.sysConfig.distanceTolerance
            (nextDistance w s.hangerDistance s.echoIdx) = false)
    (ht : ¬ usub (w.clock s.clockIdx % ULONG_MOD) st > s.sysConfig.motorTimeout) :
    extendLoop w st (fuel + 1) s
      = extendLoop w st fuel
          { s with hangerDistance := nextDistance w s.hangerDistance s.echoIdx,
                   echoIdx := s.echoIdx + 1, clockIdx := s.clockIdx + 1 } := by
  rw [extendLoop]
  simp only [readUltrasonicDistance_snd, readUltrasonicDistance_fst, hb, millis, State.emit]
  simp only [ht, if_false, Bool.false_eq_true]

theorem extendLoop_hit (w : World) (st fuel : Nat) (s : State)
    (hb : inBand s.sysConfig.distanceExtended s.sysConfig.distanceTolerance
            (nextDistance w s.hangerDistance s.echoIdx) = true) :
    extendLoop w st (fuel + 1) s
      = some { s with hangerDistance := nextDistance w s.hangerDistance s.echoIdx,
                      echoIdx := s.echoIdx + 1,
                      log := s.log ++ [Event.targetReached] } := by
  rw [extendLoop]
  simp only [readUltrasonicDistance_snd, readUltrasonicDistance_fst, hb, millis, State.emit]
  simp

theorem extendLoop_expire (w : World) (st fuel : Nat) (s : State)
    (hb : inBand s.sysConfig.distanceExtended s.sysConfig.distanceTolerance
            (nextDistance w s.hangerDistance s.echoIdx) = false)
    (ht : usub (w.clock s.clockIdx % ULONG_MOD) st > s.sysConfig.motorTimeout) :
    extendLoop w st (fuel + 1) s
      = some { s with hangerDistance := nextDistance w s.hangerDistance s.echoIdx,
                      echoIdx := s.echoIdx + 1, clockIdx := s.clockIdx + 1,
                      log := s.log ++ [Event.motorTimeoutError] } := by
  rw [extendLoop]
  simp only [readUltrasonicDistance_snd, readUltrasonicDistance_fst, hb, millis, State.emit]
  simp [ht]

theorem extendLoop_reaches (w : World) (st : Nat) :
    ∀ (k fuel : Nat) (s : State),
      (∀ j, j < k →
        inBand s.sysConfig.distanceExtended s.sysConfig.distanceTolerance
            (polledDistance w s.hangerDistance s.echoIdx j) = false
          ∧ ¬ usub (w.clock (s.clockIdx + j) % ULONG_MOD) st > s.sysConfig.motorTimeout) →
      inBand s.sysConfig.distanceExtended s.sysConfig.distanceTolerance
          (polledDistance w s.hangerDistance s.echoIdx k) = true →
      extendLoop w st (k + 1 + fuel) s
        = some { s with hangerDistance := polledDistance w s.hangerDistance s.echoIdx k,
                        echoIdx := s.echoIdx + (k + 1), clockIdx := s.clockIdx + k,
                        log := s.log ++ [Event.targetReached] } := by
  intro k
  induction k with
  | zero =>
    intro fuel s _ hb
    rw [show 0 + 1 + fuel = fuel + 1 by omega, extendLoop_hit w st fuel s hb]
    rfl
  | succ k ih =>
    intro fuel s hpre hb
    have h0 := hpre 0 (Nat.succ_pos k)
    rw [show k + 1 + 1 + fuel = (k + 1 + fuel) + 1 by omega,
      extendLoop_step w st _ s h0.1 (by simpa using h0.2)]
    rw [ih]
    · dsimp only
      simp only [polledDistance_shift, Option.some.injEq, State.mk.injEq, true_and, and_true]
      constructor <;> omega
    · intro j hj
      have := hpre (j + 1) (Nat.succ_lt_succ hj)
      simp only [polledDistance_shift]
      refine ⟨this.1, ?_⟩
      have h2 := this.2
      rw [show s.clockIdx + (j + 1) = s.clockIdx + 1 + j by omega] at h2
      exact h2
    · simp only [polledDistance_shift]
      exact hb

theorem extendLoop_times_out (w : World) (st : Nat) :
    ∀ (k fuel : Nat) (s : State),
      (∀ j, j < k →
        inBand s.sysConfig.distanceExtended s.sysConfig.distanceTolerance
            (polledDistance w s.hangerDistance s.echoIdx j) = false
          ∧ ¬ usub (w.clock (s.clockIdx + j) % ULONG_MOD) st > s.sysConfig.motorTimeout) →
      inBand s.sysConfig.distanceExtended s.sysConfig.distanceTolerance
          (polledDistance w s.hangerDistance s.echoIdx k) = false →
      usub (w.clock (s.clockIdx + k) % ULONG_MOD) st > s.sysConfig.motorTimeout →
      extendLoop w st (k + 1 + fuel) s
        = some { s with hangerDistance := polledDistance w s.hangerDistance s.echoIdx k,
                        echoIdx := s.echoIdx + (k + 1), clockIdx := s.clockIdx + (k + 1),
                        log := s.log ++ [Event.motorTimeoutError] } := by
  intro k
  induction k with
  | zero =>
    intro fuel s _ hb ht
    rw [show 0 + 1 + fuel = fuel + 1 by omega, extendLoop_expire w st fuel s hb (by simpa using ht)]
    rfl
  | succ k ih =>
    intro fuel s hpre hb ht
    have h0 := hpre 0 (Nat.succ_pos k)
    rw [show k + 1 + 1 + fuel = (k + 1 + fuel) + 1 by omega,
      extendLoop_step w st _ s h0.1 (by simpa using h0.2)]
    rw [ih]
    · dsimp only
      simp only [polledDistance_shift, Option.some.injEq, State.mk.injEq, true_and, and_true]
      constructor <;> omega
    · intro j hj
      have := hpre (j + 1) (Nat.succ_lt_succ hj)
      simp only [polledDistance_shift]
      refine ⟨this.1, ?_⟩
      have h2 := this.2
      rw [show s.clockIdx + (j + 1) = s.clockIdx + 1 + j by omega] at h2
      exact h2
    · simp only [polledDistance_shift]
      exact hb
    · rw [show s.clockIdx + (k + 1) = s.clockIdx + 1 + k by omega] at ht
      exact ht


theorem extendHanger_reaches (w : World) (fuel k : Nat) (s : State)
    (hc : s.currentState ≠ HangerState.EXTENDED) (hk : k < fuel)
    (hpre : ∀ j, j < k →
      inBand s.sysConfig.distanceExtended s.sysConfig.distanceTolerance
          (polledDistance w s.hangerDistance s.echoIdx j) = false
        ∧ transitElapsed w s j ≤ s.sysConfig.motorTimeout)
    (hb : inBand s.sysConfig.distanceExtended s.sysConfig.distanceTolerance
            (polledDistance w s.hangerDistance s.echoIdx k) = true) :
    extendHanger w fuel s
      = some { s with currentState := HangerState.EXTENDED, relay := false,
                      hangerDistance := polledDistance w s.hangerDistance s.echoIdx k,
                      echoIdx := s.echoIdx + (k + 1), clockIdx := s.clockIdx + 1 + k,
                      log := s.log ++ [Event.extendCall] ++ [Event.relayWrite true]
                              ++ [Event.targetReached] ++ [Event.relayWrite false] } := by
  obtain ⟨n, rfl⟩ : ∃ n, fuel = k + 1 + n := ⟨fuel - (k + 1), by omega⟩
  have hl := extendLoop_reaches w
    (millis w (digitalWriteRelay true (s.emit Event.extendCall))).1 k n
    (millis w (digitalWriteRelay true (s.emit Event.extendCall))).2
    (by
      intro j hj
      have h := hpre j hj
      exact ⟨h.1, by
        have h2 := h.2
        unfold transitElapsed at h2
        simp only [millis, digitalWriteRelay, State.emit]
        omega⟩)
    hb
  rw [extendHanger_of_loop w _ s _ hc hl]
  simp [millis, digitalWriteRelay, State.emit]

theorem extendHanger_times_out (w : World) (fuel k : Nat) (s : State)
    (hc : s.currentState ≠ HangerState.EXTENDED) (hk : k < fuel)
    (hpre : ∀ j, j < k →
      inBand s.sysConfig.distanceExtended s.sysConfig.distanceTolerance
          (polledDistance w s.hangerDistance s.echoIdx j) = false
        ∧ transitElapsed w s j ≤ s.sysConfig.motorTimeout)
    (hb : inBand s.sysConfig.distanceExtended s.sysConfig.distanceTolerance
            (polledDistance w s.hangerDistance s.echoIdx k) = false)
    (ht : s.sysConfig.motorTimeout < transitElapsed w s k) :
    extendHanger w fuel s
      = some { s with currentState := HangerState.EXTENDED, relay := false,
                      hangerDistance := polledDistance w s.hangerDistance s.echoIdx k,
                      echoIdx := s.echoIdx + (k + 1), clockIdx := s.clockIdx + 1 + (k + 1),
                      log := s.log ++ [Event.extendCall] ++ [Event.relayWrite true]
                              ++ [Event.motorTimeoutError] ++ [Event.relayWrite false] } := by
  obtain ⟨n, rfl⟩ : ∃ n, fuel = k + 1 + n := ⟨fuel - (k + 1), by omega⟩
  have hl := extendLoop_times_out w
    (millis w (digitalWriteRelay true (s.emit Event.extendCall))).1 k n
    (millis w (digitalWriteRelay true (s.emit Event.extendCall))).2
    (by
      intro j hj
      have h := hpre j hj
      exact ⟨h.1, by
        have h2 := h.2
        unfold transitElapsed at h2
        simp only [millis, digitalWriteRelay, State.emit]
        omega⟩)
    hb
    (by
      unfold transitElapsed at ht
      simp only [millis, digitalWriteRelay, State.emit]
      exact ht)
  rw [extendHanger_of_loop w _ s _ hc hl]
  simp [millis, digitalWriteRelay, State.emit]


theorem retractHanger_of_loop (w : World) (fuel : Nat) (s r : State)
    (hc : s.currentState ≠ HangerState.RETRACTED)
    (hl : retractLoop w (millis w (digitalWriteRelay true (s.emit Event.retractCall))).1 fuel
            (millis w (digitalWriteRelay true (s.emit Event.retractCall))).2 = some r) :
    retractHanger w fuel s
      = some { digitalWriteRelay false r with currentState := HangerState.RETRACTED } := by
  unfold retractHanger
  dsimp only
  rw [if_neg (by simpa [State.emit] using hc), hl]

theorem retractLoop_step (w : World) (st fuel : Nat) (s : State)
    (hb : inBand s.sysConfig.distanceRetracted s.sysConfig.distanceTolerance
            (nextDistance w s.hangerDistance s.echoIdx) = false)
    (ht : ¬ usub (w.clock s.clockIdx % ULONG_MOD) st > s.sysConfig.motorTimeout) :
    retractLoop w st (fuel + 1) s
      = retractLoop w st fuel
          { s with hangerDistance := nextDistance w s.hangerDistance s.echoIdx,
                   echoIdx := s.echoIdx + 1, clockIdx := s.clockIdx + 1 } := by
  rw [retractLoop]
  simp only [readUltrasonicDistance_snd, readUltrasonicDistance_fst, hb, millis, State.emit]
  simp only [ht, if_false, Bool.false_eq_true]

theorem retractLoop_hit (w : World) (st fuel : Nat) (s : State)
    (hb : inBand s.sysConfig.distanceRetracted s.sysConfig.distanceTolerance
            (nextDistance w s.hangerDistance s.echoIdx) = true) :
    retractLoop w st (fuel + 1) s
      = some { s with hangerDistance := nextDistance w s.hangerDistance s.echoIdx,
                      echoIdx := s.echoIdx + 1,
                      log := s.log ++ [Event.targetReached] } := by
  rw [retractLoop]
  simp only [readUltrasonicDistance_snd, readUltrasonicDistance_fst, hb, millis, State.emit]
  simp

theorem retractLoop_expire (w : World) (st fuel : Nat) (s : State)
    (hb : inBand s.sysConfig.distanceRetracted s.sysConfig.distanceTolerance
            (nextDistance w s.hangerDistance s.echoIdx) = false)
    (ht : usub (w.clock s.clockIdx % ULONG_MOD) st > s.sysConfig.motorTimeout) :
    retractLoop w st (fuel + 1) s
      = some { s with hangerDistance := nextDistance w s.hangerDistance s.echoIdx,
                      echoIdx := s.echoIdx + 1, clockIdx := s.clockIdx + 1,
                      log := s.log ++ [Event.motorTimeoutError] } := by
  rw [retractLoop]
  simp only [readUltrasonicDistance_snd, readUltrasonicDistance_fst, hb, millis, State.emit]
  simp [ht]

theorem retractLoop_reaches (w : World) (st : Nat) :
    ∀ (k fuel : Nat) (s : State),
      (∀ j, j < k →
        inBand s.sysConfig.distanceRetracted s.sysConfig.distanceTolerance
            (polledDistance w s.hangerDistance s.echoIdx j) = false
          ∧ ¬ usub (w.clock (s.clockIdx + j) % ULONG_MOD) st > s.sysConfig.motorTimeout) →
      inBand s.sysConfig.distanceRetracted s.sysConfig.distanceTolerance
          (polledDistance w s.hangerDistance s.echoIdx k) = true →
      retractLoop w st (k + 1 + fuel) s
        = some { s with hangerDistance := polledDistance w s.hangerDistance s.echoIdx k,
                        echoIdx := s.echoIdx + (k + 1), clockIdx := s.clockIdx + k,
                        log := s.log ++ [Event.targetReached] } := by
  intro k
  induction k with
  | zero =>
    intro fuel s _ hb
    rw [show 0 + 1 + fuel = fuel + 1 by omega, retractLoop_hit w st fuel s hb]
    rfl
  | succ k ih =>
    intro fuel s hpre hb
    have h0 := hpre 0 (Nat.succ_pos k)
    rw [show k + 1 + 1 + fuel = (k + 1 + fuel) + 1 by omega,
      retractLoop_step w st _ s h0.1 (by simpa using h0.2)]
    rw [ih]
    · dsimp only
      simp only [polledDistance_shift, Option.some.injEq, State.mk.injEq, true_and, and_true]
      constructor <;> omega
    · intro j hj
      have := hpre (j + 1) (Nat.succ_lt_succ hj)
      simp only [polledDistance_shift]
      refine ⟨this.1, ?_⟩
      have h2 := this.2
      rw [show s.clockIdx + (j + 1) = s.clockIdx + 1 + j by omega] at h2
      exact h2
    · simp only [polledDistance_shift]
      exact hb

theorem retractLoop_times_out (w : World) (st : Nat) :
    ∀ (k fuel : Nat) (s : State),
      (∀ j, j < k →
        inBand s.sysConfig.distanceRetracted s.sysConfig.distanceTolerance
            (polledDistance w s.hangerDistance s.echoIdx j) = false
          ∧ ¬ usub (w.clock (s.clockIdx + j) % ULONG_MOD) st > s.sysConfig.motorTimeout) →
      inBand s.sysConfig.distanceRetracted s.sysConfig.distanceTolerance
          (polledDistance w s.hangerDistance s.echoIdx k) = false →
      usub (w.clock (s.clockIdx + k) % ULONG_MOD) st > s.sysConfig.motorTimeout →
      retractLoop w st (k + 1 + fuel) s
        = some { s with hangerDistance := polledDistance w s.hangerDistance s.echoIdx k,
                        echoIdx := s.echoIdx + (k + 1), clockIdx := s.clockIdx + (k + 1),
                        log := s.log ++ [Event.motorTimeoutError] } := by
  intro k
  induction k with
  | zero =>
    intro fuel s _ hb ht
    rw [show 0 + 1 + fuel = fuel + 1 by omega, retractLoop_expire w st fuel s hb (by simpa using ht)]
    rfl
  | succ k ih =>
    intro fuel s hpre hb ht
    have h0 := hpre 0 (Nat.succ_pos k)
    rw [show k + 1 + 1 + fuel = (k + 1 + fuel) + 1 by omega,
      retractLoop_step w st _ s h0.1 (by simpa using h0.2)]
    rw [ih]
    · dsimp only
      simp only [polledDistance_shift, Option.some.injEq, State.mk.injEq, true_and, and_true]
      constructor <;> omega
    · intro j hj
      have := hpre (j + 1) (Nat.succ_lt_succ hj)
      simp only [polledDistance_shift]
      refine ⟨this.1, ?_⟩
      have h2 := this.2
      rw [show s.clockIdx + (j + 1) = s.clockIdx + 1 + j by omega] at h2
      exact h2
    · simp only [polledDistance_shift]
      exact hb
    · rw [show s.clockIdx + (k + 1) = s.clockIdx + 1 + k by omega] at ht
      exact ht


theorem retractHanger_reaches (w : World) (fuel k : Nat) (s : State)
    (hc : s.currentState ≠ HangerState.RETRACTED) (hk : k < fuel)
    (hpre : ∀ j, j < k →
      inBand s.sysConfig.distanceRetracted s.sysConfig.distanceTolerance
          (polledDistance w s.hangerDistance s.echoIdx j) = false
        ∧ transitElapsed w s j ≤ s.sysConfig.motorTimeout)
    (hb : inBand s.sysConfig.distanceRetracted s.sysConfig.distanceTolerance
            (polledDistance w s.hangerDistance s.echoIdx k) = true) :
    retractHanger w fuel s
      = some { s with currentState := HangerState.RETRACTED, relay := false,
                      hangerDistance := polledDistance w s.hangerDistance s.echoIdx k,
                      echoIdx := s.echoIdx + (k + 1), clockIdx := s.clockIdx + 1 + k,
                      log := s.log ++ [Event.retractCall] ++ [Event.relayWrite true]
                              ++ [Event.targetReached] ++ [Event.relayWrite false] } := by
  obtain ⟨n, rfl⟩ : ∃ n, fuel = k + 1 + n := ⟨fuel - (k + 1), by omega⟩
  have hl := retractLoop_reaches w
    (millis w (digitalWriteRelay true (s.emit Event.retractCall))).1 k n
    (millis w (digitalWriteRelay true (s.emit Event.retractCall))).2
    (by
      intro j hj
      have h := hpre j hj
      exact ⟨h.1, by
        have h2 := h.2
        unfold transitElapsed at h2
        simp only [millis, digitalWriteRelay, State.emit]
        omega⟩)
    hb
  rw [retractHanger_of_loop w _ s _ hc hl]
  simp [millis, digitalWriteRelay, State.emit]

theorem retractHanger_times_out (w : World) (fuel k : Nat) (s : State)
    (hc : s.currentState ≠ HangerState.RETRACTED) (hk : k < fuel)
    (hpre : ∀ j, j < k →
      inBand s.sysConfig.distanceRetracted s.sysConfig.distanceTolerance
          (polledDistance w s.hangerDistance s.echoIdx j) = false
        ∧ transitElapsed w s j ≤ s.sysConfig.motorTimeout)
    (hb : inBand s.sysConfig.distanceRetracted s.sysConfig.distanceTolerance
            (polledDistance w s.hangerDistance s.echoIdx k) = false)
    (ht : s.sysConfig.motorTimeout < transitElapsed w s k) :
    retractHanger w fuel s
      = some { s with currentState := HangerState.RETRACTED, relay := false,
                      hangerDistance := polledDistance w s.hangerDistance s.echoIdx k,
                      echoIdx := s.echoIdx + (k + 1), clockIdx := s.clockIdx + 1 + (k + 1),
                      log := s.log ++ [Event.retractCall] ++ [Event.relayWrite true]
                              ++ [Event.motorTimeoutError] ++ [Event.relayWrite false] } := by
  obtain ⟨n, rfl⟩ : ∃ n, fuel = k + 1 + n := ⟨fuel - (k + 1), by omega⟩
  have hl := retractLoop_times_out w
    (millis w (digitalWriteRelay true (s.emit Event.retractCall))).1 k n
    (millis w (digitalWriteRelay true (s.emit Event.retractCall))).2
    (by
      intro j hj
      have h := hpre j hj
      exact ⟨h.1, by
        have h2 := h.2
        unfold transitElapsed at h2
        simp only [millis, digitalWriteRelay, State.emit]
        omega⟩)
    hb
    (by
      unfold transitElapsed at ht
      simp only [millis, digitalWriteRelay, State.emit]
      exact ht)
  rw [retractHanger_of_loop w _ s _ hc hl]
  simp [millis, digitalWriteRelay, State.emit]

/-! ## C21 -/

/-- With `motorRunning` false, `checkLimitDistances` does nothing, so
`handleSafetyChecks` returns a state whose Position is not Error unchanged. -/
theorem handleSafetyChecks_idle (w : World) (s : State) (hm : s.motorRunning = false)
    (hc : s.currentState ≠ HangerState.HANGER_ERROR) : handleSafetyChecks w s = s := by
  simp [handleSafetyChecks, checkLimitDistances, hm, hc]

/-- The extend transit of the default configuration with the distance stuck at
about 18 cm (echo 1059 us) and a clock that advances 100 ms per read: it polls
301 times, leaves through the timeout branch and records Position = Extended. -/
theorem extendHanger_stuck_below_band (s : State)
    (hc : s.currentState ≠ HangerState.EXTENDED)
    (hd : s.sysConfig.distanceExtended = 50) (ht : s.sysConfig.distanceTolerance = 5)
    (hm : s.sysConfig.motorTimeout = 30000) :
    extendHanger (steadyWorld 1059) 301 s
      = some { s with currentState := HangerState.EXTENDED, relay := false,
                      hangerDistance := echoDistance 1059,
                      echoIdx := s.echoIdx + 301, clockIdx := s.clockIdx + 1 + 301,
                      log := s.log ++ [Event.extendCall] ++ [Event.relayWrite true]
                              ++ [Event.motorTimeoutError] ++ [Event.relayWrite false] } := by
  have hl := extendLoop_stuck (steadyWorld 1059)
    (millis (steadyWorld 1059) (digitalWriteRelay true (s.emit Event.extendCall))).1 1059
    (fun _ => rfl) (by decide!) 300
    (millis (steadyWorld 1059) (digitalWriteRelay true (s.emit Event.extendCall))).2
    (by
      simp only [millis, digitalWriteRelay, State.emit, hd, ht]
      decide!)
    (by
      intro i hi
      simp only [millis, digitalWriteRelay, State.emit, steadyWorld, hm]
      rw [usub_of_le _ _ (by omega) (by unfold ULONG_MOD; omega)]
      omega)
    (by
      simp only [millis, digitalWriteRelay, State.emit, steadyWorld, hm]
      rw [usub_of_le _ _ (by omega) (by unfold ULONG_MOD; omega)]
      omega)
  rw [extendHanger_of_loop (steadyWorld 1059) 301 s _ hc hl]
  simp [millis, digitalWriteRelay, State.emit, Nat.add_assoc]

/-- In a steady world the config button is never pressed: `handleSystemTasks`
checks the manual command and reads the sensors. -/
theorem handleSystemTasks_steady (e : Int) (s : State) :
    handleSystemTasks (steadyWorld e) s
      = some (readSensors (steadyWorld e)
          { checkManualCommandCompletion s with
              buttonIdx := (checkManualCommandCompletion s).buttonIdx + 1 }) := rfl

/-- In a steady world the cloud is ready and the remote record is read:
`handleFirebaseOperations` reconciles the configuration and the request, then
persists, sends the telemetry and clears the remote request when asked to. -/
theorem handleFirebaseOperations_steady (e : Int) (fuel : Nat) (s : State) :
    handleFirebaseOperations (steadyWorld e) fuel s
      = (handleRequestedState (steadyWorld e) fuel s.remote
          (applyRemoteConfig s.remote
            { s with fbReadyIdx := s.fbReadyIdx + 1 + 1, fbGetIdx := s.fbGetIdx + 1 })).map
          fun p =>
            let s1 := saveIfChanged (steadyWorld e) p
            let s2 :=
              if !s1.manualCommandInProgress then sendSensorDataToFirebase (steadyWorld e) s1
              else s1
            let s3 := sendSystemStatusToFirebase (steadyWorld e) s2
            if s3.needToClearFirebaseState then
              { clearFirebaseRequestedState (steadyWorld e) s3 with
                  needToClearFirebaseState := false }
            else s3 := by
  unfold handleFirebaseOperations
  simp only [isFirebaseConnected]
  rw [listen_connected _ _ _ rfl rfl]
  simp only [Option.map_map]
  rfl

theorem handleRequestedState_absent (w : World) (fuel : Nat) (json : FirebaseJson)
    (p : State × Bool) (hreq : json.requestedState = none) :
    handleRequestedState w fuel json p = some p := by
  unfold handleRequestedState
  rw [hreq]

/-- The auto-extend rule: automatic mode, no command in progress, no rain,
occupancy control off, Position Retracted and good drying conditions. -/
theorem handleControlLogic_auto_extend (w : World) (fuel : Nat) (s : State)
    (hidle : s.manualCommandInProgress = false) (hrain : s.rainDetected = false)
    (hmanual : s.manualMode = false) (hpir : s.sysConfig.enablePirControl = false)
    (hpos : s.currentState = HangerState.RETRACTED) (hgood : isGoodDryingConditions s = true) :
    handleControlLogic w fuel s = (extendHanger w fuel s).map (sendAlertToFirebase w "INFO") := by
  simp [handleControlLogic, executeControlLogic, weatherRules, hidle, hrain, hmanual, hpir, hpos,
    hgood]

/-- C21 (code bug, evaluated): the distance is stuck at about 18 cm (echo
1059 us), the extended band is 45 to 55 cm, the timeout 30000 ms, the clock
advances 100 ms per read. (1) Manual caller: one full cycle `loop` with a
remote request "extend" runs the transit into its timeout branch, and at the
end of the cycle Position is Extended, no error screen was shown and no ERROR
alert was raised. (2) Automatic caller: in good drying conditions the
auto-extend rule runs the transit into its timeout branch at the end of the
first cycle; after the whole second cycle, safety checks included, Position is
still Extended, with no error screen and no ERROR alert. -/
theorem transit_timeout_not_escalated :
    (loop (steadyWorld 1059) 301 extendRequested).map
        (fun s => (s.log.count Event.extendCall, s.log.count Event.motorTimeoutError,
          s.log.count Event.targetReached))
      = some (1, 1, 0)
    ∧ (loop (steadyWorld 1059) 301 extendRequested).map
        (fun s => (s.currentState, s.log.count Event.errorScreen,
          s.log.count (Event.alert "ERROR" true) + s.log.count (Event.alert "ERROR" false)))
      = some (HangerState.EXTENDED, 0, 0)
    ∧ ((loop (steadyWorld 1059) 301 bootState).bind (loop (steadyWorld 1059) 301)).map
        (fun s => (s.log.count Event.extendCall, s.log.count Event.motorTimeoutError,
          s.log.count Event.targetReached))
      = some (1, 1, 0)
    ∧ ((loop (steadyWorld 1059) 301 bootState).bind (loop (steadyWorld 1059) 301)).map
        (fun s => (s.currentState, s.log.count Event.errorScreen,
          s.log.count (Event.alert "ERROR" true) + s.log.count (Event.alert "ERROR" false)))
      = some (HangerState.EXTENDED, 0, 0) := by
  refine ⟨?_, ?_, ?_, ?_⟩
  · rw [loop, handleSystemTasks_steady, Option.some_bind, handleFirebaseOperations_steady,
      handleRequestedState_extend _ _ _ _ (jsonString "extend"), extendHanger_stuck_below_band]
    all_goals decide!
  · rw [loop, handleSystemTasks_steady, Option.some_bind, handleFirebaseOperations_steady,
      handleRequestedState_extend _ _ _ _ (jsonString "extend"), extendHanger_stuck_below_band]
    all_goals decide!
  · rw [loop, handleSystemTasks_steady, Option.some_bind, handleFirebaseOperations_steady,
      handleRequestedState_absent _ _ _ _ (by decide!), Option.map_some', Option.some_bind,
      handleSafetyChecks_idle, handleControlLogic_auto_extend, extendHanger_stuck_below_band,
      Option.map_some', Option.some_bind]
    all_goals decide!
  · rw [loop, handleSystemTasks_steady, Option.some_bind, handleFirebaseOperations_steady,
      handleRequestedState_absent _ _ _ _ (by decide!), Option.map_some', Option.some_bind,
      handleSafetyChecks_idle, handleControlLogic_auto_extend, extendHanger_stuck_below_band,
      Option.map_some', Option.some_bind]
    all_goals decide!

/-! ## C24 -/

theorem inBand_iff (center tolerance d : ℚ) :
    inBand center tolerance d = true
      ↔ floatSub center tolerance ≤ d ∧ d ≤ floatAdd center tolerance := by
  simp [inBand]

theorem inBand_eq_false_iff (center tolerance d : ℚ) :
    inBand center tolerance d = false
      ↔ ¬ (floatSub center tolerance ≤ d ∧ d ≤ floatAdd center tolerance) := by
  rw [← inBand_iff]
  cases inBand center tolerance d <;> simp

/-- C24: a transit is running (Position differs from the target on entry)
and poll number `k` is the first whose reading `r` satisfies
`target - tolerance <= r <= target + tolerance`, the difference and the sum
being the `float` values the firmware computes and the readings the `float`
distances `readUltrasonicDistance` returns, while the earlier polls found the
elapsed time within `motorTimeout`. Then `extendHanger` (resp.
`retractHanger`) returns for every fuel above `k`, having taken exactly
`k + 1` readings: the distance is reading `k`, the loop left through "Target
reached", the relay is off and Position is the target. -/
theorem transit_stops_at_first_reading_in_band (w : World) (fuel k : Nat) (s : State) :
    (s.currentState ≠ HangerState.EXTENDED → k < fuel →
        (∀ j, j < k →
          ¬ (floatSub s.sysConfig.distanceExtended s.sysConfig.distanceTolerance
                ≤ polledDistance w s.hangerDistance s.echoIdx j
              ∧ polledDistance w s.hangerDistance s.echoIdx j
                ≤ floatAdd s.sysConfig.distanceExtended s.sysConfig.distanceTolerance)
            ∧ transitElapsed w s j ≤ s.sysConfig.motorTimeout) →
        floatSub s.sysConfig.distanceExtended s.sysConfig.distanceTolerance
          ≤ polledDistance w s.hangerDistance s.echoIdx k →
        polledDistance w s.hangerDistance s.echoIdx k
          ≤ floatAdd s.sysConfig.distanceExtended s.sysConfig.distanceTolerance →
        extendHanger w fuel s
          = some { s with currentState := HangerState.EXTENDED, relay := false,
                          hangerDistance := polledDistance w s.hangerDistance s.echoIdx k,
                          echoIdx := s.echoIdx + (k + 1), clockIdx := s.clockIdx + 1 + k,
                          log := s.log ++ [Event.extendCall] ++ [Event.relayWrite true]
                                  ++ [Event.targetReached] ++ [Event.relayWrite false] })
      ∧ (s.currentState ≠ HangerState.RETRACTED → k < fuel →
        (∀ j, j < k →
          ¬ (floatSub s.sysConfig.distanceRetracted s.sysConfig.distanceTolerance
                ≤ polledDistance w s.hangerDistance s.echoIdx j
              ∧ polledDistance w s.hangerDistance s.echoIdx j
                ≤ floatAdd s.sysConfig.distanceRetracted s.sysConfig.distanceTolerance)
            ∧ transitElapsed w s j ≤ s.sysConfig.motorTimeout) →
        floatSub s.sysConfig.distanceRetracted s.sysConfig.distanceTolerance
          ≤ polledDistance w s.hangerDistance s.echoIdx k →
        polledDistance w s.hangerDistance s.echoIdx k
          ≤ floatAdd s.sysConfig.distanceRetracted s.sysConfig.distanceTolerance →
        retractHanger w fuel s
          = some { s with currentState := HangerState.RETRACTED, relay := false,
                          hangerDistance := polledDistance w s.hangerDistance s.echoIdx k,
                          echoIdx := s.echoIdx + (k + 1), clockIdx := s.clockIdx + 1 + k,
                          log := s.log ++ [Event.retractCall] ++ [Event.relayWrite true]
                                  ++ [Event.targetReached] ++ [Event.relayWrite false] }) :=
  ⟨fun hc hk hpre h1 h2 => extendHanger_reaches w fuel k s hc hk
      (fun j hj => ⟨(inBand_eq_false_iff _ _ _).mpr (hpre j hj).1, (hpre j hj).2⟩)
      ((inBand_iff _ _ _).mpr ⟨h1, h2⟩),
    fun hc hk hpre h1 h2 => retractHanger_reaches w fuel k s hc hk
      (fun j hj => ⟨(inBand_eq_false_iff _ _ _).mpr (hpre j hj).1, (hpre j hj).2⟩)
      ((inBand_iff _ _ _).mpr ⟨h1, h2⟩)⟩

/-- C24 (witness): target 50 and tolerance 5, for which the `float` limits
are 45 and 55, and readings rising through 18.003, 30.6, 44.2, 45.9 and 52.003
cm: `extendHanger` stops at the fourth reading, the first that is at least 45,
and never takes the fifth. Target 20 and tolerance 5 and readings falling
through 52.003, 44.2, 25.5 and 19.992 cm: `retractHanger` stops at the fourth
reading. -/
theorem transit_stops_at_first_reading_in_band_witness :
    (floatSub bootState.sysConfig.distanceExtended bootState.sysConfig.distanceTolerance,
        floatAdd bootState.sysConfig.distanceExtended bootState.sysConfig.distanceTolerance)
      = (45, 55)
    ∧ polledDistance risingWorld bootState.hangerDistance bootState.echoIdx 2 < 45
    ∧ (extendHanger risingWorld 10 bootState).map
        (fun s => (s.hangerDistance, s.echoIdx, s.currentState))
      = some (6016205 / 131072, 4, HangerState.EXTENDED)
    ∧ (retractHanger fallingWorld 10 relayOnExtended).map
        (fun s => (s.hangerDistance, s.echoIdx, s.currentState))
      = some (5240783 / 262144, 4, HangerState.RETRACTED) := by
  refine ⟨by decide!, by decide!, ?_, ?_⟩
  · rw [(transit_stops_at_first_reading_in_band risingWorld 10 3 bootState).1
      (by decide) (by decide) (by decide!) (by decide!) (by decide!)]
    decide!
  · rw [(transit_stops_at_first_reading_in_band fallingWorld 10 3 relayOnExtended).2
      (by decide) (by decide) (by decide!) (by decide!) (by decide!)]
    decide!

/-! ## C25 -/

/-- C25 (counterexample): Position is recorded as Retracted while the
measured distance, 50 cm on entry and 49.997 cm at the first poll (the `float`
6553207 / 131072), is inside
the extended band 45 to 55 cm: `extendHanger` switches the relay on before it
takes the first reading, and off again after it. -/
theorem extendHanger_in_band_engages_relay :
    atExtendedBand.currentState = HangerState.RETRACTED
      ∧ inBand atExtendedBand.sysConfig.distanceExtended
          atExtendedBand.sysConfig.distanceTolerance atExtendedBand.hangerDistance = true
      ∧ (extendHanger (steadyWorld 2941) 1 atExtendedBand).map (fun s => s.hangerDistance)
        = some (6553207 / 131072)
      ∧ (extendHanger (steadyWorld 2941) 1 atExtendedBand).map
          (fun s => (s.log, relayEngagements s.log))
        = some ([Event.extendCall, Event.relayWrite true, Event.targetReached,
                  Event.relayWrite false], 1) := by
  decide!

/-- C25 (amended): when Position differs from the target and the first
reading is inside the target band, `extendHanger` (resp. `retractHanger`)
switches the relay on, takes that one reading, leaves the loop through "Target
reached" without reading the clock again or waiting, switches the relay off
and sets Position to the target. When Position already equals the target the
function returns at once, whatever the distance is: no reading, no relay
write. -/
theorem transit_with_first_reading_in_band (w : World) (fuel : Nat) (s : State) :
    (s.currentState ≠ HangerState.EXTENDED → 0 < fuel →
        inBand s.sysConfig.distanceExtended s.sysConfig.distanceTolerance
            (nextDistance w s.hangerDistance s.echoIdx) = true →
        extendHanger w fuel s
          = some { s with currentState := HangerState.EXTENDED, relay := false,
                          hangerDistance := nextDistance w s.hangerDistance s.echoIdx,
                          echoIdx := s.echoIdx + 1, clockIdx := s.clockIdx + 1,
                          log := s.log ++ [Event.extendCall] ++ [Event.relayWrite true]
                                  ++ [Event.targetReached] ++ [Event.relayWrite false] })
      ∧ (s.currentState = HangerState.EXTENDED →
          extendHanger w fuel s = some { s with log := s.log ++ [Event.extendCall] })
      ∧ (s.currentState ≠ HangerState.RETRACTED → 0 < fuel →
        inBand s.sysConfig.distanceRetracted s.sysConfig.distanceTolerance
            (nextDistance w s.hangerDistance s.echoIdx) = true →
        retractHanger w fuel s
          = some { s with currentState := HangerState.RETRACTED, relay := false,
                          hangerDistance := nextDistance w s.hangerDistance s.echoIdx,
                          echoIdx := s.echoIdx + 1, clockIdx := s.clockIdx + 1,
                          log := s.log ++ [Event.retractCall] ++ [Event.relayWrite true]
                                  ++ [Event.targetReached] ++ [Event.relayWrite false] })
      ∧ (s.currentState = HangerState.RETRACTED →
          retractHanger w fuel s = some { s with log := s.log ++ [Event.retractCall] }) := by
  refine ⟨?_, ?_, ?_, ?_⟩
  · intro hc hf hb
    exact extendHanger_reaches w fuel 0 s hc hf (fun j hj => absurd hj (Nat.not_lt_zero j)) hb
  · intro hc
    simp [extendHanger, State.emit, hc]
  · intro hc hf hb
    exact retractHanger_reaches w fuel 0 s hc hf (fun j hj => absurd hj (Nat.not_lt_zero j)) hb
  · intro hc
    simp [retractHanger, State.emit, hc]

/-- C25 (witness): Position Retracted with the first reading at 49.997 cm:
one reading, Position Extended; and Position Extended with the relay high:
`extendHanger` returns at once and the relay stays high. -/
theorem transit_with_first_reading_in_band_witness :
    (extendHanger (steadyWorld 2941) 1 atExtendedBand).map
        (fun s => (s.echoIdx, s.clockIdx, s.currentState))
      = some (1, 1, HangerState.EXTENDED)
    ∧ (extendHanger (steadyWorld 2941) 0 relayOnExtended).map
        (fun s => (s.echoIdx, s.relay, s.log))
      = some (0, true, [Event.extendCall]) := by
  constructor
  · rw [(transit_with_first_reading_in_band (steadyWorld 2941) 1 atExtendedBand).1
      (by decide) (by decide) (by decide!)]
    decide!
  · rw [(transit_with_first_reading_in_band (steadyWorld 2941) 0 relayOnExtended).2.1 rfl]
    decide!

theorem extendLoop_runs_on (w : World) (st : Nat) :
    ∀ (k : Nat) (s : State),
      (∀ j, j < k →
        inBand s.sysConfig.distanceExtended s.sysConfig.distanceTolerance
            (polledDistance w s.hangerDistance s.echoIdx j) = false
          ∧ ¬ usub (w.clock (s.clockIdx + j) % ULONG_MOD) st > s.sysConfig.motorTimeout) →
      extendLoop w st k s = none := by
  intro k
  induction k with
  | zero =>
    intro s _
    rfl
  | succ k ih =>
    intro s hpre
    have h0 := hpre 0 (Nat.succ_pos k)
    rw [extendLoop_step w st _ s h0.1 (by simpa using h0.2)]
    apply ih
    intro j hj
    have := hpre (j + 1) (Nat.succ_lt_succ hj)
    simp only [polledDistance_shift]
    refine ⟨this.1, ?_⟩
    have h2 := this.2
    rw [show s.clockIdx + (j + 1) = s.clockIdx + 1 + j by omega] at h2
    exact h2

theorem extendHanger_runs_on (w : World) (k : Nat) (s : State)
    (hc : s.currentState ≠ HangerState.EXTENDED)
    (hpre : ∀ j, j < k →
      inBand s.sysConfig.distanceExtended s.sysConfig.distanceTolerance
          (polledDistance w s.hangerDistance s.echoIdx j) = false
        ∧ transitElapsed w s j ≤ s.sysConfig.motorTimeout) :
    extendHanger w k s = none := by
  have hl := extendLoop_runs_on w
    (millis w (digitalWriteRelay true (s.emit Event.extendCall))).1 k
    (millis w (digitalWriteRelay true (s.emit Event.extendCall))).2
    (by
      intro j hj
      have h := hpre j hj
      exact ⟨h.1, by
        have h2 := h.2
        unfold transitElapsed at h2
        simp only [millis, digitalWriteRelay, State.emit]
        omega⟩)
  unfold extendHanger
  dsimp only
  rw [if_neg (by simpa [State.emit] using hc), hl]


theorem retractLoop_runs_on (w : World) (st : Nat) :
    ∀ (k : Nat) (s : State),
      (∀ j, j < k →
        inBand s.sysConfig.distanceRetracted s.sysConfig.distanceTolerance
            (polledDistance w s.hangerDistance s.echoIdx j) = false
          ∧ ¬ usub (w.clock (s.clockIdx + j) % ULONG_MOD) st > s.sysConfig.motorTimeout) →
      retractLoop w st k s = none := by
  intro k
  induction k with
  | zero =>
    intro s _
    rfl
  | succ k ih =>
    intro s hpre
    have h0 := hpre 0 (Nat.succ_pos k)
    rw [retractLoop_step w st _ s h0.1 (by simpa using h0.2)]
    apply ih
    intro j hj
    have := hpre (j + 1) (Nat.succ_lt_succ hj)
    simp only [polledDistance_shift]
    refine ⟨this.1, ?_⟩
    have h2 := this.2
    rw [show s.clockIdx + (j + 1) = s.clockIdx + 1 + j by omega] at h2
    exact h2

theorem retractHanger_runs_on (w : World) (k : Nat) (s : State)
    (hc : s.currentState ≠ HangerState.RETRACTED)
    (hpre : ∀ j, j < k →
      inBand s.sysConfig.distanceRetracted s.sysConfig.distanceTolerance
          (polledDistance w s.hangerDistance s.echoIdx j) = false
        ∧ transitElapsed w s j ≤ s.sysConfig.motorTimeout) :
    retractHanger w k s = none := by
  have hl := retractLoop_runs_on w
    (millis w (digitalWriteRelay true (s.emit Event.retractCall))).1 k
    (millis w (digitalWriteRelay true (s.emit Event.retractCall))).2
    (by
      intro j hj
      have h := hpre j hj
      exact ⟨h.1, by
        have h2 := h.2
        unfold transitElapsed at h2
        simp only [millis, digitalWriteRelay, State.emit]
        omega⟩)
  unfold retractHanger
  dsimp only
  rw [if_neg (by simpa [State.emit] using hc), hl]

/-! ## C27 -/

/-- C27 (counterexample): the distance is stuck outside the band and the
first poll finds the elapsed time equal to `motorTimeout` (30000 ms):
`extendHanger` does not stop there. With fuel for one poll it has not
returned; it takes a second reading and leaves through the timeout branch at
the second poll, 30100 ms after the start. -/
theorem extendHanger_polls_again_at_timeout :
    transitElapsed exactTimeoutWorld bootState 0 = bootState.sysConfig.motorTimeout
      ∧ inBand bootState.sysConfig.distanceExtended bootState.sysConfig.distanceTolerance
          (polledDistance exactTimeoutWorld bootState.hangerDistance bootState.echoIdx 0)
        = false
      ∧ extendHanger exactTimeoutWorld 1 bootState = none
      ∧ (extendHanger exactTimeoutWorld 2 bootState).map (fun s => (s.echoIdx, s.log))
        = some (2, [Event.extendCall, Event.relayWrite true, Event.motorTimeoutError,
                    Event.relayWrite false])
      ∧ transitElapsed exactTimeoutWorld bootState 1 = 30100 := by
  decide!

/-- C27 (amended): in a transit started from any state, whoever the caller
is, (1) as long as every poll so far found the reading out of band and the
elapsed time at most `motorTimeout`, `extendHanger` (resp. `retractHanger`)
has not returned and goes on to another wait-and-poll; (2) at the first poll
whose reading is out of band and whose elapsed time is strictly greater than
`motorTimeout` the loop leaves through the timeout branch, nothing more is
read and the relay is switched off. Elapsed time is the 32-bit difference
between the clock read of the poll and the start time read after the relay
was engaged. -/
theorem transit_timeout_boundary (w : World) (fuel k : Nat) (s : State) :
    (s.currentState ≠ HangerState.EXTENDED →
        (∀ j, j < k →
          inBand s.sysConfig.distanceExtended s.sysConfig.distanceTolerance
              (polledDistance w s.hangerDistance s.echoIdx j) = false
            ∧ transitElapsed w s j ≤ s.sysConfig.motorTimeout) →
        extendHanger w k s = none
          ∧ (k < fuel →
              inBand s.sysConfig.distanceExtended s.sysConfig.distanceTolerance
                  (polledDistance w s.hangerDistance s.echoIdx k) = false →
              s.sysConfig.motorTimeout < transitElapsed w s k →
              extendHanger w fuel s
                = some { s with currentState := HangerState.EXTENDED, relay := false,
                                hangerDistance :=
                                  polledDistance w s.hangerDistance s.echoIdx k,
                                echoIdx := s.echoIdx + (k + 1),
                                clockIdx := s.clockIdx + 1 + (k + 1),
                                log := s.log ++ [Event.extendCall] ++ [Event.relayWrite true]
                                        ++ [Event.motorTimeoutError]
                                        ++ [Event.relayWrite false] }))
      ∧ (s.currentState ≠ HangerState.RETRACTED →
        (∀ j, j < k →
          inBand s.sysConfig.distanceRetracted s.sysConfig.distanceTolerance
              (polledDistance w s.hangerDistance s.echoIdx j) = false
            ∧ transitElapsed w s j ≤ s.sysConfig.motorTimeout) →
        retractHanger w k s = none
          ∧ (k < fuel →
              inBand s.sysConfig.distanceRetracted s.sysConfig.distanceTolerance
                  (polledDistance w s.hangerDistance s.echoIdx k) = false →
              s.sysConfig.motorTimeout < transitElapsed w s k →
              retractHanger w fuel s
                = some { s with currentState := HangerState.RETRACTED, relay := false,
                                hangerDistance :=
                                  polledDistance w s.hangerDistance s.echoIdx k,
                                echoIdx := s.echoIdx + (k + 1),
                                clockIdx := s.clockIdx + 1 + (k + 1),
                                log := s.log ++ [Event.retractCall] ++ [Event.relayWrite true]
                                        ++ [Event.motorTimeoutError]
                                        ++ [Event.relayWrite false] })) :=
  ⟨fun hc hpre => ⟨extendHanger_runs_on w k s hc hpre,
      fun hk hb ht => extendHanger_times_out w fuel k s hc hk hpre hb ht⟩,
    fun hc hpre => ⟨retractHanger_runs_on w k s hc hpre,
      fun hk hb ht => retractHanger_times_out w fuel k s hc hk hpre hb ht⟩⟩

/-- C27 (witness): the world of the counterexample: one poll at elapsed time
30000 goes on, the second poll at 30100 switches the relay off. -/
theorem transit_timeout_boundary_witness :
    extendHanger exactTimeoutWorld 1 bootState = none
      ∧ (extendHanger exactTimeoutWorld 5 bootState).map (fun s => (s.echoIdx, s.relay))
        = some (2, false) := by
  have h := (transit_timeout_boundary exactTimeoutWorld 5 1 bootState).1 (by decide)
    (by decide!)
  refine ⟨h.1, ?_⟩
  rw [h.2 (by decide) (by decide!) (by decide!)]
  decide!

theorem extendLoop_terminates (w : World) (st0 : Nat) :
    ∀ (n fuel : Nat) (s : State),
      (∀ i, w.clock (s.clockIdx + i) + 100 ≤ w.clock (s.clockIdx + i + 1)) →
      (∀ i, w.clock (s.clockIdx + i + 1) - w.clock (s.clockIdx + i) + s.sysConfig.motorTimeout
          < ULONG_MOD) →
      st0 ≤ w.clock s.clockIdx → w.clock s.clockIdx - st0 < ULONG_MOD →
      s.sysConfig.motorTimeout + 1 ≤ (w.clock s.clockIdx - st0) + 100 * n →
      n + 1 ≤ fuel →
      ∃ r, extendLoop w (st0 % ULONG_MOD) fuel s = some r
        ∧ s.echoIdx < r.echoIdx ∧ r.echoIdx ≤ s.echoIdx + (n + 1) := by
  intro n
  induction n with
  | zero =>
    intro fuel s _ _ h0 hlt hn hf
    obtain ⟨f, rfl⟩ : ∃ f, fuel = f + 1 := ⟨fuel - 1, by omega⟩
    cases hb : inBand s.sysConfig.distanceExtended s.sysConfig.distanceTolerance
        (nextDistance w s.hangerDistance s.echoIdx) with
    | true =>
      rw [extendLoop_hit w _ f s hb]
      exact ⟨_, rfl, Nat.lt_succ_self _, Nat.le_refl _⟩
    | false =>
      have ht : usub (w.clock s.clockIdx % ULONG_MOD) (st0 % ULONG_MOD)
          > s.sysConfig.motorTimeout := by
        rw [usub_of_le _ _ h0 (by omega)]
        omega
      rw [extendLoop_expire w _ f s hb ht]
      exact ⟨_, rfl, Nat.lt_succ_self _, Nat.le_refl _⟩
  | succ n ih =>
    intro fuel s hmono hgap h0 hlt hn hf
    obtain ⟨f, rfl⟩ : ∃ f, fuel = f + 1 := ⟨fuel - 1, by omega⟩
    cases hb : inBand s.sysConfig.distanceExtended s.sysConfig.distanceTolerance
        (nextDistance w s.hangerDistance s.echoIdx) with
    | true =>
      rw [extendLoop_hit w _ f s hb]
      exact ⟨_, rfl, Nat.lt_succ_self _, by simp⟩
    | false =>
      by_cases ht : usub (w.clock s.clockIdx % ULONG_MOD) (st0 % ULONG_MOD)
          > s.sysConfig.motorTimeout
      · rw [extendLoop_expire w _ f s hb ht]
        exact ⟨_, rfl, Nat.lt_succ_self _, by simp⟩
      · rw [extendLoop_step w _ f s hb ht]
        rw [usub_of_le _ _ h0 (by omega)] at ht
        have hm0 := hmono 0
        have hg0 := hgap 0
        simp only [Nat.add_zero] at hm0 hg0
        obtain ⟨r, hr, hr1, hr2⟩ := ih f
          { s with hangerDistance := nextDistance w s.hangerDistance s.echoIdx,
                   echoIdx := s.echoIdx + 1, clockIdx := s.clockIdx + 1 }
          (by
            intro i
            have := hmono (i + 1)
            rw [show s.clockIdx + (i + 1) = s.clockIdx + 1 + i by omega] at this
            exact this)
          (by
            intro i
            have := hgap (i + 1)
            rw [show s.clockIdx + (i + 1) = s.clockIdx + 1 + i by omega] at this
            exact this)
          (by show st0 ≤ w.clock (s.clockIdx + 1); omega)
          (by show w.clock (s.clockIdx + 1) - st0 < ULONG_MOD; omega)
          (by
            show s.sysConfig.motorTimeout + 1 ≤ (w.clock (s.clockIdx + 1) - st0) + 100 * n
            omega)
          (by omega)
        refine ⟨r, hr, ?_, ?_⟩
        · have : s.echoIdx + 1 < r.echoIdx := hr1
          omega
        · have : r.echoIdx ≤ s.echoIdx + 1 + (n + 1) := hr2
          omega

theorem extendHanger_terminates (w : World) (fuel : Nat) (s : State)
    (hc : s.currentState ≠ HangerState.EXTENDED)
    (hclock : ClockAdvances w s.clockIdx s.sysConfig.motorTimeout)
    (hf : s.sysConfig.motorTimeout / 100 + 2 ≤ fuel) :
    ∃ s1, extendHanger w fuel s = some s1
      ∧ s1.relay = false
      ∧ s.echoIdx < s1.echoIdx
      ∧ s1.echoIdx ≤ s.echoIdx + (s.sysConfig.motorTimeout / 100 + 2) := by
  obtain ⟨h1, h2, h3⟩ := hclock
  have hg0 := h3 0
  simp only [Nat.add_zero] at hg0
  obtain ⟨r, hr, hr1, hr2⟩ := extendLoop_terminates w (w.clock s.clockIdx)
    (s.sysConfig.motorTimeout / 100 + 1) fuel
    (millis w (digitalWriteRelay true (s.emit Event.extendCall))).2
    (by
      intro i
      exact h2 i)
    (by
      intro i
      have := h3 (i + 1)
      rw [show s.clockIdx + (i + 1) = s.clockIdx + 1 + i by omega] at this
      exact this)
    (by show w.clock s.clockIdx ≤ w.clock (s.clockIdx + 1); exact h1)
    (by show w.clock (s.clockIdx + 1) - w.clock s.clockIdx < ULONG_MOD; omega)
    (by
      show s.sysConfig.motorTimeout + 1
        ≤ (w.clock (s.clockIdx + 1) - w.clock s.clockIdx)
            + 100 * (s.sysConfig.motorTimeout / 100 + 1)
      have := Nat.div_add_mod s.sysConfig.motorTimeout 100
      have := Nat.mod_lt s.sysConfig.motorTimeout (show 100 > 0 by decide)
      omega)
    (by omega)
  have hx := extendHanger_of_loop w fuel s r hc hr
  refine ⟨_, hx, rfl, ?_, ?_⟩
  · exact hr1
  · exact hr2


theorem retractLoop_terminates (w : World) (st0 : Nat) :
    ∀ (n fuel : Nat) (s : State),
      (∀ i, w.clock (s.clockIdx + i) + 100 ≤ w.clock (s.clockIdx + i + 1)) →
      (∀ i, w.clock (s.clockIdx + i + 1) - w.clock (s.clockIdx + i) + s.sysConfig.motorTimeout
          < ULONG_MOD) →
      st0 ≤ w.clock s.clockIdx → w.clock s.clockIdx - st0 < ULONG_MOD →
      s.sysConfig.motorTimeout + 1 ≤ (w.clock s.clockIdx - st0) + 100 * n →
      n + 1 ≤ fuel →
      ∃ r, retractLoop w (st0 % ULONG_MOD) fuel s = some r
        ∧ s.echoIdx < r.echoIdx ∧ r.echoIdx ≤ s.echoIdx + (n + 1) := by
  intro n
  induction n with
  | zero =>
    intro fuel s _ _ h0 hlt hn hf
    obtain ⟨f, rfl⟩ : ∃ f, fuel = f + 1 := ⟨fuel - 1, by omega⟩
    cases hb : inBand s.sysConfig.distanceRetracted s.sysConfig.distanceTolerance
        (nextDistance w s.hangerDistance s.echoIdx) with
    | true =>
      rw [retractLoop_hit w _ f s hb]
      exact ⟨_, rfl, Nat.lt_succ_self _, Nat.le_refl _⟩
    | false =>
      have ht : usub (w.clock s.clockIdx % ULONG_MOD) (st0 % ULONG_MOD)
          > s.sysConfig.motorTimeout := by
        rw [usub_of_le _ _ h0 (by omega)]
        omega
      rw [retractLoop_expire w _ f s hb ht]
      exact ⟨_, rfl, Nat.lt_succ_self _, Nat.le_refl _⟩
  | succ n ih =>
    intro fuel s hmono hgap h0 hlt hn hf
    obtain ⟨f, rfl⟩ : ∃ f, fuel = f + 1 := ⟨fuel - 1, by omega⟩
    cases hb : inBand s.sysConfig.distanceRetracted s.sysConfig.distanceTolerance
        (nextDistance w s.hangerDistance s.echoIdx) with
    | true =>
      rw [retractLoop_hit w _ f s hb]
      exact ⟨_, rfl, Nat.lt_succ_self _, by simp⟩
    | false =>
      by_cases ht : usub (w.clock s.clockIdx % ULONG_MOD) (st0 % ULONG_MOD)
          > s.sysConfig.motorTimeout
      · rw [retractLoop_expire w _ f s hb ht]
        exact ⟨_, rfl, Nat.lt_succ_self _, by simp⟩
      · rw [retractLoop_step w _ f s hb ht]
        rw [usub_of_le _ _ h0 (by omega)] at ht
        have hm0 := hmono 0
        have hg0 := hgap 0
        simp only [Nat.add_zero] at hm0 hg0
        obtain ⟨r, hr, hr1, hr2⟩ := ih f
          { s with hangerDistance := nextDistance w s.hangerDistance s.echoIdx,
                   echoIdx := s.echoIdx + 1, clockIdx := s.clockIdx + 1 }
          (by
            intro i
            have := hmono (i + 1)
            rw [show s.clockIdx + (i + 1) = s.clockIdx + 1 + i by omega] at this
            exact this)
          (by
            intro i
            have := hgap (i + 1)
            rw [show s.clockIdx + (i + 1) = s.clockIdx + 1 + i by omega] at this
            exact this)
          (by show st0 ≤ w.clock (s.clockIdx + 1); omega)
          (by show w.clock (s.clockIdx + 1) - st0 < ULONG_MOD; omega)
          (by
            show s.sysConfig.motorTimeout + 1 ≤ (w.clock (s.clockIdx + 1) - st0) + 100 * n
            omega)
          (by omega)
        refine ⟨r, hr, ?_, ?_⟩
        · have : s.echoIdx + 1 < r.echoIdx := hr1
          omega
        · have : r.echoIdx ≤ s.echoIdx + 1 + (n + 1) := hr2
          omega

theorem retractHanger_terminates (w : World) (fuel : Nat) (s : State)
    (hc : s.currentState ≠ HangerState.RETRACTED)
    (hclock : ClockAdvances w s.clockIdx s.sysConfig.motorTimeout)
    (hf : s.sysConfig.motorTimeout / 100 + 2 ≤ fuel) :
    ∃ s1, retractHanger w fuel s = some s1
      ∧ s1.relay = false
      ∧ s.echoIdx < s1.echoIdx
      ∧ s1.echoIdx ≤ s.echoIdx + (s.sysConfig.motorTimeout / 100 + 2) := by
  obtain ⟨h1, h2, h3⟩ := hclock
  have hg0 := h3 0
  simp only [Nat.add_zero] at hg0
  obtain ⟨r, hr, hr1, hr2⟩ := retractLoop_terminates w (w.clock s.clockIdx)
    (s.sysConfig.motorTimeout / 100 + 1) fuel
    (millis w (digitalWriteRelay true (s.emit Event.retractCall))).2
    (by
      intro i
      exact h2 i)
    (by
      intro i
      have := h3 (i + 1)
      rw [show s.clockIdx + (i + 1) = s.clockIdx + 1 + i by omega] at this
      exact this)
    (by show w.clock s.clockIdx ≤ w.clock (s.clockIdx + 1); exact h1)
    (by show w.clock (s.clockIdx + 1) - w.clock s.clockIdx < ULONG_MOD; omega)
    (by
      show s.sysConfig.motorTimeout + 1
        ≤ (w.clock (s.clockIdx + 1) - w.clock s.clockIdx)
            + 100 * (s.sysConfig.motorTimeout / 100 + 1)
      have := Nat.div_add_mod s.sysConfig.motorTimeout 100
      have := Nat.mod_lt s.sysConfig.motorTimeout (show 100 > 0 by decide)
      omega)
    (by omega)
  have hx := retractHanger_of_loop w fuel s r hc hr
  refine ⟨_, hx, rfl, ?_, ?_⟩
  · exact hr1
  · exact hr2

/-! ## C28 -/

/-- C28: Position differs from the target, the readings are arbitrary, and
the clock advances by at least 100 ms between consecutive polls (no step being
long enough to wrap the 32-bit counter past the timeout). Then `extendHanger`
and `retractHanger` return for every fuel of at least
`motorTimeout / 100 + 2`, with the relay off, after at least one and at most
`motorTimeout / 100 + 2` polls. -/
theorem transit_terminates (w : World) (fuel : Nat) (s : State)
    (hclock : ClockAdvances w s.clockIdx s.sysConfig.motorTimeout)
    (hf : s.sysConfig.motorTimeout / 100 + 2 ≤ fuel) :
    (s.currentState ≠ HangerState.EXTENDED →
        ∃ s1, extendHanger w fuel s = some s1
          ∧ s1.relay = false
          ∧ s.echoIdx < s1.echoIdx
          ∧ s1.echoIdx ≤ s.echoIdx + (s.sysConfig.motorTimeout / 100 + 2))
      ∧ (s.currentState ≠ HangerState.RETRACTED →
        ∃ s1, retractHanger w fuel s = some s1
          ∧ s1.relay = false
          ∧ s.echoIdx < s1.echoIdx
          ∧ s1.echoIdx ≤ s.echoIdx + (s.sysConfig.motorTimeout / 100 + 2)) :=
  ⟨fun hc => extendHanger_terminates w fuel s hc hclock hf,
    fun hc => retractHanger_terminates w fuel s hc hclock hf⟩

/-- C28 (witness): a sensor stuck at about 18 cm and a clock advancing
exactly 100 ms per read, timeout 30000 ms: `extendHanger` returns within 302
polls. -/
theorem transit_terminates_witness :
    ClockAdvances (steadyWorld 1059) bootState.clockIdx bootState.sysConfig.motorTimeout
      ∧ ∃ s1, extendHanger (steadyWorld 1059) 302 bootState = some s1
          ∧ s1.relay = false
          ∧ bootState.echoIdx < s1.echoIdx
          ∧ s1.echoIdx ≤ bootState.echoIdx + (bootState.sysConfig.motorTimeout / 100 + 2) := by
  have hclock : ClockAdvances (steadyWorld 1059) bootState.clockIdx
      bootState.sysConfig.motorTimeout := by
    refine ⟨by decide, ?_, ?_⟩
    · intro i
      show 100 * (0 + 1 + i) + 100 ≤ 100 * (0 + 1 + i + 1)
      omega
    · intro i
      show 100 * (0 + i + 1) - 100 * (0 + i) + 30000 < 4294967296
      omega
  exact ⟨hclock, (transit_terminates (steadyWorld 1059) 302 bootState hclock (by decide)).1
    (by decide)⟩

/-! ## Returning from the listener -/

theorem extendHanger_returns (w : World) (fuel : Nat) (s : State)
    (hclock : ClockAdvances w s.clockIdx s.sysConfig.motorTimeout)
    (hf : s.sysConfig.motorTimeout / 100 + 2 ≤ fuel) :
    ∃ s1, extendHanger w fuel s = some s1 := by
  by_cases hc : s.currentState = HangerState.EXTENDED
  · exact ⟨{ s with log := s.log ++ [Event.extendCall] },
      by simp [extendHanger, State.emit, hc]⟩
  · obtain ⟨s1, h1, _⟩ := extendHanger_terminates w fuel s hc hclock hf
    exact ⟨s1, h1⟩

theorem retractHanger_returns (w : World) (fuel : Nat) (s : State)
    (hclock : ClockAdvances w s.clockIdx s.sysConfig.motorTimeout)
    (hf : s.sysConfig.motorTimeout / 100 + 2 ≤ fuel) :
    ∃ s1, retractHanger w fuel s = some s1 := by
  by_cases hc : s.currentState = HangerState.RETRACTED
  · exact ⟨{ s with log := s.log ++ [Event.retractCall] },
      by simp [retractHanger, State.emit, hc]⟩
  · obtain ⟨s1, h1, _⟩ := retractHanger_terminates w fuel s hc hclock hf
    exact ⟨s1, h1⟩

theorem handleRequestedState_shape (w : World) (fuel : Nat) (json : FirebaseJson)
    (p : State × Bool) :
    handleRequestedState w fuel json p = some p
      ∨ handleRequestedState w fuel json p
        = (extendHanger w fuel (beginManualCommand "extend" HangerState.EXTENDED p.1)).map
            (fun s1 => (s1, true))
      ∨ handleRequestedState w fuel json p
        = (retractHanger w fuel (beginManualCommand "retract" HangerState.RETRACTED p.1)).map
            (fun s1 => (s1, true)) := by
  unfold handleRequestedState
  cases json.requestedState with
  | none => exact Or.inl rfl
  | some d =>
    dsimp only
    split
    · split
      · split
        · exact Or.inr (Or.inl rfl)
        · split
          · exact Or.inr (Or.inr rfl)
          · exact Or.inl rfl
      · exact Or.inl rfl
    · exact Or.inl rfl

theorem listen_returns (w : World) (fuel : Nat) (s : State)
    (hclock : ClockAdvances w s.clockIdx (afterConfigSync s).sysConfig.motorTimeout)
    (hf : (afterConfigSync s).sysConfig.motorTimeout / 100 + 2 ≤ fuel) :
    ∃ s1, listenForFirebaseConfigChanges w fuel s = some s1 := by
  unfold listenForFirebaseConfigChanges
  simp only [isFirebaseConnected]
  by_cases hr : w.fbReady s.fbReadyIdx = true
  · simp only [hr, Bool.not_true, Bool.false_eq_true, if_false]
    by_cases hg : w.fbGet s.fbGetIdx = true
    · simp only [hg, if_true]
      obtain ⟨c, mm, hcfg, _, _⟩ := applyRemoteConfig_spec s.remote
        { s with fbReadyIdx := s.fbReadyIdx + 1, fbGetIdx := s.fbGetIdx + 1 }
      have hck : (applyRemoteConfig s.remote
          { s with fbReadyIdx := s.fbReadyIdx + 1, fbGetIdx := s.fbGetIdx + 1 }).1.clockIdx
          = s.clockIdx := by rw [hcfg]
      rcases handleRequestedState_shape w fuel s.remote (applyRemoteConfig s.remote
          { s with fbReadyIdx := s.fbReadyIdx + 1, fbGetIdx := s.fbGetIdx + 1 })
        with e | e | e
      · rw [e]
        exact ⟨_, rfl⟩
      · obtain ⟨m, hm⟩ := extendHanger_returns w fuel
          (beginManualCommand "extend" HangerState.EXTENDED (applyRemoteConfig s.remote
            { s with fbReadyIdx := s.fbReadyIdx + 1, fbGetIdx := s.fbGetIdx + 1 }).1)
          (by
            show ClockAdvances w (applyRemoteConfig s.remote _).1.clockIdx
              (afterConfigSync s).sysConfig.motorTimeout
            rw [hck]
            exact hclock)
          hf
        rw [e, hm]
        exact ⟨_, rfl⟩
      · obtain ⟨m, hm⟩ := retractHanger_returns w fuel
          (beginManualCommand "retract" HangerState.RETRACTED (applyRemoteConfig s.remote
            { s with fbReadyIdx := s.fbReadyIdx + 1, fbGetIdx := s.fbGetIdx + 1 }).1)
          (by
            show ClockAdvances w (applyRemoteConfig s.remote _).1.clockIdx
              (afterConfigSync s).sysConfig.motorTimeout
            rw [hck]
            exact hclock)
          hf
        rw [e, hm]
        exact ⟨_, rfl⟩
    · simp only [hg, Bool.false_eq_true, if_false]
      exact ⟨_, rfl⟩
  · simp only [hr, Bool.not_false, if_true]
    exact ⟨_, rfl⟩

/-! ## C29 -/

/-- C29: `initializeBasicModules` establishes `manualMode = !autoMode`, and
`listenForFirebaseConfigChanges` keeps it: from every state with
`manualMode = !sysConfig.autoMode` and for every remote record, the equation
holds in the state the call returns, whether it applied a remote `autoMode`,
accepted a manual command, both, or neither. The call does return when the
clock advances by at least 100 ms between the polls of a transit and the fuel
covers `motorTimeout / 100 + 2` polls. -/
theorem mirror_flag_consistent (w : World) (fuel : Nat) (s : State)
    (stored : SystemConfig) :
    (initializeBasicModules stored s).manualMode
        = !(initializeBasicModules stored s).sysConfig.autoMode
      ∧ (ClockAdvances w s.clockIdx (afterConfigSync s).sysConfig.motorTimeout →
          (afterConfigSync s).sysConfig.motorTimeout / 100 + 2 ≤ fuel →
          ∃ s1, listenForFirebaseConfigChanges w fuel s = some s1)
      ∧ (∀ s1, s.manualMode = !s.sysConfig.autoMode →
          listenForFirebaseConfigChanges w fuel s = some s1 →
          s1.manualMode = !s1.sysConfig.autoMode) := by
  refine ⟨rfl, fun hclock hf => listen_returns w fuel s hclock hf, ?_⟩
  intro s1 hinv h
  unfold listenForFirebaseConfigChanges at h
  simp only [isFirebaseConnected] at h
  by_cases hr : w.fbReady s.fbReadyIdx = true
  · simp only [hr, Bool.not_true, Bool.false_eq_true, if_false] at h
    by_cases hg : w.fbGet s.fbGetIdx = true
    · simp only [hg, if_true] at h
      obtain ⟨q, hq, rfl⟩ := Option.map_eq_some'.mp h
      obtain ⟨c, mm, hcfg, _, hauto⟩ := applyRemoteConfig_spec s.remote
        { s with fbReadyIdx := s.fbReadyIdx + 1, fbGetIdx := s.fbGetIdx + 1 }
      have hp : (applyRemoteConfig s.remote
          { s with fbReadyIdx := s.fbReadyIdx + 1, fbGetIdx := s.fbGetIdx + 1 }).1.manualMode
          = !(applyRemoteConfig s.remote
          { s with fbReadyIdx := s.fbReadyIdx + 1, fbGetIdx := s.fbGetIdx + 1
            }).1.sysConfig.autoMode := by
        rw [hcfg]
        rcases hauto with ⟨a1, a2⟩ | ⟨d, _, _, a1, a2⟩
        · show mm = !c.autoMode
          rw [a1, a2]
          exact hinv
        · show mm = !c.autoMode
          rw [a1, a2]
      obtain ⟨⟨⟨e1, e2, _⟩, _, _⟩, _⟩ := saveIfChanged_effect w q
      rw [e1, e2]
      rcases handleRequestedState_cases w fuel s.remote _ q hq with rfl | ⟨_, m, hm, rfl⟩
          | ⟨_, m, hm, rfl⟩
      · exact hp
      · rcases extendHanger_frame w fuel _ m hm with ⟨_, rfl⟩ | ⟨_, d, e, c, ev, rfl, _⟩ <;> rfl
      · rcases retractHanger_frame w fuel _ m hm with ⟨_, rfl⟩ | ⟨_, d, e, c, ev, rfl, _⟩ <;> rfl
    · simp only [hg, Bool.false_eq_true, if_false, Option.some.injEq] at h
      subst h
      exact hinv
  · simp only [hr, Bool.not_false, if_true, Option.some.injEq] at h
    subst h
    exact hinv

/-- C29 (witness): a remote record that switches automatic mode on and asks
for "retract" at once, and a remote record that switches automatic mode off:
in both cases the listener returns with `manualMode = !autoMode`. -/
theorem mirror_flag_consistent_witness :
    (∃ s1, listenForFirebaseConfigChanges (steadyWorld 1176) 1 autoAndRetractRequested
          = some s1
        ∧ s1.manualMode = !s1.sysConfig.autoMode)
      ∧ ∃ s1, listenForFirebaseConfigChanges (steadyWorld 1176) 1 autoOffRequested = some s1
          ∧ s1.manualMode = !s1.sysConfig.autoMode := by
  have h : (listenForFirebaseConfigChanges (steadyWorld 1176) 1 autoAndRetractRequested).isSome
      = true := by decide!
  have h2 : (listenForFirebaseConfigChanges (steadyWorld 1176) 1 autoOffRequested).isSome
      = true := by decide!
  obtain ⟨a, ha⟩ := Option.isSome_iff_exists.mp h
  obtain ⟨b, hb⟩ := Option.isSome_iff_exists.mp h2
  exact ⟨⟨a, ha, (mirror_flag_consistent (steadyWorld 1176) 1 autoAndRetractRequested
      defaultConfig).2.2 a rfl ha⟩,
    ⟨b, hb, (mirror_flag_consistent (steadyWorld 1176) 1 autoOffRequested
      defaultConfig).2.2 b rfl hb⟩⟩

/-! ## C30 -/

/-- C30: a start time `t0` is stored as the 32-bit counter showed it, and
the clock read of the test falls a true elapsed time `e < 2^32` later. Then
(1) the unsigned difference of the two counter values is `e`, wrap or no wrap;
(2) a poll of the transit loops whose reading is out of band leaves through
the timeout branch exactly when `e > motorTimeout`; (3) `readPIR` without an
impulse reports the user absent exactly when `e > 10000`; (4) the delayed
occupancy action fires exactly when `e >= delay`. -/
theorem elapsed_tests_across_wrap (w : World) (fuel : Nat) (s : State) (t0 e : Nat)
    (he : e < ULONG_MOD) (hnow : w.clock s.clockIdx = t0 + e) :
    usub ((t0 + e) % ULONG_MOD) (t0 % ULONG_MOD) = e
      ∧ (inBand s.sysConfig.distanceExtended s.sysConfig.distanceTolerance
            (nextDistance w s.hangerDistance s.echoIdx) = false →
          extendLoop w (t0 % ULONG_MOD) (fuel + 1) s
            = if e > s.sysConfig.motorTimeout then
                some { s with hangerDistance := nextDistance w s.hangerDistance s.echoIdx,
                              echoIdx := s.echoIdx + 1, clockIdx := s.clockIdx + 1,
                              log := s.log ++ [Event.motorTimeoutError] }
              else
                extendLoop w (t0 % ULONG_MOD) fuel
                  { s with hangerDistance := nextDistance w s.hangerDistance s.echoIdx,
                           echoIdx := s.echoIdx + 1, clockIdx := s.clockIdx + 1 })
      ∧ (inBand s.sysConfig.distanceRetracted s.sysConfig.distanceTolerance
            (nextDistance w s.hangerDistance s.echoIdx) = false →
          retractLoop w (t0 % ULONG_MOD) (fuel + 1) s
            = if e > s.sysConfig.motorTimeout then
                some { s with hangerDistance := nextDistance w s.hangerDistance s.echoIdx,
                              echoIdx := s.echoIdx + 1, clockIdx := s.clockIdx + 1,
                              log := s.log ++ [Event.motorTimeoutError] }
              else
                retractLoop w (t0 % ULONG_MOD) fuel
                  { s with hangerDistance := nextDistance w s.hangerDistance s.echoIdx,
                           echoIdx := s.echoIdx + 1, clockIdx := s.clockIdx + 1 })
      ∧ (w.pir s.pirIdx = false → s.motionDetectedTime = t0 % ULONG_MOD →
          (readPIR w s).userPresent = !decide (e > 10000))
      ∧ (s.pirDelayActive = true → s.pirDelayStartTime = t0 % ULONG_MOD →
          ∀ delay, pirDelayedAction w fuel delay s
            = if e ≥ delay then
                (executePirAction w fuel (millis w s).2).map fun s1 =>
                  { (millis w { s1 with pirDelayActive := false }).2 with
                      lastPirAction := (millis w { s1 with pirDelayActive := false }).1 }
              else some (millis w s).2) := by
  have hu : usub ((t0 + e) % ULONG_MOD) (t0 % ULONG_MOD) = e := by
    rw [usub_of_le (t0 + e) t0 (by omega) (by omega)]
    omega
  have hu2 : usub (w.clock s.clockIdx % ULONG_MOD) (t0 % ULONG_MOD) = e := by
    rw [hnow]
    exact hu
  refine ⟨hu, ?_, ?_, ?_, ?_⟩
  · intro hb
    by_cases ht : e > s.sysConfig.motorTimeout
    · rw [if_pos ht, extendLoop_expire w _ fuel s hb (by rw [hu2]; exact ht)]
    · rw [if_neg ht, extendLoop_step w _ fuel s hb (by rw [hu2]; exact ht)]
  · intro hb
    by_cases ht : e > s.sysConfig.motorTimeout
    · rw [if_pos ht, retractLoop_expire w _ fuel s hb (by rw [hu2]; exact ht)]
    · rw [if_neg ht, retractLoop_step w _ fuel s hb (by rw [hu2]; exact ht)]
  · intro hp hm
    have hu3 : usub (w.clock s.clockIdx % ULONG_MOD) s.motionDetectedTime = e := by
      rw [hm]
      exact hu2
    by_cases ht : e > 10000
    · simp [readPIR, hp, millis, hu3, MOTION_TIMEOUT, ht]
    · simp [readPIR, hp, millis, hu3, MOTION_TIMEOUT, ht]
  · intro ha hs delay
    have hu3 : usub (w.clock s.clockIdx % ULONG_MOD) s.pirDelayStartTime = e := by
      rw [hs]
      exact hu2
    unfold pirDelayedAction
    simp only [ha, if_true, millis, hu3]

/-- C30 (witness): the start time is 4294967000 and the test is made 500 ms
later, after the counter has wrapped to 204: the difference is 500, and
`readPIR` still reports the user present. -/
theorem elapsed_tests_across_wrap_witness :
    usub ((4294967000 + 500) % ULONG_MOD) (4294967000 % ULONG_MOD) = 500
      ∧ (readPIR wrapWorld armedBeforeWrap).userPresent = !decide (500 > 10000) :=
  ⟨(elapsed_tests_across_wrap wrapWorld 1 armedBeforeWrap 4294967000 500 (by decide) rfl).1,
    (elapsed_tests_across_wrap wrapWorld 1 armedBeforeWrap 4294967000 500 (by decide)
      rfl).2.2.2.1 rfl rfl⟩

/-! ## Which remote fields raise `configChanged` -/

theorem cfgAutoMode_changed (json : FirebaseJson) (p : State × Bool) :
    ((cfgAutoMode json p).2 = (p.2 || acceptsBool json.autoMode p.1.sysConfig.autoMode))
      ∧ (cfgAutoMode json p).1.sysConfig.motorTimeout = p.1.sysConfig.motorTimeout
      ∧ (cfgAutoMode json p).1.sysConfig.sensorReadInterval = p.1.sysConfig.sensorReadInterval
      ∧ (cfgAutoMode json p).1.sysConfig.distanceExtended = p.1.sysConfig.distanceExtended
      ∧ (cfgAutoMode json p).1.sysConfig.distanceRetracted = p.1.sysConfig.distanceRetracted
      ∧ (cfgAutoMode json p).1.sysConfig.distanceTolerance = p.1.sysConfig.distanceTolerance
      ∧ (cfgAutoMode json p).1.sysConfig.deviceName = p.1.sysConfig.deviceName
      ∧ (cfgAutoMode json p).1.sysConfig.deviceLocation = p.1.sysConfig.deviceLocation
      ∧ (cfgAutoMode json p).1.sysConfig.useCustomThresholds = p.1.sysConfig.useCustomThresholds
      ∧ (cfgAutoMode json p).1.sysConfig.tempMinThreshold = p.1.sysConfig.tempMinThreshold
      ∧ (cfgAutoMode json p).1.sysConfig.tempMaxThreshold = p.1.sysConfig.tempMaxThreshold
      ∧ (cfgAutoMode json p).1.sysConfig.humidityMinThreshold = p.1.sysConfig.humidityMinThreshold
      ∧ (cfgAutoMode json p).1.sysConfig.humidityMaxThreshold = p.1.sysConfig.humidityMaxThreshold
      ∧ (cfgAutoMode json p).1.sysConfig.enablePirControl = p.1.sysConfig.enablePirControl
      ∧ (cfgAutoMode json p).1.sysConfig.retractOnUserPresent = p.1.sysConfig.retractOnUserPresent
      ∧ (cfgAutoMode json p).1.sysConfig.pirRetractDelay = p.1.sysConfig.pirRetractDelay := by
  unfold cfgAutoMode acceptsBool
  cases json.autoMode with
  | none => simp
  | some d =>
    dsimp only
    split
    · rename_i hc
      simp_all
    · rename_i hc
      simp_all

theorem cfgMotorTimeout_changed (json : FirebaseJson) (p : State × Bool) :
    ((cfgMotorTimeout json p).2 = (p.2 || acceptsULong json.motorTimeout 1 300000 p.1.sysConfig.motorTimeout))
      ∧ (cfgMotorTimeout json p).1.sysConfig.sensorReadInterval = p.1.sysConfig.sensorReadInterval
      ∧ (cfgMotorTimeout json p).1.sysConfig.distanceExtended = p.1.sysConfig.distanceExtended
      ∧ (cfgMotorTimeout json p).1.sysConfig.distanceRetracted = p.1.sysConfig.distanceRetracted
      ∧ (cfgMotorTimeout json p).1.sysConfig.distanceTolerance = p.1.sysConfig.distanceTolerance
      ∧ (cfgMotorTimeout json p).1.sysConfig.deviceName = p.1.sysConfig.deviceName
      ∧ (cfgMotorTimeout json p).1.sysConfig.deviceLocation = p.1.sysConfig.deviceLocation
      ∧ (cfgMotorTimeout json p).1.sysConfig.useCustomThresholds = p.1.sysConfig.useCustomThresholds
      ∧ (cfgMotorTimeout json p).1.sysConfig.tempMinThreshold = p.1.sysConfig.tempMinThreshold
      ∧ (cfgMotorTimeout json p).1.sysConfig.tempMaxThreshold = p.1.sysConfig.tempMaxThreshold
      ∧ (cfgMotorTimeout json p).1.sysConfig.humidityMinThreshold = p.1.sysConfig.humidityMinThreshold
      ∧ (cfgMotorTimeout json p).1.sysConfig.humidityMaxThreshold = p.1.sysConfig.humidityMaxThreshold
      ∧ (cfgMotorTimeout json p).1.sysConfig.enablePirControl = p.1.sysConfig.enablePirControl
      ∧ (cfgMotorTimeout json p).1.sysConfig.retractOnUserPresent = p.1.sysConfig.retractOnUserPresent
      ∧ (cfgMotorTimeout json p).1.sysConfig.pirRetractDelay = p.1.sysConfig.pirRetractDelay := by
  unfold cfgMotorTimeout acceptsULong
  cases json.motorTimeout with
  | none => simp
  | some d =>
    dsimp only
    split
    · rename_i hc
      simp_all
      right; omega
    · rename_i hc
      simp_all
      intro h1 h2 h3 h4
      have := hc h1 h2 (by omega)
      omega

theorem cfgSensorReadInterval_changed (json : FirebaseJson) (p : State × Bool) :
    ((cfgSensorReadInterval json p).2 = (p.2 || acceptsULong json.sensorReadInterval 1000 60000 p.1.sysConfig.sensorReadInterval))
      ∧ (cfgSensorReadInterval json p).1.sysConfig.distanceExtended = p.1.sysConfig.distanceExtended
      ∧ (cfgSensorReadInterval json p).1.sysConfig.distanceRetracted = p.1.sysConfig.distanceRetracted
      ∧ (cfgSensorReadInterval json p).1.sysConfig.distanceTolerance = p.1.sysConfig.distanceTolerance
      ∧ (cfgSensorReadInterval json p).1.sysConfig.deviceName = p.1.sysConfig.deviceName
      ∧ (cfgSensorReadInterval json p).1.sysConfig.deviceLocation = p.1.sysConfig.deviceLocation
      ∧ (cfgSensorReadInterval json p).1.sysConfig.useCustomThresholds = p.1.sysConfig.useCustomThresholds
      ∧ (cfgSensorReadInterval json p).1.sysConfig.tempMinThreshold = p.1.sysConfig.tempMinThreshold
      ∧ (cfgSensorReadInterval json p).1.sysConfig.tempMaxThreshold = p.1.sysConfig.tempMaxThreshold
      ∧ (cfgSensorReadInterval json p).1.sysConfig.humidityMinThreshold = p.1.sysConfig.humidityMinThreshold
      ∧ (cfgSensorReadInterval json p).1.sysConfig.humidityMaxThreshold = p.1.sysConfig.humidityMaxThreshold
      ∧ (cfgSensorReadInterval json p).1.sysConfig.enablePirControl = p.1.sysConfig.enablePirControl
      ∧ (cfgSensorReadInterval json p).1.sysConfig.retractOnUserPresent = p.1.sysConfig.retractOnUserPresent
      ∧ (cfgSensorReadInterval json p).1.sysConfig.pirRetractDelay = p.1.sysConfig.pirRetractDelay := by
  unfold cfgSensorReadInterval acceptsULong
  cases json.sensorReadInterval with
  | none => simp
  | some d =>
    dsimp only
    split
    · rename_i hc
      simp_all
    · rename_i hc
      simp_all

theorem cfgDistanceExtended_changed (json : FirebaseJson) (p : State × Bool) :
    ((cfgDistanceExtended json p).2 = (p.2 || acceptsFloat json.distanceExtended (1 / 2) 10 200 p.1.sysConfig.distanceExtended))
      ∧ (cfgDistanceExtended json p).1.sysConfig.distanceRetracted = p.1.sysConfig.distanceRetracted
      ∧ (cfgDistanceExtended json p).1.sysConfig.distanceTolerance = p.1.sysConfig.distanceTolerance
      ∧ (cfgDistanceExtended json p).1.sysConfig.deviceName = p.1.sysConfig.deviceName
      ∧ (cfgDistanceExtended json p).1.sysConfig.deviceLocation = p.1.sysConfig.deviceLocation
      ∧ (cfgDistanceExtended json p).1.sysConfig.useCustomThresholds = p.1.sysConfig.useCustomThresholds
      ∧ (cfgDistanceExtended json p).1.sysConfig.tempMinThreshold = p.1.sysConfig.tempMinThreshold
      ∧ (cfgDistanceExtended json p).1.sysConfig.tempMaxThreshold = p.1.sysConfig.tempMaxThreshold
      ∧ (cfgDistanceExtended json p).1.sysConfig.humidityMinThreshold = p.1.sysConfig.humidityMinThreshold
      ∧ (cfgDistanceExtended json p).1.sysConfig.humidityMaxThreshold = p.1.sysConfig.humidityMaxThreshold
      ∧ (cfgDistanceExtended json p).1.sysConfig.enablePirControl = p.1.sysConfig.enablePirControl
      ∧ (cfgDistanceExtended json p).1.sysConfig.retractOnUserPresent = p.1.sysConfig.retractOnUserPresent
      ∧ (cfgDistanceExtended json p).1.sysConfig.pirRetractDelay = p.1.sysConfig.pirRetractDelay := by
  unfold cfgDistanceExtended acceptsFloat
  cases json.distanceExtended with
  | none => simp
  | some d =>
    dsimp only
    split
    · rename_i hc
      simp_all
    · rename_i hc
      simp_all

theorem cfgDistanceRetracted_changed (json : FirebaseJson) (p : State × Bool) :
    ((cfgDistanceRetracted json p).2 = (p.2 || acceptsFloat json.distanceRetracted (1 / 2) 5 100 p.1.sysConfig.distanceRetracted))
      ∧ (cfgDistanceRetracted json p).1.sysConfig.distanceTolerance = p.1.sysConfig.distanceTolerance
      ∧ (cfgDistanceRetracted json p).1.sysConfig.deviceName = p.1.sysConfig.deviceName
      ∧ (cfgDistanceRetracted json p).1.sysConfig.deviceLocation = p.1.sysConfig.deviceLocation
      ∧ (cfgDistanceRetracted json p).1.sysConfig.useCustomThresholds = p.1.sysConfig.useCustomThresholds
      ∧ (cfgDistanceRetracted json p).1.sysConfig.tempMinThreshold = p.1.sysConfig.tempMinThreshold
      ∧ (cfgDistanceRetracted json p).1.sysConfig.tempMaxThreshold = p.1.sysConfig.tempMaxThreshold
      ∧ (cfgDistanceRetracted json p).1.sysConfig.humidityMinThreshold = p.1.sysConfig.humidityMinThreshold
      ∧ (cfgDistanceRetracted json p).1.sysConfig.humidityMaxThreshold = p.1.sysConfig.humidityMaxThreshold
      ∧ (cfgDistanceRetracted json p).1.sysConfig.enablePirControl = p.1.sysConfig.enablePirControl
      ∧ (cfgDistanceRetracted json p).1.sysConfig.retractOnUserPresent = p.1.sysConfig.retractOnUserPresent
      ∧ (cfgDistanceRetracted json p).1.sysConfig.pirRetractDelay = p.1.sysConfig.pirRetractDelay := by
  unfold cfgDistanceRetracted acceptsFloat
  cases json.distanceRetracted with
  | none => simp
  | some d =>
    dsimp only
    split
    · rename_i hc
      simp_all
    · rename_i hc
      simp_all

theorem cfgDistanceTolerance_changed (json : FirebaseJson) (p : State × Bool) :
    ((cfgDistanceTolerance json p).2 = (p.2 || acceptsFloat json.distanceTolerance (1 / 2) 1 20 p.1.sysConfig.distanceTolerance))
      ∧ (cfgDistanceTolerance json p).1.sysConfig.deviceName = p.1.sysConfig.deviceName
      ∧ (cfgDistanceTolerance json p).1.sysConfig.deviceLocation = p.1.sysConfig.deviceLocation
      ∧ (cfgDistanceTolerance json p).1.sysConfig.useCustomThresholds = p.1.sysConfig.useCustomThresholds
      ∧ (cfgDistanceTolerance json p).1.sysConfig.tempMinThreshold = p.1.sysConfig.tempMinThreshold
      ∧ (cfgDistanceTolerance json p).1.sysConfig.tempMaxThreshold = p.1.sysConfig.tempMaxThreshold
      ∧ (cfgDistanceTolerance json p).1.sysConfig.humidityMinThreshold = p.1.sysConfig.humidityMinThreshold
      ∧ (cfgDistanceTolerance json p).1.sysConfig.humidityMaxThreshold = p.1.sysConfig.humidityMaxThreshold
      ∧ (cfgDistanceTolerance json p).1.sysConfig.enablePirControl = p.1.sysConfig.enablePirControl
      ∧ (cfgDistanceTolerance json p).1.sysConfig.retractOnUserPresent = p.1.sysConfig.retractOnUserPresent
      ∧ (cfgDistanceTolerance json p).1.sysConfig.pirRetractDelay = p.1.sysConfig.pirRetractDelay := by
  unfold cfgDistanceTolerance acceptsFloat
  cases json.distanceTolerance with
  | none => simp
  | some d =>
    dsimp only
    split
    · rename_i hc
      simp_all
    · rename_i hc
      simp_all

theorem cfgDeviceName_changed (json : FirebaseJson) (p : State × Bool) :
    ((cfgDeviceName json p).2 = (p.2 || acceptsString json.deviceName p.1.sysConfig.deviceName))
      ∧ (cfgDeviceName json p).1.sysConfig.deviceLocation = p.1.sysConfig.deviceLocation
      ∧ (cfgDeviceName json p).1.sysConfig.useCustomThresholds = p.1.sysConfig.useCustomThresholds
      ∧ (cfgDeviceName json p).1.sysConfig.tempMinThreshold = p.1.sysConfig.tempMinThreshold
      ∧ (cfgDeviceName json p).1.sysConfig.tempMaxThreshold = p.1.sysConfig.tempMaxThreshold
      ∧ (cfgDeviceName json p).1.sysConfig.humidityMinThreshold = p.1.sysConfig.humidityMinThreshold
      ∧ (cfgDeviceName json p).1.sysConfig.humidityMaxThreshold = p.1.sysConfig.humidityMaxThreshold
      ∧ (cfgDeviceName json p).1.sysConfig.enablePirControl = p.1.sysConfig.enablePirControl
      ∧ (cfgDeviceName json p).1.sysConfig.retractOnUserPresent = p.1.sysConfig.retractOnUserPresent
      ∧ (cfgDeviceName json p).1.sysConfig.pirRetractDelay = p.1.sysConfig.pirRetractDelay := by
  unfold cfgDeviceName acceptsString
  cases json.deviceName with
  | none => simp
  | some d =>
    dsimp only
    split
    · rename_i hc
      simp_all
    · rename_i hc
      simp_all

theorem cfgDeviceLocation_changed (json : FirebaseJson) (p : State × Bool) :
    ((cfgDeviceLocation json p).2 = (p.2 || acceptsString json.deviceLocation p.1.sysConfig.deviceLocation))
      ∧ (cfgDeviceLocation json p).1.sysConfig.useCustomThresholds = p.1.sysConfig.useCustomThresholds
      ∧ (cfgDeviceLocation json p).1.sysConfig.tempMinThreshold = p.1.sysConfig.tempMinThreshold
      ∧ (cfgDeviceLocation json p).1.sysConfig.tempMaxThreshold = p.1.sysConfig.tempMaxThreshold
      ∧ (cfgDeviceLocation json p).1.sysConfig.humidityMinThreshold = p.1.sysConfig.humidityMinThreshold
      ∧ (cfgDeviceLocation json p).1.sysConfig.humidityMaxThreshold = p.1.sysConfig.humidityMaxThreshold
      ∧ (cfgDeviceLocation json p).1.sysConfig.enablePirControl = p.1.sysConfig.enablePirControl
      ∧ (cfgDeviceLocation json p).1.sysConfig.retractOnUserPresent = p.1.sysConfig.retractOnUserPresent
      ∧ (cfgDeviceLocation json p).1.sysConfig.pirRetractDelay = p.1.sysConfig.pirRetractDelay := by
  unfold cfgDeviceLocation acceptsString
  cases json.deviceLocation with
  | none => simp
  | some d =>
    dsimp only
    split
    · rename_i hc
      simp_all
    · rename_i hc
      simp_all

theorem cfgUseCustomThresholds_changed (json : FirebaseJson) (p : State × Bool) :
    ((cfgUseCustomThresholds json p).2 = (p.2 || acceptsBool json.useCustomThresholds p.1.sysConfig.useCustomThresholds))
      ∧ (cfgUseCustomThresholds json p).1.sysConfig.tempMinThreshold = p.1.sysConfig.tempMinThreshold
      ∧ (cfgUseCustomThresholds json p).1.sysConfig.tempMaxThreshold = p.1.sysConfig.tempMaxThreshold
      ∧ (cfgUseCustomThresholds json p).1.sysConfig.humidityMinThreshold = p.1.sysConfig.humidityMinThreshold
      ∧ (cfgUseCustomThresholds json p).1.sysConfig.humidityMaxThreshold = p.1.sysConfig.humidityMaxThreshold
      ∧ (cfgUseCustomThresholds json p).1.sysConfig.enablePirControl = p.1.sysConfig.enablePirControl
      ∧ (cfgUseCustomThresholds json p).1.sysConfig.retractOnUserPresent = p.1.sysConfig.retractOnUserPresent
      ∧ (cfgUseCustomThresholds json p).1.sysConfig.pirRetractDelay = p.1.sysConfig.pirRetractDelay := by
  unfold cfgUseCustomThresholds acceptsBool
  cases json.useCustomThresholds with
  | none => simp
  | some d =>
    dsimp only
    split
    · rename_i hc
      simp_all
    · rename_i hc
      simp_all

theorem cfgTempMin_changed (json : FirebaseJson) (p : State × Bool) :
    ((cfgTempMin json p).2 = (p.2 || acceptsFloat json.tempMinThreshold (roundDouble (1 / 10)) 0 50 p.1.sysConfig.tempMinThreshold))
      ∧ (cfgTempMin json p).1.sysConfig.tempMaxThreshold = p.1.sysConfig.tempMaxThreshold
      ∧ (cfgTempMin json p).1.sysConfig.humidityMinThreshold = p.1.sysConfig.humidityMinThreshold
      ∧ (cfgTempMin json p).1.sysConfig.humidityMaxThreshold = p.1.sysConfig.humidityMaxThreshold
      ∧ (cfgTempMin json p).1.sysConfig.enablePirControl = p.1.sysConfig.enablePirControl
      ∧ (cfgTempMin json p).1.sysConfig.retractOnUserPresent = p.1.sysConfig.retractOnUserPresent
      ∧ (cfgTempMin json p).1.sysConfig.pirRetractDelay = p.1.sysConfig.pirRetractDelay := by
  unfold cfgTempMin acceptsFloat
  cases json.tempMinThreshold with
  | none => simp
  | some d =>
    dsimp only
    split
    · rename_i hc
      simp_all
    · rename_i hc
      simp_all

theorem cfgTempMax_changed (json : FirebaseJson) (p : State × Bool) :
    ((cfgTempMax json p).2 = (p.2 || acceptsFloat json.tempMaxThreshold (roundDouble (1 / 10)) 0 60 p.1.sysConfig.tempMaxThreshold))
      ∧ (cfgTempMax json p).1.sysConfig.humidityMinThreshold = p.1.sysConfig.humidityMinThreshold
      ∧ (cfgTempMax json p).1.sysConfig.humidityMaxThreshold = p.1.sysConfig.humidityMaxThreshold
      ∧ (cfgTempMax json p).1.sysConfig.enablePirControl = p.1.sysConfig.enablePirControl
      ∧ (cfgTempMax json p).1.sysConfig.retractOnUserPresent = p.1.sysConfig.retractOnUserPresent
      ∧ (cfgTempMax json p).1.sysConfig.pirRetractDelay = p.1.sysConfig.pirRetractDelay := by
  unfold cfgTempMax acceptsFloat
  cases json.tempMaxThreshold with
  | none => simp
  | some d =>
    dsimp only
    split
    · rename_i hc
      simp_all
    · rename_i hc
      simp_all

theorem cfgHumidityMin_changed (json : FirebaseJson) (p : State × Bool) :
    ((cfgHumidityMin json p).2 = (p.2 || acceptsFloat json.humidityMinThreshold (roundDouble (1 / 10)) 0 100 p.1.sysConfig.humidityMinThreshold))
      ∧ (cfgHumidityMin json p).1.sysConfig.humidityMaxThreshold = p.1.sysConfig.humidityMaxThreshold
      ∧ (cfgHumidityMin json p).1.sysConfig.enablePirControl = p.1.sysConfig.enablePirControl
      ∧ (cfgHumidityMin json p).1.sysConfig.retractOnUserPresent = p.1.sysConfig.retractOnUserPresent
      ∧ (cfgHumidityMin json p).1.sysConfig.pirRetractDelay = p.1.sysConfig.pirRetractDelay := by
  unfold cfgHumidityMin acceptsFloat
  cases json.humidityMinThreshold with
  | none => simp
  | some d =>
    dsimp only
    split
    · rename_i hc
      simp_all
    · rename_i hc
      simp_all

theorem cfgHumidityMax_changed (json : FirebaseJson) (p : State × Bool) :
    ((cfgHumidityMax json p).2 = (p.2 || acceptsFloat json.humidityMaxThreshold (roundDouble (1 / 10)) 0 100 p.1.sysConfig.humidityMaxThreshold))
      ∧ (cfgHumidityMax json p).1.sysConfig.enablePirControl = p.1.sysConfig.enablePirControl
      ∧ (cfgHumidityMax json p).1.sysConfig.retractOnUserPresent = p.1.sysConfig.retractOnUserPresent
      ∧ (cfgHumidityMax json p).1.sysConfig.pirRetractDelay = p.1.sysConfig.pirRetractDelay := by
  unfold cfgHumidityMax acceptsFloat
  cases json.humidityMaxThreshold with
  | none => simp
  | some d =>
    dsimp only
    split
    · rename_i hc
      simp_all
    · rename_i hc
      simp_all

theorem cfgEnablePirControl_changed (json : FirebaseJson) (p : State × Bool) :
    ((cfgEnablePirControl json p).2 = (p.2 || acceptsBool json.enablePirControl p.1.sysConfig.enablePirControl))
      ∧ (cfgEnablePirControl json p).1.sysConfig.retractOnUserPresent = p.1.sysConfig.retractOnUserPresent
      ∧ (cfgEnablePirControl json p).1.sysConfig.pirRetractDelay = p.1.sysConfig.pirRetractDelay := by
  unfold cfgEnablePirControl acceptsBool
  cases json.enablePirControl with
  | none => simp
  | some d =>
    dsimp only
    split
    · rename_i hc
      simp_all
    · rename_i hc
      simp_all

theorem cfgRetractOnUserPresent_changed (json : FirebaseJson) (p : State × Bool) :
    ((cfgRetractOnUserPresent json p).2 = (p.2 || acceptsBool json.retractOnUserPresent p.1.sysConfig.retractOnUserPresent))
      ∧ (cfgRetractOnUserPresent json p).1.sysConfig.pirRetractDelay = p.1.sysConfig.pirRetractDelay := by
  unfold cfgRetractOnUserPresent acceptsBool
  cases json.retractOnUserPresent with
  | none => simp
  | some d =>
    dsimp only
    split
    · rename_i hc
      simp_all
    · rename_i hc
      simp_all

theorem cfgPirRetractDelay_changed (json : FirebaseJson) (p : State × Bool) :
    ((cfgPirRetractDelay json p).2 = (p.2 || acceptsULong json.pirRetractDelay 0 60000 p.1.sysConfig.pirRetractDelay)) := by
  unfold cfgPirRetractDelay acceptsULong
  cases json.pirRetractDelay with
  | none => simp
  | some d =>
    dsimp only
    split
    · rename_i hc
      simp_all
    · rename_i hc
      simp_all

theorem applyRemoteConfig_changed (json : FirebaseJson) (s : State) :
    (applyRemoteConfig json s).2 = remoteChanges json s.sysConfig := by
  unfold applyRemoteConfig remoteChanges
  simp only [cfgAutoMode_changed,
    cfgMotorTimeout_changed,
    cfgSensorReadInterval_changed,
    cfgDistanceExtended_changed,
    cfgDistanceRetracted_changed,
    cfgDistanceTolerance_changed,
    cfgDeviceName_changed,
    cfgDeviceLocation_changed,
    cfgUseCustomThresholds_changed,
    cfgTempMin_changed,
    cfgTempMax_changed,
    cfgHumidityMin_changed,
    cfgHumidityMax_changed,
    cfgEnablePirControl_changed,
    cfgRetractOnUserPresent_changed,
    cfgPirRetractDelay_changed, Bool.false_or]

/-! ## C26 -/

/-- C26 (counterexample): the remote record carries a maximum temperature of
70 degrees, 30 degrees away from the local 40, and a motor timeout of 400000
ms, different from the local 30000; both are outside their bounds. The
listener returns without calling `saveConfig` and with both local values
unchanged. -/
theorem listen_ignores_out_of_range_difference :
    decide (|outOfRangeRequested.sysConfig.tempMaxThreshold - 70| > 1 / 10) = true
      ∧ outOfRangeRequested.sysConfig.motorTimeout ≠ 400000
      ∧ (listenForFirebaseConfigChanges (steadyWorld 1176) 1 outOfRangeRequested).map
          (fun s => (s.log.count Event.saveConfig, s.sysConfig.tempMaxThreshold,
            s.sysConfig.motorTimeout))
        = some (0, 40, 30000) := by
  decide!

theorem saveIfChanged_saves (w : World) (p : State × Bool) :
    (p.2 = true →
        (saveIfChanged w p).log.count Event.saveConfig = p.1.log.count Event.saveConfig + 1)
      ∧ (p.2 = false → saveIfChanged w p = p.1) := by
  obtain ⟨s, b⟩ := p
  constructor
  · intro hb
    simp only at hb
    subst hb
    cases hm : s.manualCommandInProgress <;>
      simp [saveIfChanged, saveConfig, State.emit, hm, sendAlertToFirebase, isFirebaseConnected,
        List.count_append]
  · intro hb
    simp only at hb
    subst hb
    rfl

theorem TransitFrame.saves (tgt : HangerState) (call : Event) (s s1 : State)
    (hcall : call = Event.extendCall ∨ call = Event.retractCall)
    (h : TransitFrame tgt call s s1) :
    s1.log.count Event.saveConfig = s.log.count Event.saveConfig := by
  rcases h with ⟨_, rfl⟩ | ⟨_, d, e, c, ev, rfl, hev⟩
  · rcases hcall with rfl | rfl <;> simp [List.count_append]
  · rcases hcall with rfl | rfl <;> rcases hev with rfl | rfl <;> simp [List.count_append]

theorem handleRequestedState_accepts (w : World) (fuel : Nat) (json : FirebaseJson)
    (p : State × Bool) (hidle : p.1.manualCommandInProgress = false) (hv : ValidRequest json) :
    handleRequestedState w fuel json p
        = (extendHanger w fuel (beginManualCommand "extend" HangerState.EXTENDED p.1)).map
            (fun s1 => (s1, true))
      ∨ handleRequestedState w fuel json p
        = (retractHanger w fuel (beginManualCommand "retract" HangerState.RETRACTED p.1)).map
            (fun s1 => (s1, true)) := by
  obtain ⟨d, hreq, hty, hval⟩ := hv
  unfold handleRequestedState
  rw [hreq]
  rcases hval with hval | hval | hval | hval | hval | hval
  · left
    simp only [hty, hval, hidle, if_true]
    rw [if_pos (by decide), if_pos (by decide)]
  · left
    simp only [hty, hval, hidle, if_true]
    rw [if_pos (by decide), if_pos (by decide)]
  · left
    simp only [hty, hval, hidle, if_true]
    rw [if_pos (by decide), if_pos (by decide)]
  · right
    simp only [hty, hval, hidle, if_true]
    rw [if_pos (by decide), if_neg (by decide), if_pos (by decide)]
  · right
    simp only [hty, hval, hidle, if_true]
    rw [if_pos (by decide), if_neg (by decide), if_pos (by decide)]
  · right
    simp only [hty, hval, hidle, if_true]
    rw [if_pos (by decide), if_neg (by decide), if_pos (by decide)]

/-- C26 (amended): let `listenForFirebaseConfigChanges` return. (1) When the
cloud is ready and the remote record was read, `saveConfig` is called exactly
once whenever some remote configuration field is taken over (right JSON type,
inside its bounds, and different from the local value: at all for the integer,
boolean and string fields, by a `float` difference of magnitude above 0.5 for
the three distances and above 0.1 for the four thresholds) or a valid request
is accepted with no command in progress. (2) When the cloud is not ready, or
the record could not be read, or no field is taken over and no request is
accepted, nothing is persisted and the log is unchanged. A remote value that differs but is out of
range or of the wrong type is not taken over and does not persist. (3) The
call does return when the clock advances by at least 100 ms between the polls
of a transit and the fuel covers `motorTimeout / 100 + 2` polls. -/
theorem listen_persists_iff_taken_over (w : World) (fuel : Nat) (s : State) :
    (∀ s1, listenForFirebaseConfigChanges w fuel s = some s1 →
      (w.fbReady s.fbReadyIdx = true → w.fbGet s.fbGetIdx = true →
          (remoteChanges s.remote s.sysConfig = true
            ∨ (s.manualCommandInProgress = false ∧ ValidRequest s.remote)) →
          s1.log.count Event.saveConfig = s.log.count Event.saveConfig + 1)
        ∧ ((w.fbReady s.fbReadyIdx = false ∨ w.fbGet s.fbGetIdx = false
              ∨ (remoteChanges s.remote s.sysConfig = false
                  ∧ (s.manualCommandInProgress = true ∨ NoValidRequest s.remote))) →
          s1.log = s.log))
      ∧ (ClockAdvances w s.clockIdx (afterConfigSync s).sysConfig.motorTimeout →
          (afterConfigSync s).sysConfig.motorTimeout / 100 + 2 ≤ fuel →
          ∃ s1, listenForFirebaseConfigChanges w fuel s = some s1) := by
  refine ⟨?_, fun hclock hf => listen_returns w fuel s hclock hf⟩
  intro s1 h
  obtain ⟨c, mm, hcfg, _, _⟩ := applyRemoteConfig_spec s.remote
    { s with fbReadyIdx := s.fbReadyIdx + 1, fbGetIdx := s.fbGetIdx + 1 }
  have hlog : (applyRemoteConfig s.remote
      { s with fbReadyIdx := s.fbReadyIdx + 1, fbGetIdx := s.fbGetIdx + 1 }).1.log
      = s.log := by rw [hcfg]
  have hmc : (applyRemoteConfig s.remote
      { s with fbReadyIdx := s.fbReadyIdx + 1, fbGetIdx := s.fbGetIdx + 1
        }).1.manualCommandInProgress = s.manualCommandInProgress := by rw [hcfg]
  have hflag : (applyRemoteConfig s.remote
      { s with fbReadyIdx := s.fbReadyIdx + 1, fbGetIdx := s.fbGetIdx + 1 }).2
      = remoteChanges s.remote s.sysConfig := applyRemoteConfig_changed s.remote _
  constructor
  · intro hready hget hcause
    rw [listen_connected w fuel s hready hget] at h
    obtain ⟨q, hq, rfl⟩ := Option.map_eq_some'.mp h
    have hext : ∀ m, extendHanger w fuel (beginManualCommand "extend" HangerState.EXTENDED
        (applyRemoteConfig s.remote
          { s with fbReadyIdx := s.fbReadyIdx + 1, fbGetIdx := s.fbGetIdx + 1 }).1) = some m →
        (saveIfChanged w (m, true)).log.count Event.saveConfig
          = s.log.count Event.saveConfig + 1 := by
      intro m hm
      rw [(saveIfChanged_saves w (m, true)).1 rfl,
        TransitFrame.saves _ _ _ m (Or.inl rfl) (extendHanger_frame w fuel _ m hm)]
      show (applyRemoteConfig s.remote _).1.log.count Event.saveConfig + 1 = _
      rw [hlog]
    have hret : ∀ m, retractHanger w fuel (beginManualCommand "retract" HangerState.RETRACTED
        (applyRemoteConfig s.remote
          { s with fbReadyIdx := s.fbReadyIdx + 1, fbGetIdx := s.fbGetIdx + 1 }).1) = some m →
        (saveIfChanged w (m, true)).log.count Event.saveConfig
          = s.log.count Event.saveConfig + 1 := by
      intro m hm
      rw [(saveIfChanged_saves w (m, true)).1 rfl,
        TransitFrame.saves _ _ _ m (Or.inr rfl) (retractHanger_frame w fuel _ m hm)]
      show (applyRemoteConfig s.remote _).1.log.count Event.saveConfig + 1 = _
      rw [hlog]
    rcases hcause with hch | ⟨hidle, hv⟩
    · rcases handleRequestedState_cases w fuel s.remote _ q hq with rfl | ⟨_, m, hm, rfl⟩
          | ⟨_, m, hm, rfl⟩
      · rw [(saveIfChanged_saves w _).1 (by rw [hflag]; exact hch), hlog]
      · exact hext m hm
      · exact hret m hm
    · rcases handleRequestedState_accepts w fuel s.remote _ (by rw [hmc]; exact hidle) hv
        with he | he
      · rw [he] at hq
        obtain ⟨m, hm, rfl⟩ := Option.map_eq_some'.mp hq
        exact hext m hm
      · rw [he] at hq
        obtain ⟨m, hm, rfl⟩ := Option.map_eq_some'.mp hq
        exact hret m hm
  · intro hno
    unfold listenForFirebaseConfigChanges at h
    simp only [isFirebaseConnected] at h
    by_cases hr : w.fbReady s.fbReadyIdx = true
    · simp only [hr, Bool.not_true, Bool.false_eq_true, if_false] at h
      by_cases hg : w.fbGet s.fbGetIdx = true
      · simp only [hg, if_true] at h
        rcases hno with h1 | h1 | ⟨hch, hq⟩
        · rw [hr] at h1; exact absurd h1 (by decide)
        · rw [hg] at h1; exact absurd h1 (by decide)
        · rw [handleRequestedState_quiet w fuel s.remote _
            (by rcases hq with h2 | h2
                · left; rw [hmc]; exact h2
                · right; exact h2),
            Option.map_some', Option.some.injEq] at h
          rw [← h, (saveIfChanged_saves w _).2 (by rw [hflag]; exact hch), hlog]
      · simp only [hg, Bool.false_eq_true, if_false, Option.some.injEq] at h
        rw [← h]
    · simp only [hr, Bool.not_false, if_true, Option.some.injEq] at h
      rw [← h]

/-- C26 (witness): the remote record lowers the maximum temperature from 40
to 38 degrees, inside [0, 60]: the listener persists once. A remote minimum of
25.1 against a local 25 is taken over, and so is a remote 0.025 against a local
0.125, whose exact difference is below 0.1 while the `float` difference is
above the `double` 0.1. -/
theorem listen_persists_iff_taken_over_witness :
    remoteChanges coolerMaximumRequested.remote coolerMaximumRequested.sysConfig = true
      ∧ (∃ s1, listenForFirebaseConfigChanges (steadyWorld 1176) 1 coolerMaximumRequested
            = some s1
          ∧ s1.log.count Event.saveConfig
              = coolerMaximumRequested.log.count Event.saveConfig + 1)
      ∧ remoteChanges tenthAboveRequested.remote tenthAboveRequested.sysConfig = true
      ∧ decide (|(1 / 8 : ℚ) - roundFloat (25 / 1000)| < 1 / 10) = true
      ∧ ∃ s1, listenForFirebaseConfigChanges (steadyWorld 1176) 1 roundedDifferenceRequested
            = some s1
          ∧ s1.log.count Event.saveConfig
              = roundedDifferenceRequested.log.count Event.saveConfig + 1 := by
  have hc : remoteChanges coolerMaximumRequested.remote coolerMaximumRequested.sysConfig
      = true := by decide!
  have hd : remoteChanges roundedDifferenceRequested.remote
      roundedDifferenceRequested.sysConfig = true := by decide!
  have h : (listenForFirebaseConfigChanges (steadyWorld 1176) 1
      coolerMaximumRequested).isSome = true := by decide!
  have h2 : (listenForFirebaseConfigChanges (steadyWorld 1176) 1
      roundedDifferenceRequested).isSome = true := by decide!
  obtain ⟨a, ha⟩ := Option.isSome_iff_exists.mp h
  obtain ⟨b, hb⟩ := Option.isSome_iff_exists.mp h2
  exact ⟨hc, ⟨a, ha, ((listen_persists_iff_taken_over (steadyWorld 1176) 1
      coolerMaximumRequested).1 a ha).1 rfl rfl (Or.inl hc)⟩,
    by decide!, by decide!,
    ⟨b, hb, ((listen_persists_iff_taken_over (steadyWorld 1176) 1
      roundedDifferenceRequested).1 b hb).1 rfl rfl (Or.inl hd)⟩⟩

/-! ## C17 -/

/-- C17 (counterexample): privacy policy, delay 5000 ms, Position Retracted,
good conditions. A motion impulse is read at clock time 20000 and
`handlePirControl` observes the flip to present at `t0 = 29000`: it arms the
delay and takes no action. The next `readPIR`, at 31000, finds the 10 s hold
window over and reports the user absent; the `handlePirControl` call that
follows runs `executePirAction` at once and extends, its last clock read being
31300, well before `t0 + 5000 = 34000`. -/
theorem handlePirControl_acts_inside_delay :
    (handlePirControl slowCycleWorld 1 (readPIR slowCycleWorld nobodyYetRetracted)).map
        (fun s => (s.pirDelayActive, s.pirDelayStartTime, s.log))
      = some (true, 29000, [])
    ∧ ((handlePirControl slowCycleWorld 1 (readPIR slowCycleWorld nobodyYetRetracted)).bind
          (fun s => handlePirControl slowCycleWorld 1 (readPIR slowCycleWorld s))).map
        (fun s => (s.log.count Event.extendCall, s.currentState,
          slowCycleWorld.clock (s.clockIdx - 1)))
      = some (1, HangerState.EXTENDED, 31300) := by
  decide!

theorem handlePirControl_flip_back (w : World) (fuel : Nat) (s : State)
    (he : s.sysConfig.enablePirControl = true) (hl : s.lastUserPresence = true)
    (hu : s.userPresent = false) :
    handlePirControl w fuel s
      = (executePirAction w fuel s).bind fun s1 =>
          pirDelayedAction w fuel (max 5000 s.sysConfig.pirRetractDelay)
            { (millis w { s1 with lastUserPresence := s1.userPresent }).2 with
                lastPirAction := (millis w { s1 with lastUserPresence := s1.userPresent }).1 } := by
  simp [handlePirControl, he, hl, hu]

/-- C17 (amended): occupancy control enabled, privacy policy, action delay
5000 ms. (1) The call that observes the flip from absent to present at clock
time `t0` takes no action and arms the delayed action at `t0`. (2) A later
call made before `t0 + 5000` while the user is still reported present takes no
action and leaves the action armed. (3) A call that finds the user reported
absent again while the action is armed does not wait: it runs
`executePirAction` at once, which under the privacy policy is an `extendHanger`
when Position is Retracted and the conditions are good. (4) The first call at
or after `t0 + 5000` (less than 2^32 ms after `t0`) with the user still
present and Position Extended performs exactly one `retractHanger`, which
returns when the clock advances by at least 100 ms between polls, and disarms;
with Position not Extended it performs no motor action and disarms. (5) Once
disarmed, a call without a new flip returns the state unchanged, so the
retract has fired exactly once. -/
theorem privacy_delay_fires_once (w : World) (fuel : Nat) (s : State) (t0 : Nat) :
    (PrivacyDelay5000 s → s.lastUserPresence = false → s.userPresent = true →
        w.clock s.clockIdx = t0 →
        ∃ s1, handlePirControl w fuel s = some s1 ∧ PirArmed t0 s1 ∧ s1.log = s.log
          ∧ s1.currentState = s.currentState)
      ∧ (PirArmed t0 s → t0 ≤ w.clock s.clockIdx → w.clock s.clockIdx < t0 + 5000 →
        ∃ s1, handlePirControl w fuel s = some s1 ∧ PirArmed t0 s1 ∧ s1.log = s.log
          ∧ s1.currentState = s.currentState)
      ∧ (PrivacyDelay5000 s → s.pirDelayActive = true → s.lastUserPresence = true →
          s.userPresent = false →
        handlePirControl w fuel s
            = (executePirAction w fuel s).bind (fun s1 =>
                pirDelayedAction w fuel 5000
                  { (millis w { s1 with lastUserPresence := s1.userPresent }).2 with
                      lastPirAction :=
                        (millis w { s1 with lastUserPresence := s1.userPresent }).1 })
          ∧ (s.currentState = HangerState.RETRACTED → isGoodDryingConditions s = true →
              executePirAction w fuel s
                = (extendHanger w fuel s).map (sendAlertToFirebase w "INFO")))
      ∧ (PirArmed t0 s → t0 + 5000 ≤ w.clock s.clockIdx →
          w.clock s.clockIdx < t0 + ULONG_MOD → s.currentState = HangerState.EXTENDED →
          ClockAdvances w (s.clockIdx + 1) s.sysConfig.motorTimeout →
          s.sysConfig.motorTimeout / 100 + 2 ≤ fuel →
        ∃ s1, handlePirControl w fuel s = some s1 ∧ PirSettled s1
          ∧ s1.log.count Event.retractCall = s.log.count Event.retractCall + 1
          ∧ s1.log.count Event.extendCall = s.log.count Event.extendCall
          ∧ s1.currentState = HangerState.RETRACTED)
      ∧ (PirArmed t0 s → t0 + 5000 ≤ w.clock s.clockIdx →
          w.clock s.clockIdx < t0 + ULONG_MOD → s.currentState ≠ HangerState.EXTENDED →
        ∃ s1, handlePirControl w fuel s = some s1 ∧ PirSettled s1 ∧ s1.log = s.log
          ∧ s1.currentState = s.currentState)
      ∧ (PirSettled s → handlePirControl w fuel s = some s) := by
  refine ⟨?_, ?_, ?_, ?_, ?_, ?_⟩
  · rintro ⟨he, hp, hd⟩ hl hu ht
    refine ⟨_, handlePirControl_arm w fuel s he hl hu, ⟨⟨he, hp, hd⟩, rfl, ?_, rfl, hu⟩, rfl, rfl⟩
    show w.clock s.clockIdx % ULONG_MOD = t0 % ULONG_MOD
    rw [ht]
  · rintro ⟨⟨he, hp, hd⟩, ha, hs, hl, hu⟩ h1 h2
    have hlt : usub (w.clock s.clockIdx % ULONG_MOD) s.pirDelayStartTime
        < max 5000 s.sysConfig.pirRetractDelay := by
      rw [hs, hd, usub_of_le _ _ h1 (by unfold ULONG_MOD; omega)]
      omega
    exact ⟨_, handlePirControl_wait w fuel s he (by rw [hl, hu]) ha hlt,
      ⟨⟨he, hp, hd⟩, ha, hs, hl, hu⟩, rfl, rfl⟩
  · rintro ⟨he, hp, hd⟩ _ hl hu
    constructor
    · have h := handlePirControl_flip_back w fuel s he hl hu
      rw [hd] at h
      exact h
    · intro hc hg
      have hpol : occupancyPolicy s = MotorAction.extend := by
        simp [occupancyPolicy, hp, hu, hc, hg]
      rw [executePirAction_eq, hpol]
  · rintro ⟨⟨he, hp, hd⟩, ha, hs, hl, hu⟩ h1 h2 hc hclock hf
    have hge : max 5000 s.sysConfig.pirRetractDelay
        ≤ usub (w.clock s.clockIdx % ULONG_MOD) s.pirDelayStartTime := by
      rw [hs, hd, usub_of_le _ _ (by omega) h2]
      omega
    obtain ⟨r, hr⟩ := retractHanger_returns w fuel (millis w s).2 hclock hf
    have hpol : occupancyPolicy (millis w s).2 = MotorAction.retract := by
      simp [occupancyPolicy, millis, hp, hu, hc]
    have hx : executePirAction w fuel (millis w s).2
        = some (sendAlertToFirebase w "INFO" r) := by
      rw [executePirAction_eq, hpol]
      simp only [hr, Option.map_some']
    refine ⟨_, by rw [handlePirControl_expire w fuel s he (by rw [hl, hu]) ha hge, hx]; rfl,
      ?_, ?_, ?_, ?_⟩
    · rcases retractHanger_frame w fuel _ r hr with ⟨hcr, _⟩ | ⟨_, d, e, c, ev, rfl, _⟩
      · simp [millis, hc] at hcr
      · exact ⟨⟨he, hp, hd⟩, rfl, hl, hu⟩
    · have := ((retractHanger_effect w fuel _ r hr).1.seq
        (sendAlertToFirebase_effect w "INFO" r).1).2.2
      simpa [millis] using this
    · have := ((retractHanger_effect w fuel _ r hr).1.seq
        (sendAlertToFirebase_effect w "INFO" r).1).2.1
      simpa [millis] using this
    · exact (retractHanger_effect w fuel _ r hr).2
  · rintro ⟨⟨he, hp, hd⟩, ha, hs, hl, hu⟩ h1 h2 hc
    have hge : max 5000 s.sysConfig.pirRetractDelay
        ≤ usub (w.clock s.clockIdx % ULONG_MOD) s.pirDelayStartTime := by
      rw [hs, hd, usub_of_le _ _ (by omega) h2]
      omega
    have hpol : occupancyPolicy (millis w s).2 = MotorAction.noAction := by
      simp [occupancyPolicy, millis, hp, hu, hc]
    have hx : executePirAction w fuel (millis w s).2 = some (millis w s).2 := by
      rw [executePirAction_eq, hpol]
    have e : handlePirControl w fuel s
        = some { (millis w s).2 with
                  pirDelayActive := false, clockIdx := (millis w s).2.clockIdx + 1,
                  lastPirAction := w.clock (millis w s).2.clockIdx % ULONG_MOD } := by
      rw [handlePirControl_expire w fuel s he (by rw [hl, hu]) ha hge, hx]
      rfl
    exact ⟨_, e, ⟨⟨he, hp, hd⟩, rfl, hl, hu⟩, rfl, rfl⟩
  · rintro ⟨_, ha, hl, hu⟩
    exact handlePirControl_idle w fuel s (by rw [hl, hu]) ha

/-- C17 (witness): the user arrives at clock time 100 with Position Extended;
calls follow at 2000 and 6000. The first call arms, the call at 6000 retracts,
and over four calls in a row `retractHanger` runs once. -/
theorem privacy_delay_fires_once_witness :
    (∃ s1, handlePirControl arrivalWorld 302 userJustArrived = some s1 ∧ PirArmed 100 s1)
      ∧ (∃ s1, handlePirControl arrivalWorld 302 armedSince100 = some s1 ∧ PirSettled s1
          ∧ s1.log.count Event.retractCall = 1)
      ∧ ((((handlePirControl arrivalWorld 302 userJustArrived).bind
              (handlePirControl arrivalWorld 302)).bind
              (handlePirControl arrivalWorld 302)).bind
              (handlePirControl arrivalWorld 302)).map
            (fun s1 => (s1.log.count Event.retractCall, s1.currentState))
          = some (1, HangerState.RETRACTED) := by
  have hclock : ClockAdvances arrivalWorld (armedSince100.clockIdx + 1)
      armedSince100.sysConfig.motorTimeout := by
    refine ⟨by decide, ?_, ?_⟩
    · intro i
      show (if 2 + 1 + 1 + i = 0 then 100 else if 2 + 1 + 1 + i = 1 then 2000
            else 5800 + 100 * (2 + 1 + 1 + i)) + 100
          ≤ (if 2 + 1 + 1 + i + 1 = 0 then 100 else if 2 + 1 + 1 + i + 1 = 1 then 2000
            else 5800 + 100 * (2 + 1 + 1 + i + 1))
      rw [if_neg (by omega), if_neg (by omega), if_neg (by omega), if_neg (by omega)]
      omega
    · intro i
      show (if 2 + 1 + i + 1 = 0 then 100 else if 2 + 1 + i + 1 = 1 then 2000
            else 5800 + 100 * (2 + 1 + i + 1))
          - (if 2 + 1 + i = 0 then 100 else if 2 + 1 + i = 1 then 2000
            else 5800 + 100 * (2 + 1 + i)) + 30000 < 4294967296
      rw [if_neg (by omega), if_neg (by omega), if_neg (by omega), if_neg (by omega)]
      omega
  refine ⟨?_, ?_, by decide!⟩
  · obtain ⟨s1, h1, h2, _, _⟩ :=
      (privacy_delay_fires_once arrivalWorld 302 userJustArrived 100).1 ⟨rfl, rfl, rfl⟩
        rfl rfl rfl
    exact ⟨s1, h1, h2⟩
  · obtain ⟨s1, h1, h2, h3, _, _⟩ :=
      (privacy_delay_fires_once arrivalWorld 302 armedSince100 100).2.2.2.1
        ⟨⟨rfl, rfl, rfl⟩, rfl, rfl, rfl, rfl⟩ (by decide) (by decide) rfl hclock (by decide)
    exact ⟨s1, h1, h2, h3⟩

end SmartHanger
